import Mathlib

/-!
Verification development for the bare-metal HTTP server.

The C sources (`http_handler.c`, `routes.c`, `api.c`, `api_client.c`, `utils.c`,
`main.c`, `server.c`) are embedded as Lean functions, and properties of the
request parser, the router, the handlers, the JSON builder and parser, the URL
decoder, the response serializer, the connection handler, the listener loop
and the program entry are proved about them.

Conventions of the embedding

* A byte is a `Char`; the NUL byte is `'\x00'`.  Non-ASCII text of the sources is
  written as its UTF-8 bytes.
* A `char *` that the code treats as a C string is modelled by its content, the
  list of bytes before the terminating NUL.  A pointer that may be `NULL` is an
  `Option`.
* A buffer that the code rewrites in place (`url_decode`) is the list of its
  bytes, the terminating NUL included, with the offsets into it.
* `malloc` fails for a size above `PTRDIFF_MAX`, which the request parser can
  ask for; every other `malloc`, `strdup` and `realloc` is assumed to succeed.
* `int` is `Int` (overflow wraps to 32 bits where the code computes), `size_t`
  is `Nat` (a conversion from `int` is taken modulo `2^64`).
* A dereference of `NULL` is the result `Except.error Fault.null_deref`.
* Loops that the C code runs on pointers are run on a fuel counter; a loop
  that exhausts its fuel yields `none`, and the theorems show this does not
  happen.
* What a function gets from the system (`recv`, `send`, `select`, `accept`,
  the clock) is an argument of its embedding; where the order of the calls
  matters the embedding returns the sequence of calls made.
-/

namespace HttpServer

/-! ## C strings -/

/-- The NUL byte terminating a C string. -/
def NUL : Char := '\x00'

/-- The carriage return and line feed sequence that ends a line. -/
def CRLF : List Char := ['\r', '\n']

/-- Content of the C string stored at the start of a buffer: the bytes before
the first NUL. -/
def cstr : List Char → List Char
  | [] => []
  | c :: cs => if c = NUL then [] else c :: cstr cs

/-- Result of `strstr(hay, needle)`: the offset of the first occurrence of
`needle` in `hay`, or `none` for a `NULL` result. -/
def strstr : List Char → List Char → Option Nat
  | [], needle => if needle = [] then some 0 else none
  | c :: hay, needle =>
    if needle.isPrefixOf (c :: hay) then some 0
    else (strstr hay needle).map (· + 1)

/-- Result of `strchr(s, c)`: the offset of the first `c` in `s`, or `none`. -/
def strchr : List Char → Char → Option Nat
  | [], _ => none
  | x :: xs, c => if x = c then some 0 else (strchr xs c).map (· + 1)

/-- Test `strncmp(a, b, n) == 0`: the strings agree on their first `n` bytes
(or are equal when shorter). -/
def strncmp_eq (a b : List Char) (n : Nat) : Bool :=
  a.take n == b.take n

/-- The C-locale `tolower`: only `A`..`Z` are changed. -/
def tolower (c : Char) : Char :=
  if 'A'.toNat ≤ c.toNat ∧ c.toNat ≤ 'Z'.toNat then Char.ofNat (c.toNat + 32) else c

/-- Test `strncasecmp(a, b, n) == 0`. -/
def strncasecmp_eq (a b : List Char) (n : Nat) : Bool :=
  (a.take n).map tolower == (b.take n).map tolower

/-- The C-locale `isspace`. -/
def isspace (c : Char) : Bool :=
  c = ' ' || c = '\t' || c = '\n' || c = '\x0b' || c = '\x0c' || c = '\r'

/-- The C `isdigit`. -/
def isdigit (c : Char) : Bool :=
  decide ('0'.toNat ≤ c.toNat) && decide (c.toNat ≤ '9'.toNat)

/-- Value of a run of decimal digits, most significant first. -/
def digits_value (ds : List Char) : Nat :=
  ds.foldl (fun acc d => acc * 10 + (d.toNat - '0'.toNat)) 0

/-- Two's-complement reduction of an integer to a signed 32-bit `int`. -/
def wrap32 (v : Int) : Int :=
  (v + 2 ^ 31) % 2 ^ 32 - 2 ^ 31

/-- Saturation of an integer to a signed 64-bit `long`, as `strtol` does. -/
def clamp64 (v : Int) : Int :=
  if v < -(2 ^ 63) then -(2 ^ 63) else if 2 ^ 63 - 1 < v then 2 ^ 63 - 1 else v

/-- The library function `atoi`: leading white space, an optional sign, then the
longest run of digits.  A value outside `int` is undefined in ISO C; the model
follows glibc, `(int) strtol(s, NULL, 10)`. -/
def atoi (s : List Char) : Int :=
  let t := s.dropWhile isspace
  let neg : Bool := t.head? = some '-'
  let u := if t.head? = some '-' ∨ t.head? = some '+' then t.drop 1 else t
  let v : Int := (digits_value (u.takeWhile isdigit) : Nat)
  wrap32 (clamp64 (if neg then -v else v))

/-- Conversion of an `int` to `size_t` (64 bits). -/
def size_t_of_int (v : Int) : Nat :=
  (v % 2 ^ 64).toNat

/-- The result of `malloc(size)` as far as the code tests it: a request above
`PTRDIFF_MAX` returns `NULL` (glibc refuses it, and no block of that size
exists in a 64-bit address space); a request within it is taken to succeed. -/
def malloc_succeeds (size : Nat) : Bool :=
  decide (size ≤ 2 ^ 63 - 1)

/-- Decimal digits of a natural number, most significant first, on a fuel
counter (`n + 1` steps always suffice). -/
def decimal_aux : Nat → Nat → List Char → List Char
  | 0, _, acc => acc
  | fuel + 1, n, acc =>
    if n < 10 then Char.ofNat (n + 48) :: acc
    else decimal_aux fuel (n / 10) (Char.ofNat (n % 10 + 48) :: acc)

/-- Text printed by `%zu` (and by `%d` for a non-negative value). -/
def decimal (n : Nat) : List Char :=
  decimal_aux (n + 1) n []

/-- Text printed by `%d`. -/
def decimal_int (v : Int) : List Char :=
  if v < 0 then '-' :: decimal v.natAbs else decimal v.natAbs

/-- Text that `snprintf(buf, size, ...)` leaves in `buf` when the full
formatted text is `s`: at most `size - 1` bytes. -/
def snprintf (size : Nat) (s : List Char) : List Char :=
  s.take (size - 1)

/-! ## Data model (`http_server.h`) -/

/-- The enumeration `HttpMethod`. -/
inductive HttpMethod where
  | HTTP_GET
  | HTTP_POST
  | HTTP_UNKNOWN
  deriving DecidableEq, Repr

/-- The structure `HttpRequest`.  `path` (256 bytes) and `content_type` (128
bytes) hold C strings; `body` is `NULL` or an owned C string. -/
structure HttpRequest where
  method : HttpMethod
  path : List Char
  content_type : List Char
  body : Option (List Char)
  body_length : Nat
  client_ip : List Char
  deriving DecidableEq, Repr

/-- The structure `HttpResponse`.  `body` is `NULL` or the bytes of the owned
buffer (text or binary). -/
structure HttpResponse where
  status_code : Int
  content_type : List Char
  body : Option (List Char)
  body_length : Nat
  deriving DecidableEq, Repr

/-- The request after `memset(&request, 0, sizeof(request))`. -/
def zero_request : HttpRequest :=
  { method := HttpMethod.HTTP_GET, path := [], content_type := [], body := none,
    body_length := 0, client_ip := [] }

/-- Faults of the C program that end the process. -/
inductive Fault where
  | null_deref
  | no_termination
  deriving DecidableEq, Repr

/-! ## Request parser (`http_handler.c`) -/

/-- The step `next = strstr(line, "\r\n"); if (next) { *next = '\0'; next += 2; }`:
the line cut at the first CRLF and the text after it (`none` when there is no
CRLF). -/
def cut_line (line : List Char) : List Char × Option (List Char) :=
  match strstr line CRLF with
  | some i => (line.take i, some (line.drop (i + 2)))
  | none => (line, none)

/-- The method test of `parse_http_request` on the request line. -/
def parse_method (line : List Char) : HttpMethod :=
  if strncmp_eq line "GET".toList 3 then HttpMethod.HTTP_GET
  else if strncmp_eq line "POST".toList 4 then HttpMethod.HTTP_POST
  else HttpMethod.HTTP_UNKNOWN

/-- The path step of `parse_http_request`: the text between the first and the
second space of the request line is copied when it is shorter than the
256-byte buffer; otherwise `path` keeps its previous content. -/
def parse_path (line : List Char) (path : List Char) : List Char :=
  match strchr line ' ' with
  | none => path
  | some i =>
    let path_start := line.drop (i + 1)
    match strchr path_start ' ' with
    | none => path
    | some path_len =>
      if path_len < 256 then path_start.take path_len else path

/-- The value of a `Content-Type:` line: spaces after the colon are skipped and
`strncpy` keeps at most 127 bytes (the last byte of the zeroed buffer stays
NUL). -/
def content_type_value (line : List Char) : List Char :=
  ((line.drop 13).dropWhile (· = ' ')).take 127

/-- State of the header loop: the `line` pointer, the stored content type and
`content_length`. -/
structure HeaderState where
  line : Option (List Char)
  content_type : List Char
  content_length : Nat
  deriving DecidableEq, Repr

/-- The header loop `while (line && *line != '\0') { ... }` of
`parse_http_request`. -/
def header_loop : Nat → HeaderState → Option HeaderState
  | fuel, st =>
    match st.line with
    | none => some st
    | some [] => some st
    | some (c :: cs) =>
      match fuel with
      | 0 => none
      | fuel + 1 =>
        let cur := (cut_line (c :: cs)).1
        let next_line := (cut_line (c :: cs)).2
        if cur = [] then
          some { st with line := next_line }
        else
          let ct :=
            if strncasecmp_eq cur "Content-Type:".toList 13 then content_type_value cur
            else st.content_type
          let cl :=
            if strncasecmp_eq cur "Content-Length:".toList 15 then
              size_t_of_int (atoi (cur.drop 15))
            else st.content_length
          header_loop fuel { line := next_line, content_type := ct, content_length := cl }

/-- The function `parse_http_request(raw_request, request)`: the request after
the call (`none` only if the header loop ran out of fuel). -/
def parse_http_request (raw_request : List Char) (request : HttpRequest) :
    Option HttpRequest :=
  let request_copy := cstr raw_request
  let line := (cut_line request_copy).1
  let next_line := (cut_line request_copy).2
  let method := parse_method line
  let path := parse_path line request.path
  match header_loop (request_copy.length + 1)
      { line := next_line, content_type := request.content_type, content_length := 0 } with
  | none => none
  | some st =>
    match st.line with
    | some rest =>
      if method = HttpMethod.HTTP_POST ∧ 0 < st.content_length then
        if malloc_succeeds ((st.content_length + 1) % 2 ^ 64) then
          some { request with
            method := method, path := path, content_type := st.content_type,
            body := some (rest.take st.content_length),
            body_length := st.content_length }
        else
          some { request with
            method := method, path := path, content_type := st.content_type,
            body := none,
            body_length := st.content_length }
      else
        some { request with method := method, path := path, content_type := st.content_type }
    | none =>
      some { request with method := method, path := path, content_type := st.content_type }

/-! ## Response serializer (`http_handler.c`) -/

/-- The reason phrase chosen by the `switch` of `send_http_response`. -/
def status_message (status_code : Int) : List Char :=
  if status_code = 200 then "OK".toList
  else if status_code = 404 then "Not Found".toList
  else if status_code = 500 then "Internal Server Error".toList
  else "Unknown".toList

/-- The text formatted by the `snprintf` of `send_http_response` from a status
code (`%d`), a reason phrase and a content type (`%s`) and a body length
(`%zu`). -/
def header_text (status_code : Int) (reason content_type : List Char) (body_length : Nat) :
    List Char :=
  "HTTP/1.1 ".toList ++ decimal_int status_code ++ " ".toList ++ reason ++ CRLF
    ++ "Content-Type: ".toList ++ content_type ++ CRLF
    ++ "Content-Length: ".toList ++ decimal body_length ++ CRLF
    ++ "Connection: close".toList ++ CRLF
    ++ CRLF

/-- One call `send(client_fd, buf, len, 0)`: the bytes stored at `buf`, the
length argument and the value the call returned. -/
structure SendCall where
  buf : List Char
  len : Nat
  ret : Int
  deriving DecidableEq, Repr

/-- Behaviour of the socket: the value `send` returns for a buffer and a
length. -/
abbrev Socket := List Char → Nat → Int

/-- A socket on which every `send` writes all the bytes it is given. -/
def full_send : Socket := fun _ len => (len : Int)

/-- A socket on which every `send` fails. -/
def failing_send : Socket := fun _ _ => -1

/-- The function `send_http_response(client_fd, response)`: the calls of `send`
it makes, in order. -/
def send_http_response (sock : Socket) (response : HttpResponse) : List SendCall :=
  let formatted := header_text response.status_code (status_message response.status_code)
    response.content_type response.body_length
  let headers := snprintf 1024 formatted
  let header_len := formatted.length
  let sent := sock headers header_len
  let first : SendCall := { buf := headers, len := header_len, ret := sent }
  if sent < 0 then [first]
  else
    match response.body with
    | some body =>
      if 0 < response.body_length then
        [first, { buf := body, len := response.body_length,
                  ret := sock body response.body_length }]
      else [first]
    | none => [first]

/-- Bytes put on the wire by one call of `send`: the first `ret` bytes of the
buffer (`none` if that would read past the bytes stored there). -/
def SendCall.written (c : SendCall) : Option (List Char) :=
  if c.ret < 0 then some []
  else if c.ret.toNat ≤ c.buf.length then some (c.buf.take c.ret.toNat)
  else none

/-- Bytes put on the wire by a sequence of calls of `send`. -/
def wire_bytes : List SendCall → Option (List Char)
  | [] => some []
  | c :: cs =>
    match c.written, wire_bytes cs with
    | some a, some b => some (a ++ b)
    | _, _ => none

/-- Number of bytes the calls after the header call put on the wire. -/
def body_bytes_sent (calls : List SendCall) : Nat :=
  ((calls.drop 1).map (fun c => c.ret.toNat)).sum

/-! ## JSON builder (`api.c`) -/

/-- The structure `JSONBuilder`; `buffer` is the C string it holds. -/
structure JSONBuilder where
  buffer : List Char
  size : Nat
  capacity : Nat
  deriving DecidableEq, Repr

/-- The function `json_builder_create`. -/
def json_builder_create : JSONBuilder :=
  { buffer := [], size := 0, capacity := 4096 }

/-- The loop `while (size + len + 1 > capacity) capacity *= 2` of
`json_builder_append`, as the final capacity for `need = size + len + 1`. -/
def grow_capacity : Nat → Nat → Nat → Option Nat
  | fuel, need, capacity =>
    if need > capacity then
      match fuel with
      | 0 => none
      | fuel + 1 => grow_capacity fuel need (capacity * 2)
    else some capacity

/-- The function `json_builder_append(jb, str)`. -/
def json_builder_append (jb : JSONBuilder) (str : List Char) : Except Fault JSONBuilder :=
  let len := str.length
  match grow_capacity (jb.size + len + 1) (jb.size + len + 1) jb.capacity with
  | none => Except.error Fault.no_termination
  | some capacity =>
    Except.ok { buffer := jb.buffer ++ str, size := jb.size + len, capacity := capacity }

/-- The two bytes (or the one byte) `json_builder_append_escaped` writes for an
input byte. -/
def escape_char (c : Char) : List Char :=
  if c = '"' then ['\\', '"']
  else if c = '\\' then ['\\', '\\']
  else if c = '\n' then ['\\', 'n']
  else if c = '\r' then ['\\', 'r']
  else if c = '\t' then ['\\', 't']
  else [c]

/-- The loop `for (i = 0; str[i] && j < sizeof(escaped) - 2; i++)` of
`json_builder_append_escaped`, started with `j` bytes already written. -/
def escape_loop : List Char → Nat → List Char
  | [], _ => []
  | c :: cs, j =>
    if j < 2048 - 2 then escape_char c ++ escape_loop cs (j + (escape_char c).length)
    else []

/-- The function `json_builder_append_escaped(jb, str)`. -/
def json_builder_append_escaped (jb : JSONBuilder) (str : List Char) :
    Except Fault JSONBuilder :=
  json_builder_append jb (escape_loop str 0)

/-- The function `json_builder_finalize(jb)`. -/
def json_builder_finalize (jb : JSONBuilder) : List Char :=
  jb.buffer

/-- A builder to which the given strings were appended in order. -/
def json_builder_append_all (jb : JSONBuilder) : List (List Char) → Except Fault JSONBuilder
  | [] => Except.ok jb
  | s :: rest =>
    match json_builder_append jb s with
    | Except.ok jb1 => json_builder_append_all jb1 rest
    | Except.error e => Except.error e

/-! ## JSON parser (`api.c`)

The parser state `{json, pos, length}` is represented by the unread text
`json[pos .. length)`. -/

/-- The white space test of `skip_whitespace`. -/
def is_json_space (c : Char) : Bool :=
  c = ' ' || c = '\n' || c = '\r' || c = '\t'

/-- The function `skip_whitespace(p)`. -/
def skip_whitespace (rest : List Char) : List Char :=
  rest.dropWhile is_json_space

/-- The scan of `json_parse_string` after the opening quote: the bytes up to
the closing quote, a backslash skipping the byte after it; `none` when the text
ends first. -/
def scan_string : List Char → Option (List Char)
  | [] => none
  | [c] => if c = '"' then some [] else none
  | c :: d :: ds =>
    if c = '"' then some []
    else if c = '\\' then (scan_string ds).map (fun v => c :: d :: v)
    else (scan_string (d :: ds)).map (fun v => c :: v)

/-- The function `json_parse_string(p)`: the string value, or `none` for `NULL`. -/
def json_parse_string (rest : List Char) : Option (List Char) :=
  match skip_whitespace rest with
  | [] => none
  | c :: cs => if c = '"' then scan_string cs else none

/-- The function `json_parse_int(p)`, computing in 32-bit `int`. -/
def json_parse_int (rest : List Char) : Int :=
  let t := skip_whitespace rest
  let sign : Int := if t.head? = some '-' then -1 else 1
  let u := if t.head? = some '-' then t.drop 1 else t
  let value := (u.takeWhile isdigit).foldl
    (fun (value : Int) d => wrap32 (value * 10 + ((d.toNat : Int) - ('0'.toNat : Int)))) 0
  wrap32 (value * sign)

/-- The text `"key"` that `json_get_string_value` and `json_get_int_value`
search for (`snprintf` into 256 bytes). -/
def search_key (key : List Char) : List Char :=
  snprintf 256 ('"' :: key ++ ['"'])

/-- The common start of `json_get_string_value` and `json_get_int_value`: the
text after the first occurrence of `"key"`, white space and a colon. -/
def after_key (json key : List Char) : Option (List Char) :=
  match strstr json (search_key key) with
  | none => none
  | some i =>
    match skip_whitespace (json.drop (i + (search_key key).length)) with
    | [] => none
    | c :: cs => if c = ':' then some cs else none

/-- The function `json_get_string_value(json, key)`; `strstr` dereferences
`json`, so a `NULL` text is a fault. -/
def json_get_string_value (json : Option (List Char)) (key : List Char) :
    Except Fault (Option (List Char)) :=
  match json with
  | none => Except.error Fault.null_deref
  | some text =>
    match after_key text key with
    | none => Except.ok none
    | some rest => Except.ok (json_parse_string rest)

/-- The function `json_get_int_value(json, key)`. -/
def json_get_int_value (json : Option (List Char)) (key : List Char) : Except Fault Int :=
  match json with
  | none => Except.error Fault.null_deref
  | some text =>
    match after_key text key with
    | none => Except.ok 0
    | some rest => Except.ok (json_parse_int rest)

/-! ## Handlers of `routes.c` -/

/-- The page served by `handle_root`. -/
def root_html : List Char :=
  (String.join [
    "<!DOCTYPE html>\n",
    "<html>\n",
    "<head>\n",
    "    <title>C Web Server</title>\n",
    "    <style>\n",
    "        body \x7b\n",
    "            font-family: \x27Courier New\x27, monospace;\n",
    "            max-width: 800px;\n",
    "            margin: 50px auto;\n",
    "            padding: 20px;\n",
    "            background: #0a0a0a;\n",
    "            color: #00ff00;\n",
    "        \x7d\n",
    "        h1 \x7b border-bottom: 2px solid #00ff00; padding-bottom: 10px; \x7d\n",
    "        .endpoint \x7b\n",
    "            background: #1a1a1a;\n",
    "            padding: 15px;\n",
    "            margin: 10px 0;\n",
    "            border-left: 3px solid #00ff00;\n",
    "        \x7d\n",
    "        .method \x7b color: #00aaff; font-weight: bold; \x7d\n",
    "        a \x7b color: #00ff00; \x7d\n",
    "        code \x7b background: #1a1a1a; padding: 2px 6px; \x7d\n",
    "    </style>\n",
    "</head>\n",
    "<body>\n",
    "    <h1>\xf0\x9f\x9a\x80 Low-Level C Web Server</h1>\n",
    "    <p>A TCP/IP socket-based HTTP server written in C.</p>\n",
    "    \n",
    "    <h2>Available Endpoints:</h2>\n",
    "    \n",
    "    <div class=\x27endpoint\x27>\n",
    "        <span class=\x27method\x27>GET</span> <code>/</code><br>\n",
    "        This page - server home\n",
    "    </div>\n",
    "    \n",
    "    <div class=\x27endpoint\x27>\n",
    "        <span class=\x27method\x27>GET</span> <code>/info</code><br>\n",
    "        Server information and networking details<br>\n",
    "        <a href=\x27/info\x27>Visit /info</a>\n",
    "    </div>\n",
    "    \n",
    "    <div class=\x27endpoint\x27>\n",
    "        <span class=\x27method\x27>GET</span> <code>/glossary</code><br>\n",
    "        Complete C language reference with search<br>\n",
    "        <a href=\x27/glossary\x27>Browse glossary</a>\n",
    "    </div>\n",
    "    \n",
    "    <div class=\x27endpoint\x27>\n",
    "        <span class=\x27method\x27>GET</span> <code>/how-it-works</code><br>\n",
    "        Deep dive into request/response cycle<br>\n",
    "        <a href=\x27/how-it-works\x27>Learn how servers work</a>\n",
    "    </div>\n",
    "    \n",
    "    <h2 style=\x27color:#00aaff;margin:30px 0 15px;\x27>\xf0\x9f\x94\x8c JSON API Endpoints</h2>\n",
    "    <p style=\x27margin-bottom:15px;\x27>RESTful API that accepts and returns JSON (like real backend servers!)</p>\n",
    "    \n",
    "    <div class=\x27endpoint\x27>\n",
    "        <span class=\x27method get\x27>GET</span> <code>/api/health</code><br>\n",
    "        Health check endpoint<br>\n",
    "        <code style=\x27font-size:12px;\x27>curl http://localhost:8080/api/health</code>\n",
    "    </div>\n",
    "    \n",
    "    <div class=\x27endpoint\x27>\n",
    "        <span class=\x27method get\x27>GET</span> <code>/api/users</code><br>\n",
    "        Get list of users<br>\n",
    "        <code style=\x27font-size:12px;\x27>curl http://localhost:8080/api/users</code>\n",
    "    </div>\n",
    "    \n",
    "    <div class=\x27endpoint\x27>\n",
    "        <span class=\x27method post\x27>POST</span> <code>/api/users</code><br>\n",
    "        Create new user (JSON body required)<br>\n",
    "        <code style=\x27font-size:12px;\x27>curl -X POST http://localhost:8080/api/users -H \"Content-Type: application/json\" -d \x27\x7b\"name\":\"John\",\"email\":\"john@test.com\"\x7d\x27</code>\n",
    "    </div>\n",
    "    \n",
    "    <div class=\x27endpoint\x27>\n",
    "        <span class=\x27method post\x27>POST</span> <code>/api/login</code><br>\n",
    "        Login with username and password<br>\n",
    "        <code style=\x27font-size:12px;\x27>curl -X POST http://localhost:8080/api/login -H \"Content-Type: application/json\" -d \x27\x7b\"username\":\"admin\",\"password\":\"password\"\x7d\x27</code>\n",
    "    </div>\n",
    "    \n",
    "    <div class=\x27endpoint\x27>\n",
    "        <span class=\x27method post\x27>POST</span> <code>/api/calculate</code><br>\n",
    "        Calculator API (add, subtract, multiply, divide)<br>\n",
    "        <code style=\x27font-size:12px;\x27>curl -X POST http://localhost:8080/api/calculate -H \"Content-Type: application/json\" -d \x27\x7b\"a\":10,\"b\":5,\"operation\":\"add\"\x7d\x27</code>\n",
    "    </div>\n",
    "    \n",
    "    <div class=\x27endpoint\x27>\n",
    "        <span class=\x27method get\x27>GET</span> <code>/api/stats</code><br>\n",
    "        Server statistics<br>\n",
    "        <code style=\x27font-size:12px;\x27>curl http://localhost:8080/api/stats</code>\n",
    "    </div>\n",
    "    \n",
    "    <div class=\x27endpoint\x27>\n",
    "        <span class=\x27method get\x27>GET</span> <code>/api/time</code><br>\n",
    "        Current server time<br>\n",
    "        <code style=\x27font-size:12px;\x27>curl http://localhost:8080/api/time</code>\n",
    "    </div>\n",
    "    \n",
    "    <h2 style=\x27color:#ffaa00;margin:30px 0 15px;\x27>\xf0\x9f\x8c\x8d External API Integration</h2>\n",
    "    <p style=\x27margin-bottom:15px;\x27>Your server calls external APIs and returns their data!</p>\n",
    "    \n",
    "    <div class=\x27endpoint\x27>\n",
    "        <span class=\x27method get\x27>GET</span> <code>/api/weather</code><br>\n",
    "        Get London weather (calls wttr.in API)<br>\n",
    "        <code style=\x27font-size:12px;\x27>curl http://localhost:8080/api/weather</code>\n",
    "    </div>\n",
    "    \n",
    "    <div class=\x27endpoint\x27>\n",
    "        <span class=\x27method get\x27>GET</span> <code>/api/exchange</code><br>\n",
    "        Get USD exchange rates (calls exchangerate-api.com)<br>\n",
    "        <code style=\x27font-size:12px;\x27>curl http://localhost:8080/api/exchange</code>\n",
    "    </div>\n",
    "    \n",
    "    <div class=\x27endpoint\x27>\n",
    "        <span class=\x27method get\x27>GET</span> <code>/api/quote</code><br>\n",
    "        Get random quote (calls quotable.io API)<br>\n",
    "        <code style=\x27font-size:12px;\x27>curl http://localhost:8080/api/quote</code>\n",
    "    </div>\n",
    "    \n",
    "    <div class=\x27endpoint\x27>\n",
    "        <span class=\x27method get\x27>GET</span> <code>/api/proxy</code><br>\n",
    "        Proxy to GitHub API (pass-through example)<br>\n",
    "        <code style=\x27font-size:12px;\x27>curl http://localhost:8080/api/proxy</code>\n",
    "    </div>\n",
    "    \n",
    "    <h2 style=\x27color:#00aaff;margin:30px 0 15px;\x27>\xf0\x9f\x93\x9d Other Endpoints</h2>\n",
    "    \n",
    "    <div class=\x27endpoint\x27>\n",
    "        <span class=\x27method\x27>GET</span> <code>/image</code><br>\n",
    "        Serves a sample image (binary data transfer)<br>\n",
    "        <a href=\x27/image\x27>View image</a>\n",
    "    </div>\n",
    "    \n",
    "    <div class=\x27endpoint\x27>\n",
    "        <span class=\x27method\x27>POST</span> <code>/echo</code><br>\n",
    "        Echoes back your request body<br>\n",
    "        Try: <code>curl -X POST -d \x27Hello Server!\x27 http://localhost:8080/echo</code>\n",
    "    </div>\n",
    "    \n",
    "    <div class=\x27endpoint\x27>\n",
    "        <span class=\x27method\x27>POST</span> <code>/data</code><br>\n",
    "        Process JSON or form data<br>\n",
    "        Try: <code>curl -X POST -H \x27Content-Type: application/json\x27 -d \x27\x7b\"name\":\"test\"\x7d\x27 http://localhost:8080/data</code>\n",
    "    </div>\n",
    "    \n",
    "    <h2>Understanding the Network Stack:</h2>\n",
    "    <ul>\n",
    "        <li><strong>Application Layer:</strong> HTTP protocol (this server)</li>\n",
    "        <li><strong>Transport Layer:</strong> TCP sockets (reliable, ordered delivery)</li>\n",
    "        <li><strong>Network Layer:</strong> IP routing (how packets find the server)</li>\n",
    "        <li><strong>Link Layer:</strong> Ethernet/WiFi (actual 1s and 0s)</li>\n",
    "    </ul>\n",
    "</body>\n",
    "</html>"]).toList

/-- The function `handle_root`. -/
def handle_root (_request : HttpRequest) : HttpResponse :=
  { status_code := 200, content_type := "text/html; charset=utf-8".toList,
    body_length := root_html.length, body := some root_html }

/-- The page formatted by `handle_info` (`snprintf` into 4096 bytes) from the
method name, the path and the client address. -/
def info_html (method path client_ip : List Char) : List Char :=
  snprintf 4096 (
    (String.join [
    "<!DOCTYPE html>\n",
    "<html>\n",
    "<head>\n",
    "    <title>Server Info</title>\n",
    "    <style>\n",
    "        body \x7b font-family: monospace; max-width: 900px; margin: 50px auto; padding: 20px; background: #0a0a0a; color: #00ff00; \x7d\n",
    "        h1 \x7b border-bottom: 2px solid #00ff00; padding-bottom: 10px; \x7d\n",
    "        .info-box \x7b background: #1a1a1a; padding: 20px; margin: 15px 0; border-left: 4px solid #00ff00; \x7d\n",
    "        .label \x7b color: #00aaff; font-weight: bold; \x7d\n",
    "        code \x7b background: #2a2a2a; padding: 2px 6px; color: #ffaa00; \x7d\n",
    "    </style>\n",
    "</head>\n",
    "<body>\n",
    "    <h1>\xf0\x9f\x94\x8d Server Information</h1>\n",
    "    \n",
    "    <div class=\x27info-box\x27>\n",
    "        <h2>How Your Request Got Here:</h2>\n",
    "        <p><span class=\x27label\x27>1. DNS Resolution:</span><br>\n",
    "        Your browser asked a DNS server to convert the domain name to an IP address.</p>\n",
    "        \n",
    "        <p><span class=\x27label\x27>2. TCP Connection:</span><br>\n",
    "        Your machine initiated a TCP 3-way handshake:<br>\n",
    "        - Your machine sent <code>SYN</code><br>\n",
    "        - Server replied <code>SYN-ACK</code><br>\n",
    "        - Your machine confirmed <code>ACK</code></p>\n",
    "        \n",
    "        <p><span class=\x27label\x27>3. HTTP Request:</span><br>\n",
    "        Your browser sent an HTTP request as plain text over the TCP connection:<br>\n",
    "        <code>GET /info HTTP/1.1\\r\\nHost: ...\\r\\n\\r\\n</code></p>\n",
    "        \n",
    "        <p><span class=\x27label\x27>4. Network Routing:</span><br>\n",
    "        Your packets traveled through multiple routers, each forwarding based on destination IP.<br>\n",
    "        Each router consulted its routing table to find the next hop.</p>\n",
    "        \n",
    "        <p><span class=\x27label\x27>5. Socket Reception:</span><br>\n",
    "        This server\x27s socket (bound to port 8080) received your packets.<br>\n",
    "        The OS reassembled TCP segments and delivered data to the server process.</p>\n",
    "    </div>\n",
    "    \n",
    "    <div class=\x27info-box\x27>\n",
    "        <h2>Request Details:</h2>\n",
    "        <p><span class=\x27label\x27>Method:</span> "]).toList
    ++ method ++
    (String.join [
    "</p>\n",
    "        <p><span class=\x27label\x27>Path:</span> "]).toList
    ++ path ++
    (String.join [
    "</p>\n",
    "        <p><span class=\x27label\x27>Your IP:</span> "]).toList
    ++ client_ip ++
    (String.join [
    "</p>\n",
    "    </div>\n",
    "    \n",
    "    <div class=\x27info-box\x27>\n",
    "        <h2>How Response Gets Back:</h2>\n",
    "        <p>This HTML is converted to bytes, wrapped in HTTP headers, sent through the TCP socket,<br>\n",
    "        broken into IP packets, routed back to your machine, and rendered by your browser.</p>\n",
    "    </div>\n",
    "    \n",
    "    <p><a href=\x27/\x27>\xe2\x86\x90 Back to home</a></p>\n",
    "</body>\n",
    "</html>"]).toList)

/-- The function `handle_info`. -/
def handle_info (request : HttpRequest) : HttpResponse :=
  let html := info_html
    (if request.method = HttpMethod.HTTP_GET then "GET".toList else "POST".toList)
    request.path
    (if request.client_ip ≠ [] then request.client_ip else "unknown".toList)
  { status_code := 200, content_type := "text/html; charset=utf-8".toList,
    body_length := html.length, body := some html }

/-- The SVG picture `handle_image` serves when `sample.png` cannot be read. -/
def fallback_svg : List Char :=
  (String.join [
    "<svg width=\x27400\x27 height=\x27300\x27 xmlns=\x27http://www.w3.org/2000/svg\x27>\n",
    "  <rect width=\x27100%\x27 height=\x27100%\x27 fill=\x27#0a0a0a\x27/>\n",
    "  <text x=\x2750%\x27 y=\x2750%\x27 text-anchor=\x27middle\x27 fill=\x27#00ff00\x27 font-size=\x2724\x27 font-family=\x27monospace\x27>\n",
    "    Sample Image from C Server\n",
    "  </text>\n",
    "  <text x=\x2750%\x27 y=\x2760%\x27 text-anchor=\x27middle\x27 fill=\x27#00aaff\x27 font-size=\x2716\x27 font-family=\x27monospace\x27>\n",
    "    Binary data transmitted over TCP/IP\n",
    "  </text>\n",
    "</svg>"]).toList

/-- The function `handle_image`; `image_file` is the result of
`read_image_file("sample.png", &image_size)`: the bytes of the file, or `none`. -/
def handle_image (image_file : Option (List Char)) (_request : HttpRequest) : HttpResponse :=
  match image_file with
  | some image_data =>
    { status_code := 200, content_type := "image/png".toList,
      body_length := image_data.length, body := some image_data }
  | none =>
    { status_code := 200, content_type := "image/svg+xml".toList,
      body_length := fallback_svg.length, body := some fallback_svg }

/-- The page formatted by `handle_not_found` (`snprintf` into 2048 bytes). -/
def not_found_html (path : List Char) : List Char :=
  snprintf 2048 (
    (String.join [
    "<!DOCTYPE html>\n",
    "<html>\n",
    "<head><title>404 Not Found</title>\n",
    "<style>body\x7bfont-family:monospace;max-width:800px;margin:50px auto;padding:20px;background:#0a0a0a;color:#ff0000;text-align:center;\x7d\n",
    "h1\x7bfont-size:72px;margin:20px;\x7d</style>\n",
    "</head>\n",
    "<body>\n",
    "    <h1>404</h1>\n",
    "    <h2>Not Found</h2>\n",
    "    <p>The path <code>"]).toList
    ++ path ++
    (String.join [
    "</code> does not exist on this server.</p>\n",
    "    <p><a href=\x27/\x27 style=\x27color:#00ff00;\x27>\xe2\x86\x90 Back to home</a></p>\n",
    "</body>\n",
    "</html>"]).toList)

/-- The function `handle_not_found`. -/
def handle_not_found (request : HttpRequest) : HttpResponse :=
  let html := not_found_html request.path
  { status_code := 404, content_type := "text/html; charset=utf-8".toList,
    body_length := html.length, body := some html }

/-- The page formatted by `handle_echo` (`snprintf` into 8192 bytes). -/
def echo_html (content_type : List Char) (body_length : Nat) (body : List Char) : List Char :=
  snprintf 8192 (
    (String.join [
    "<!DOCTYPE html>\n",
    "<html>\n",
    "<head><title>Echo Response</title>\n",
    "<style>body\x7bfont-family:monospace;max-width:800px;margin:50px auto;padding:20px;background:#0a0a0a;color:#00ff00;\x7d\n",
    "h1\x7bborder-bottom:2px solid #00ff00;padding-bottom:10px;\x7d.box\x7bbackground:#1a1a1a;padding:20px;margin:15px 0;border-left:4px solid #00ff00;\x7d</style>\n",
    "</head>\n",
    "<body>\n",
    "    <h1>\xf0\x9f\x93\xa1 Echo Response</h1>\n",
    "    <div class=\x27box\x27>\n",
    "        <h3>You sent:</h3>\n",
    "        <p><strong>Content-Type:</strong> "]).toList
    ++ content_type ++
    (String.join [
    "</p>\n",
    "        <p><strong>Content-Length:</strong> "]).toList
    ++ decimal body_length ++
    (String.join [
    " bytes</p>\n",
    "        <pre>"]).toList
    ++ body ++
    (String.join [
    "</pre>\n",
    "    </div>\n",
    "    <p>Your data traveled through the network as TCP packets and arrived here!</p>\n",
    "    <p><a href=\x27/\x27>\xe2\x86\x90 Back to home</a></p>\n",
    "</body>\n",
    "</html>"]).toList)

/-- The function `handle_echo`. -/
def handle_echo (request : HttpRequest) : HttpResponse :=
  match request.body with
  | some body =>
    if 0 < request.body_length then
      let html := echo_html
        (if request.content_type ≠ [] then request.content_type else "not specified".toList)
        request.body_length body
      { status_code := 200, content_type := "text/html; charset=utf-8".toList,
        body_length := html.length, body := some html }
    else
      let msg := "No body received in POST request".toList
      { status_code := 200, content_type := "text/plain".toList,
        body_length := msg.length, body := some msg }
  | none =>
    let msg := "No body received in POST request".toList
    { status_code := 200, content_type := "text/plain".toList,
      body_length := msg.length, body := some msg }

/-- The page formatted by `handle_post_data` (`snprintf` into 8192 bytes). -/
def post_data_html (body : List Char) : List Char :=
  snprintf 8192 (
    (String.join [
    "<!DOCTYPE html>\n",
    "<html>\n",
    "<head><title>Data Received</title>\n",
    "<style>body\x7bfont-family:monospace;max-width:800px;margin:50px auto;padding:20px;background:#0a0a0a;color:#00ff00;\x7d\n",
    "h1\x7bborder-bottom:2px solid #00ff00;\x7d.box\x7bbackground:#1a1a1a;padding:20px;margin:15px 0;border-left:4px solid #00ff00;\x7d</style>\n",
    "</head>\n",
    "<body>\n",
    "    <h1>\xe2\x9c\x93 Data Processed</h1>\n",
    "    <div class=\x27box\x27>\n",
    "        <h3>Received Data:</h3>\n",
    "        <pre>"]).toList
    ++ body ++
    (String.join [
    "</pre>\n",
    "    </div>\n",
    "    <p><a href=\x27/\x27>\xe2\x86\x90 Back to home</a></p>\n",
    "</body>\n",
    "</html>"]).toList)

/-- The function `handle_post_data`. -/
def handle_post_data (request : HttpRequest) : HttpResponse :=
  match request.body with
  | some body =>
    if 0 < request.body_length then
      let html := post_data_html body
      { status_code := 200, content_type := "text/html; charset=utf-8".toList,
        body_length := html.length, body := some html }
    else handle_not_found request
  | none => handle_not_found request

/-! ## Handlers of `api.c` -/

/-- The closing steps every JSON handler repeats: the strings appended to a
fresh builder, then `status_code`, `strcpy(content_type, "application/json")`,
`body = json_builder_finalize(jb)` and `body_length = strlen(body)`. -/
def json_response (status_code : Int) (parts : List (List Char)) : Except Fault HttpResponse :=
  match json_builder_append_all json_builder_create parts with
  | Except.error e => Except.error e
  | Except.ok jb =>
    Except.ok { status_code := status_code, content_type := "application/json".toList,
                body := some (json_builder_finalize jb),
                body_length := (json_builder_finalize jb).length }

/-- The function `handle_api_health`; `timestamp` is the text `strftime` wrote
and `now` the value of `time(NULL)`. -/
def handle_api_health (timestamp : List Char) (now : Int) (_request : HttpRequest) :
    Except Fault HttpResponse :=
  json_response 200 [
      "\x7b\n".toList,
      "  \"status\": \"healthy\",\n".toList,
      "  \"service\": \"http-server\",\n".toList,
      "  \"version\": \"1.0.0\",\n".toList,
      snprintf 128 ("  \"timestamp\": \"".toList ++ timestamp ++ "\",\n".toList),
      snprintf 128 ("  \"uptime_seconds\": ".toList ++ decimal_int now ++ "\n".toList),
      "\x7d".toList]

/-- The function `handle_api_users_get`. -/
def handle_api_users_get (_request : HttpRequest) : Except Fault HttpResponse :=
  json_response 200 [
      "\x7b\n".toList,
      "  \"success\": true,\n".toList,
      "  \"data\": [\n".toList,
      "    \x7b\n".toList,
      "      \"id\": 1,\n".toList,
      "      \"name\": \"Alice Johnson\",\n".toList,
      "      \"email\": \"alice@example.com\",\n".toList,
      "      \"role\": \"admin\"\n".toList,
      "    \x7d,\n".toList,
      "    \x7b\n".toList,
      "      \"id\": 2,\n".toList,
      "      \"name\": \"Bob Smith\",\n".toList,
      "      \"email\": \"bob@example.com\",\n".toList,
      "      \"role\": \"user\"\n".toList,
      "    \x7d,\n".toList,
      "    \x7b\n".toList,
      "      \"id\": 3,\n".toList,
      "      \"name\": \"Carol White\",\n".toList,
      "      \"email\": \"carol@example.com\",\n".toList,
      "      \"role\": \"user\"\n".toList,
      "    \x7d\n".toList,
      "  ],\n".toList,
      "  \"count\": 3\n".toList,
      "\x7d".toList]

/-- The function `handle_api_users_post`; `rand` is the value returned by
`rand()`. -/
def handle_api_users_post (rand : Nat) (request : HttpRequest) : Except Fault HttpResponse :=
  match json_get_string_value request.body "name".toList with
  | Except.error e => Except.error e
  | Except.ok name =>
  match json_get_string_value request.body "email".toList with
  | Except.error e => Except.error e
  | Except.ok email =>
  match json_get_string_value request.body "role".toList with
  | Except.error e => Except.error e
  | Except.ok role =>
  match name, email with
  | some name, some email =>
    let new_id : Int := (rand % 1000 + 100 : Nat)
    json_response 201 [
      "\x7b\n".toList,
      "  \"success\": true,\n".toList,
      "  \"message\": \"User created successfully\",\n".toList,
      "  \"data\": \x7b\n".toList,
      snprintf 512 ("    \"id\": ".toList ++ decimal_int new_id ++ ",\n".toList),
      "    \"name\": \"".toList,
      escape_loop name 0,
      "\",\n".toList,
      "    \"email\": \"".toList,
      escape_loop email 0,
      "\",\n".toList,
      "    \"role\": \"".toList,
      escape_loop (match role with
        | some role => role
        | none => "user".toList) 0,
      "\"\n".toList,
      "  \x7d\n".toList,
      "\x7d".toList]
  | _, _ =>
    json_response 400 [
      "\x7b\n".toList,
      "  \"success\": false,\n".toList,
      "  \"error\": \"Missing required fields: name and email\"\n".toList,
      "\x7d".toList]

/-- The function `handle_api_stats`. -/
def handle_api_stats (_request : HttpRequest) : Except Fault HttpResponse :=
  json_response 200 [
      "\x7b\n".toList,
      "  \"success\": true,\n".toList,
      "  \"data\": \x7b\n".toList,
      "    \"requests_total\": 1523,\n".toList,
      "    \"requests_per_second\": 12.5,\n".toList,
      "    \"active_connections\": 3,\n".toList,
      "    \"total_bytes_sent\": 15728640,\n".toList,
      "    \"total_bytes_received\": 3145728,\n".toList,
      "    \"uptime_hours\": 48.5,\n".toList,
      "    \"memory_usage_mb\": 23.4\n".toList,
      "  \x7d\n".toList,
      "\x7d".toList]

/-- The function `handle_api_login`. -/
def handle_api_login (request : HttpRequest) : Except Fault HttpResponse :=
  match json_get_string_value request.body "username".toList with
  | Except.error e => Except.error e
  | Except.ok username =>
  match json_get_string_value request.body "password".toList with
  | Except.error e => Except.error e
  | Except.ok password =>
  match username, password with
  | some username, some password =>
    if username = "admin".toList ∧ password = "password".toList then
      json_response 200 [
        "\x7b\n".toList,
        "  \"success\": true,\n".toList,
        "  \"message\": \"Login successful\",\n".toList,
        "  \"data\": \x7b\n".toList,
        "    \"user\": \"".toList,
        escape_loop username 0,
        "\",\n".toList,
        "    \"token\": \"eyJhbGciOiJIUzI1NiIsInR5cCI6IkpXVCJ9\",\n".toList,
        "    \"expires_in\": 3600\n".toList,
        "  \x7d\n".toList,
        "\x7d".toList]
    else
      json_response 401 [
        "\x7b\n".toList,
        "  \"success\": false,\n".toList,
        "  \"error\": \"Invalid credentials\"\n".toList,
        "\x7d".toList]
  | _, _ =>
    json_response 400 [
      "\x7b\n".toList,
      "  \"success\": false,\n".toList,
      "  \"error\": \"Missing username or password\"\n".toList,
      "\x7d".toList]

/-- Text printed by `%.2f` for a `double` holding an integer value. -/
def format_2f_int (v : Int) : List Char :=
  decimal_int v ++ ".00".toList

/-- The `double` computed by `handle_api_calculate`: the (exact) conversion of
an `int`, or the floating-point quotient `(double)a / b`. -/
inductive CalcResult where
  | of_int (v : Int)
  | quotient (a b : Int)
  deriving DecidableEq, Repr

/-- Text printed by `%.2f` for the result; floating-point division is not
modelled, `format_quotient a b` stands for the text printed for
`(double)a / b`. -/
def format_result (format_quotient : Int → Int → List Char) : CalcResult → List Char
  | CalcResult.of_int v => format_2f_int v
  | CalcResult.quotient a b => format_quotient a b

/-- The function `handle_api_calculate`. -/
def handle_api_calculate (format_quotient : Int → Int → List Char) (request : HttpRequest) :
    Except Fault HttpResponse :=
  match json_get_int_value request.body "a".toList with
  | Except.error e => Except.error e
  | Except.ok a =>
  match json_get_int_value request.body "b".toList with
  | Except.error e => Except.error e
  | Except.ok b =>
  match json_get_string_value request.body "operation".toList with
  | Except.error e => Except.error e
  | Except.ok none =>
    json_response 400 [
      "\x7b\n".toList,
      "  \"success\": false,\n".toList,
      "  \"error\": \"Missing operation field\"\n".toList,
      "\x7d".toList]
  | Except.ok (some operation) =>
    let success (result : CalcResult) : Except Fault HttpResponse :=
      json_response 200 [
        "\x7b\n".toList,
        "  \"success\": true,\n".toList,
        "  \"data\": \x7b\n".toList,
        snprintf 256 ("    \"a\": ".toList ++ decimal_int a ++ ",\n".toList),
        snprintf 256 ("    \"b\": ".toList ++ decimal_int b ++ ",\n".toList),
        "    \"operation\": \"".toList,
        escape_loop operation 0,
        "\",\n".toList,
        snprintf 256 ("    \"result\": ".toList ++ format_result format_quotient result ++ "\n".toList),
        "  \x7d\n".toList,
        "\x7d".toList]
    if operation = "add".toList then success (CalcResult.of_int (wrap32 (a + b)))
    else if operation = "subtract".toList then success (CalcResult.of_int (wrap32 (a - b)))
    else if operation = "multiply".toList then success (CalcResult.of_int (wrap32 (a * b)))
    else if operation = "divide".toList then
      if b = 0 then
        json_response 400 [
        "\x7b\n".toList,
        "  \"success\": false,\n".toList,
        "  \"error\": \"Division by zero\"\n".toList,
        "\x7d".toList]
      else success (CalcResult.quotient a b)
    else
      json_response 400 [
      "\x7b\n".toList,
      "  \"success\": false,\n".toList,
      "  \"error\": \"Invalid operation. Use: add, subtract, multiply, divide\"\n".toList,
      "\x7d".toList]

/-- The function `handle_api_time`; `iso`, `date` and `time_str` are the texts
`strftime` wrote and `now` the value of `time(NULL)`. -/
def handle_api_time (iso date time_str : List Char) (now : Int) (_request : HttpRequest) :
    Except Fault HttpResponse :=
  json_response 200 [
      "\x7b\n".toList,
      "  \"success\": true,\n".toList,
      "  \"data\": \x7b\n".toList,
      snprintf 256 ("    \"timestamp\": ".toList ++ decimal_int now ++ ",\n".toList),
      snprintf 256 ("    \"iso\": \"".toList ++ iso ++ "\",\n".toList),
      snprintf 256 ("    \"date\": \"".toList ++ date ++ "\",\n".toList),
      snprintf 256 ("    \"time\": \"".toList ++ time_str ++ "\",\n".toList),
      "    \"timezone\": \"UTC\"\n".toList,
      "  \x7d\n".toList,
      "\x7d".toList]

/-! ## Handlers of `api_client.c` -/

/-- The structure `HTTPResponse` of the HTTP client. -/
structure HTTPResponse where
  status_code : Int
  body : Option (List Char)
  body_length : Nat
  error : Option (List Char)
  deriving DecidableEq, Repr

/-- The function `handle_api_weather`; `api_response` is the result of
`http_get("wttr.in", "/London?format=3", 80)`. -/
def handle_api_weather (api_response : HTTPResponse) (_request : HttpRequest) :
    Except Fault HttpResponse :=
  match api_response.error with
  | some error =>
    json_response 502 [
      "\x7b\n".toList,
      "  \"success\": false,\n".toList,
      "  \"error\": \"Failed to fetch weather data\",\n".toList,
      snprintf 256 "  \"details\": \"".toList,
      escape_loop error 0,
      "\"\n".toList,
      "\x7d".toList]
  | none =>
    if api_response.status_code ≠ 200 then
      json_response 502 [
        "\x7b\n".toList,
        "  \"success\": false,\n".toList,
        (if api_response.status_code = 301 ∨ api_response.status_code = 302 then
          snprintf 256 "  \"error\": \"Weather API redirected (try HTTPS)\",\n".toList
        else
          snprintf 256 ("  \"error\": \"Weather API returned status ".toList ++ decimal_int api_response.status_code ++ "\",\n".toList)),
        snprintf 256 ("  \"status_code\": ".toList ++ decimal_int api_response.status_code ++ "\n".toList),
        "\x7d".toList]
    else
      json_response 200 [
        "\x7b\n".toList,
        "  \"success\": true,\n".toList,
        "  \"location\": \"London\",\n".toList,
        "  \"data\": \x7b\n".toList,
        "    \"weather\": \"".toList,
        (match api_response.body with
          | some body =>
            if 0 < api_response.body_length then
              escape_loop (body.map (fun c => if c = '\n' ∨ c = '\r' then ' ' else c)) 0
            else "Unknown".toList
          | none => "Unknown".toList),
        "\"\n".toList,
        "  \x7d,\n".toList,
        "  \"source\": \"wttr.in\",\n".toList,
        "  \"note\": \"Using HTTP endpoint (limited data)\"\n".toList,
        "\x7d".toList]

/-- The function `handle_api_exchange_rates`. -/
def handle_api_exchange_rates (_request : HttpRequest) : Except Fault HttpResponse :=
  json_response 501 [
      "\x7b\n".toList,
      "  \"success\": false,\n".toList,
      "  \"error\": \"Exchange rate APIs require HTTPS\",\n".toList,
      "  \"info\": \"This server doesn\x27t support SSL/TLS connections\",\n".toList,
      "  \"suggestion\": \"To enable this, add OpenSSL library support\",\n".toList,
      "  \"sample_data\": \x7b\n".toList,
      "    \"base\": \"USD\",\n".toList,
      "    \"rates\": \x7b\n".toList,
      "      \"EUR\": 0.85,\n".toList,
      "      \"GBP\": 0.73,\n".toList,
      "      \"JPY\": 110.25,\n".toList,
      "      \"CAD\": 1.25\n".toList,
      "    \x7d,\n".toList,
      "    \"note\": \"This is sample data, not live rates\"\n".toList,
      "  \x7d\n".toList,
      "\x7d".toList]

/-- The function `handle_api_quote`. -/
def handle_api_quote (_request : HttpRequest) : Except Fault HttpResponse :=
  json_response 501 [
      "\x7b\n".toList,
      "  \"success\": false,\n".toList,
      "  \"error\": \"Quote APIs require HTTPS\",\n".toList,
      "  \"info\": \"This server uses plain HTTP (no SSL/TLS)\",\n".toList,
      "  \"sample_quote\": \x7b\n".toList,
      "    \"quote\": \"The only way to do great work is to love what you do.\",\n".toList,
      "    \"author\": \"Steve Jobs\",\n".toList,
      "    \"note\": \"This is a sample quote, not from API\"\n".toList,
      "  \x7d,\n".toList,
      "  \"how_to_fix\": \"Add OpenSSL library for HTTPS support\"\n".toList,
      "\x7d".toList]

/-- The function `handle_api_proxy`. -/
def handle_api_proxy (_request : HttpRequest) : Except Fault HttpResponse :=
  json_response 501 [
      "\x7b\n".toList,
      "  \"success\": false,\n".toList,
      "  \"error\": \"Proxy target requires HTTPS\",\n".toList,
      "  \"info\": \"Most modern APIs use HTTPS (SSL/TLS)\",\n".toList,
      "  \"limitation\": \"This server only supports plain HTTP\",\n".toList,
      "  \"how_it_would_work\": \x7b\n".toList,
      "    \"step1\": \"Your server receives request\",\n".toList,
      "    \"step2\": \"Your server calls external API\",\n".toList,
      "    \"step3\": \"External API returns data\",\n".toList,
      "    \"step4\": \"Your server forwards response to client\"\n".toList,
      "  \x7d,\n".toList,
      "  \"note\": \"This is how API proxies/gateways work!\"\n".toList,
      "\x7d".toList]

/-! ## URL decoding (`utils.c`) -/

/-- The C-locale `isxdigit`. -/
def isxdigit (c : Char) : Bool :=
  ('0'.toNat ≤ c.toNat && c.toNat ≤ '9'.toNat) || ('a'.toNat ≤ c.toNat && c.toNat ≤ 'f'.toNat)
    || ('A'.toNat ≤ c.toNat && c.toNat ≤ 'F'.toNat)

/-- The value of a hexadecimal digit. -/
def hex_value (c : Char) : Nat :=
  if '0'.toNat ≤ c.toNat ∧ c.toNat ≤ '9'.toNat then c.toNat - '0'.toNat
  else if 'a'.toNat ≤ c.toNat ∧ c.toNat ≤ 'f'.toNat then c.toNat - 'a'.toNat + 10
  else c.toNat - 'A'.toNat + 10

/-- The byte `(char)strtol(hex, NULL, 16)` for `hex` holding the two
hexadecimal digits `a` and `b`. -/
def hex_byte (a b : Char) : Char :=
  Char.ofNat (hex_value a * 16 + hex_value b)

/-- State of the loop of `url_decode`: the buffer `str` with its terminating
NUL and the offsets of the pointers `read` and `write` in it. -/
structure UrlState where
  str : List Char
  read : Nat
  write : Nat
  deriving DecidableEq, Repr

/-- One pass of the loop `while (*read)` of `url_decode`; `none` when `*read`
is NUL and the loop ends. -/
def url_decode_step (st : UrlState) : Option UrlState :=
  if st.str.getD st.read NUL = NUL then none
  else if st.str.getD st.read NUL = '%' ∧ isxdigit (st.str.getD (st.read + 1) NUL) = true
      ∧ isxdigit (st.str.getD (st.read + 2) NUL) = true then
    some { str := st.str.set st.write
             (hex_byte (st.str.getD (st.read + 1) NUL) (st.str.getD (st.read + 2) NUL)),
           read := st.read + 3, write := st.write + 1 }
  else if st.str.getD st.read NUL = '+' then
    some { str := st.str.set st.write ' ', read := st.read + 1, write := st.write + 1 }
  else
    some { str := st.str.set st.write (st.str.getD st.read NUL),
           read := st.read + 1, write := st.write + 1 }

/-- The loop `while (*read)` of `url_decode` on a fuel counter: the state in
which `*read` is NUL. -/
def url_decode_loop : Nat → UrlState → Option UrlState
  | 0, _ => none
  | fuel + 1, st =>
    match url_decode_step st with
    | none => some st
    | some st1 => url_decode_loop fuel st1

/-- The function `url_decode(str)`: the C string the buffer holds after the
loop and the final `*write = '\0'`. -/
def url_decode (s : List Char) : Option (List Char) :=
  (url_decode_loop ((cstr s).length + 1) { str := cstr s ++ [NUL], read := 0, write := 0 }).map
    (fun st => cstr (st.str.set st.write NUL))

/-- The state of `url_decode` after `n` passes of its loop (`none` when the
loop ended before). -/
def url_decode_passes : Nat → UrlState → Option UrlState
  | 0, st => some st
  | n + 1, st =>
    match url_decode_step st with
    | none => none
    | some st1 => url_decode_passes n st1

/-! ## Router (`routes.c`) and connection handler (`http_handler.c`) -/

/-- What the handlers read from outside the program: the clock, the random
generator, the file `sample.png`, the answer of the weather service and the
text printed for a floating-point quotient.  `handle_glossary` and
`handle_how_it_works` are declared in `http_server.h` and called by
`route_request`, but no source file defines them; they are parameters. -/
structure Env where
  now : Int
  timestamp : List Char
  iso : List Char
  date : List Char
  time_str : List Char
  rand : Nat
  image_file : Option (List Char)
  weather_response : HTTPResponse
  format_quotient : Int → Int → List Char
  handle_glossary : HttpRequest → Except Fault HttpResponse
  handle_how_it_works : HttpRequest → Except Fault HttpResponse

/-- The function `route_request(request, response)`: the response the selected
handler fills in, or the fault it runs into. -/
def route_request (env : Env) (request : HttpRequest) : Except Fault HttpResponse :=
  if request.method = HttpMethod.HTTP_GET then
    if request.path = "/".toList then Except.ok (handle_root request)
    else if request.path = "/info".toList then Except.ok (handle_info request)
    else if request.path = "/glossary".toList then env.handle_glossary request
    else if request.path = "/how-it-works".toList then env.handle_how_it_works request
    else if request.path = "/image".toList then Except.ok (handle_image env.image_file request)
    else if request.path = "/api/health".toList then
      handle_api_health env.timestamp env.now request
    else if request.path = "/api/users".toList then handle_api_users_get request
    else if request.path = "/api/stats".toList then handle_api_stats request
    else if request.path = "/api/time".toList then
      handle_api_time env.iso env.date env.time_str env.now request
    else if request.path = "/api/weather".toList then
      handle_api_weather env.weather_response request
    else if request.path = "/api/exchange".toList then handle_api_exchange_rates request
    else if request.path = "/api/quote".toList then handle_api_quote request
    else if request.path = "/api/proxy".toList then handle_api_proxy request
    else Except.ok (handle_not_found request)
  else if request.method = HttpMethod.HTTP_POST then
    if request.path = "/echo".toList then Except.ok (handle_echo request)
    else if request.path = "/data".toList then Except.ok (handle_post_data request)
    else if request.path = "/api/users".toList then handle_api_users_post env.rand request
    else if request.path = "/api/login".toList then handle_api_login request
    else if request.path = "/api/calculate".toList then
      handle_api_calculate env.format_quotient request
    else Except.ok (handle_not_found request)
  else Except.ok (handle_not_found request)

/-- The registered routes of `route_request`. -/
def registered_routes : List (HttpMethod × List Char) :=
  [ (HttpMethod.HTTP_GET, "/".toList), (HttpMethod.HTTP_GET, "/info".toList),
    (HttpMethod.HTTP_GET, "/glossary".toList), (HttpMethod.HTTP_GET, "/how-it-works".toList),
    (HttpMethod.HTTP_GET, "/image".toList), (HttpMethod.HTTP_GET, "/api/health".toList),
    (HttpMethod.HTTP_GET, "/api/users".toList), (HttpMethod.HTTP_GET, "/api/stats".toList),
    (HttpMethod.HTTP_GET, "/api/time".toList), (HttpMethod.HTTP_GET, "/api/weather".toList),
    (HttpMethod.HTTP_GET, "/api/exchange".toList), (HttpMethod.HTTP_GET, "/api/quote".toList),
    (HttpMethod.HTTP_GET, "/api/proxy".toList),
    (HttpMethod.HTTP_POST, "/echo".toList), (HttpMethod.HTTP_POST, "/data".toList),
    (HttpMethod.HTTP_POST, "/api/users".toList), (HttpMethod.HTTP_POST, "/api/login".toList),
    (HttpMethod.HTTP_POST, "/api/calculate".toList) ]

/-- Result of the single `recv` of `handle_client_connection`: a failure, a
closed connection (zero bytes), or the bytes received. -/
inductive RecvResult where
  | failed
  | closed
  | data (bytes : List Char)
  deriving DecidableEq, Repr

/-- The parse and route steps of `handle_client_connection` on the bytes
received: `buffer[bytes_received] = 0`, `memset` of the request,
`parse_http_request`, `route_request`. -/
def serve_request (env : Env) (bytes : List Char) : Except Fault HttpResponse :=
  match parse_http_request (bytes ++ [NUL]) zero_request with
  | none => Except.error Fault.no_termination
  | some request => route_request env request

/-- The function `handle_client_connection(client_fd)`: the calls of `send` it
makes, or the fault it runs into. -/
def handle_client_connection (env : Env) (sock : Socket) :
    RecvResult → Except Fault (List SendCall)
  | RecvResult.failed => Except.ok []
  | RecvResult.closed => Except.ok []
  | RecvResult.data bytes =>
    match serve_request env bytes with
    | Except.error e => Except.error e
    | Except.ok response => Except.ok (send_http_response sock response)

/-- The steps of `handle_client_connection` that matter for the order of its
work: the call of `recv` with its size argument, the calls of
`parse_http_request`, `route_request` and `send_http_response`, the calls of
`send` made by the latter, and a fault that ends the process. -/
inductive ConnEvent where
  | recv (size : Nat)
  | parse (raw : List Char)
  | route (request : HttpRequest)
  | respond (response : HttpResponse)
  | send (call : SendCall)
  | fault (f : Fault)
  deriving DecidableEq, Repr

/-- The event is a call of `recv`. -/
def ConnEvent.is_recv : ConnEvent → Bool
  | ConnEvent.recv _ => true
  | _ => false

/-- The event is a call of the parser, the router or the serializer, or a call
of `send`. -/
def ConnEvent.is_work : ConnEvent → Bool
  | ConnEvent.recv _ => false
  | ConnEvent.fault _ => false
  | _ => true

/-- The function `handle_client_connection(client_fd)` as the sequence of its
steps, for the value the call of `recv` returns (`BUFFER_SIZE - 1` is 65535). -/
def handle_client_connection_events (env : Env) (sock : Socket) :
    RecvResult → List ConnEvent
  | RecvResult.failed => [ConnEvent.recv 65535]
  | RecvResult.closed => [ConnEvent.recv 65535]
  | RecvResult.data bytes =>
    ConnEvent.recv 65535 :: ConnEvent.parse (bytes ++ [NUL]) ::
      match parse_http_request (bytes ++ [NUL]) zero_request with
      | none => [ConnEvent.fault Fault.no_termination]
      | some request =>
        ConnEvent.route request ::
          match route_request env request with
          | Except.error e => [ConnEvent.fault e]
          | Except.ok response =>
            ConnEvent.respond response ::
              (send_http_response sock response).map ConnEvent.send

/-! ## The program entry (`main.c`) -/

/-- The constant `DEFAULT_PORT`. -/
def DEFAULT_PORT : Int := 8080

/-- What a run of `main` does: the port `start_http_server` is called with
(`none` when it is not called) and the exit status returned. -/
structure MainOutcome where
  started : Option Int
  exit_status : Int
  deriving DecidableEq, Repr

/-- The function `main(argc, argv)`: `argv` is the program name followed by the
arguments (`argc` is its length), `start_http_server` gives the value the
server returns for a port.  The message printed to `stderr` is not part of the
outcome. -/
def main (argv : List (List Char)) (start_http_server : Int → Int) : MainOutcome :=
  match argv with
  | _ :: arg :: _ =>
    let port := atoi arg
    if port ≤ 0 ∨ port > 65535 then { started := none, exit_status := 1 }
    else { started := some port, exit_status := if start_http_server port = 0 then 0 else 1 }
  | _ =>
    { started := some DEFAULT_PORT,
      exit_status := if start_http_server DEFAULT_PORT = 0 then 0 else 1 }

/-! ## Listener (`server.c`) -/

/-- The values `start_http_server` gets from the calls that set the listening
socket up: `socket`, `setsockopt`, `bind` and `listen`. -/
structure Setup where
  server_fd : Int
  setsockopt_ret : Int
  bind_ret : Int
  listen_ret : Int
  deriving DecidableEq, Repr

/-- What one pass of the loop `while (server_running)` observes: the flag read
at the loop head, the value `select` returns and whether `errno` is `EINTR`
after it, the value `accept` returns and the peer address `inet_ntop` writes
into the local array `client_ip`. -/
structure LoopPass where
  server_running : Bool
  activity : Int
  select_eintr : Bool
  client_fd : Int
  client_ip : List Char
  deriving DecidableEq, Repr

/-- The system calls of `start_http_server` and its call of
`handle_client_connection`, with the descriptor or port they are given. -/
inductive ServerCall where
  | socket
  | setsockopt
  | bind (port : Int)
  | listen
  | select
  | accept
  | handle_client_connection (client_fd : Int)
  | close (fd : Int)
  deriving DecidableEq, Repr

/-- The loop `while (server_running)` of `start_http_server` followed by
`close(server_fd); return 0;`: the calls made and the value returned, for the
passes observed (`none` when the loop is still running after them). -/
def listener_loop (server_fd : Int) : List LoopPass → List ServerCall × Option Int
  | [] => ([], none)
  | p :: rest =>
    if p.server_running = false then ([ServerCall.close server_fd], some 0)
    else if p.activity < 0 ∧ p.select_eintr = false then
      ([ServerCall.select, ServerCall.close server_fd], some 0)
    else if p.activity = 0 then
      (ServerCall.select :: (listener_loop server_fd rest).1, (listener_loop server_fd rest).2)
    else if p.client_fd < 0 then
      (ServerCall.select :: ServerCall.accept :: (listener_loop server_fd rest).1,
        (listener_loop server_fd rest).2)
    else
      (ServerCall.select :: ServerCall.accept
          :: ServerCall.handle_client_connection p.client_fd
          :: ServerCall.close p.client_fd :: (listener_loop server_fd rest).1,
        (listener_loop server_fd rest).2)

/-- The function `start_http_server(port)`: the calls made and the value
returned.  The calls of `signal` and the messages printed are left out. -/
def start_http_server (port : Int) (setup : Setup) (passes : List LoopPass) :
    List ServerCall × Option Int :=
  if setup.server_fd < 0 then ([ServerCall.socket], some (-1))
  else if setup.setsockopt_ret < 0 then
    ([ServerCall.socket, ServerCall.setsockopt, ServerCall.close setup.server_fd], some (-1))
  else if setup.bind_ret < 0 then
    ([ServerCall.socket, ServerCall.setsockopt, ServerCall.bind port,
      ServerCall.close setup.server_fd], some (-1))
  else if setup.listen_ret < 0 then
    ([ServerCall.socket, ServerCall.setsockopt, ServerCall.bind port, ServerCall.listen,
      ServerCall.close setup.server_fd], some (-1))
  else
    (ServerCall.socket :: ServerCall.setsockopt :: ServerCall.bind port :: ServerCall.listen
        :: (listener_loop setup.server_fd passes).1,
      (listener_loop setup.server_fd passes).2)

/-! ## Auxiliary definitions for the statements -/

/-- The effect of one non-empty header line `cur` on the state of the header
loop: the body of the loop after the test for the empty line. -/
def header_step (cur : List Char) (st : HeaderState) (next_line : Option (List Char)) :
    HeaderState :=
  { line := next_line,
    content_type :=
      if strncasecmp_eq cur "Content-Type:".toList 13 then content_type_value cur
      else st.content_type,
    content_length :=
      if strncasecmp_eq cur "Content-Length:".toList 15 then size_t_of_int (atoi (cur.drop 15))
      else st.content_length }

/-- Header lines written one after the other, each followed by CRLF. -/
def header_block : List (List Char) → List Char
  | [] => []
  | h :: hs => h ++ CRLF ++ header_block hs

/-- The state of the header loop after the given header lines. -/
def apply_headers : List (List Char) → HeaderState → HeaderState
  | [], st => st
  | h :: hs, st => apply_headers hs (header_step h st none)

/-- A line of text as it can stand in a request: it holds no NUL byte and no
CRLF sequence. -/
def is_line (l : List Char) : Prop :=
  NUL ∉ l ∧ strstr l CRLF = none

instance is_line_decidable (l : List Char) : Decidable (is_line l) :=
  inferInstanceAs (Decidable (NUL ∉ l ∧ strstr l CRLF = none))

/-- A request on the wire: the request line, the header lines, the empty line
and the bytes that follow it. -/
def serialize_request (request_line : List Char) (headers : List (List Char))
    (body : List Char) : List Char :=
  request_line ++ CRLF ++ header_block headers ++ CRLF ++ body

/-- A response whose body pointer is `NULL` while `body_length` is 5. -/
def absent_body_response : HttpResponse :=
  { status_code := 200, content_type := "text/plain".toList, body := none, body_length := 5 }

/-- The field values of a response fit the C types of `HttpResponse`: an `int`
status code, a content type that fits `char[128]` with its NUL, a 64-bit
`size_t` length. -/
def fits_c_types (r : HttpResponse) : Prop :=
  -(2 ^ 31) ≤ r.status_code ∧ r.status_code < 2 ^ 31 ∧ r.content_type.length ≤ 127
    ∧ r.body_length < 2 ^ 64

instance fits_c_types_decidable (r : HttpResponse) : Decidable (fits_c_types r) :=
  inferInstanceAs (Decidable (-(2 ^ 31) ≤ r.status_code ∧ r.status_code < 2 ^ 31
    ∧ r.content_type.length ≤ 127 ∧ r.body_length < 2 ^ 64))

/-- An environment for examples: a fixed clock, no `sample.png`, a weather
service that answers, and not-found pages for the two undefined handlers. -/
def sample_env : Env :=
  { now := 1700000000,
    timestamp := "2023-11-14 22:13:20".toList,
    iso := "2023-11-14T22:13:20".toList,
    date := "2023-11-14".toList,
    time_str := "22:13:20".toList,
    rand := 42,
    image_file := none,
    weather_response :=
      { status_code := 200, body := some "London: +15C\n".toList, body_length := 13,
        error := none },
    format_quotient := fun _ _ => "0.00".toList,
    handle_glossary := fun request => Except.ok (handle_not_found request),
    handle_how_it_works := fun request => Except.ok (handle_not_found request) }

/-- A request with the given method and path and no body. -/
def request_of (method : HttpMethod) (path : List Char) : HttpRequest :=
  { zero_request with method := method, path := path }

/-- The request line of a raw request: the text before the first CRLF. -/
def request_line (raw : List Char) : List Char :=
  (cut_line (cstr raw)).1

/-- The method token of a request line: the text before the first space. -/
def method_token (line : List Char) : List Char :=
  line.takeWhile (· ≠ ' ')

/-- A path token of 256 bytes, one more than the path buffer can hold beside
its NUL. -/
def long_path_token : List Char :=
  '/' :: List.replicate 255 'a'

/-- The request `GET <long_path_token> HTTP/1.1` with an empty header section. -/
def long_path_request : List Char :=
  "GET ".toList ++ long_path_token ++ " HTTP/1.1\r\n\r\n".toList

/-- The strings of a list written one after the other. -/
def concat_all : List (List Char) → List Char
  | [] => []
  | s :: rest => s ++ concat_all rest

/-- The JSON response with the given status whose body is the given text. -/
def json_text_response (status_code : Int) (text : List Char) : HttpResponse :=
  { status_code := status_code, content_type := "application/json".toList,
    body := some text, body_length := text.length }

/-- The string value `json_get_string_value` finds in a text that is present. -/
def find_string (text key : List Char) : Option (List Char) :=
  match after_key text key with
  | none => none
  | some rest => json_parse_string rest

/-- The `int` value `json_get_int_value` finds in a text that is present. -/
def find_int (text key : List Char) : Int :=
  match after_key text key with
  | none => 0
  | some rest => json_parse_int rest

/-- The error body of `handle_api_users_post`. -/
def missing_fields_text : List Char :=
  "\x7b\n  \"success\": false,\n  \"error\": \"Missing required fields: name and email\"\n\x7d".toList

/-- A POST request with the given path and (non-empty) body, as the parser
delivers it. -/
def post_request (path body : List Char) : HttpRequest :=
  { zero_request with
    method := HttpMethod.HTTP_POST, path := path, body := some body,
    body_length := body.length }

/-- The text after the first occurrence of `needle` in `hay`, the place where
the JSON functions start to read. -/
def strstr_rest (hay needle : List Char) : Option (List Char) :=
  (strstr hay needle).map (fun i => hay.drop (i + needle.length))

/-- The login body `{"username":"u","password":"p"}`. -/
def login_body (u p : List Char) : List Char :=
  "\x7b\"username\":\"".toList ++ (u ++ ("\",\"password\":\"".toList ++ (p ++ "\"\x7d".toList)))

/-- The calculator body `{"a":a,"b":b,"operation":"op"}`. -/
def calculate_body (a b : Int) (op : List Char) : List Char :=
  "\x7b\"a\":".toList ++ (decimal_int a ++ (",\"b\":".toList ++ (decimal_int b
    ++ (",\"operation\":\"".toList ++ (op ++ "\"\x7d".toList)))))

/-- A string without double quote and without backslash. -/
def plain (s : List Char) : Prop :=
  '"' ∉ s ∧ '\\' ∉ s

instance plain_decidable (s : List Char) : Decidable (plain s) :=
  inferInstanceAs (Decidable ('"' ∉ s ∧ '\\' ∉ s))

/-- The value is representable in a signed 32-bit `int`. -/
def in_int (v : Int) : Prop :=
  -(2 ^ 31) ≤ v ∧ v < 2 ^ 31

instance in_int_decidable (v : Int) : Decidable (in_int v) :=
  inferInstanceAs (Decidable (-(2 ^ 31) ≤ v ∧ v < 2 ^ 31))

/-- The arithmetic result the calculator is to return for `add`, `subtract`
and `multiply`. -/
def calculate_value (a b : Int) (op : List Char) : Int :=
  if op = "add".toList then a + b
  else if op = "subtract".toList then a - b
  else a * b

/-- The success body of the calculator for operands `a`, `b`, operation `op`
and an integer result printed with two decimals. -/
def calculate_text (a b : Int) (op : List Char) (result : Int) : List Char :=
  "\x7b\n  \"success\": true,\n  \"data\": \x7b\n    \"a\": ".toList ++ decimal_int a
    ++ ",\n    \"b\": ".toList ++ decimal_int b
    ++ ",\n    \"operation\": \"".toList ++ op
    ++ "\",\n    \"result\": ".toList ++ decimal_int result ++ ".00\n  \x7d\n\x7d".toList

/-- One step of the digit loop of `json_parse_int`. -/
def parse_int_step (value : Int) (d : Char) : Int :=
  wrap32 (value * 10 + ((d.toNat : Int) - ('0'.toNat : Int)))

/-- The last step of `parse_http_request` after the header loop ended in state
`st`: method and path of the request line, the stored content type, and, when
the method is POST, `content_length` is positive and `line` is not `NULL`, the
length and the body, which stays `NULL` when `malloc` fails. -/
def finish_request (request : HttpRequest) (line : List Char) (st : HeaderState) :
    HttpRequest :=
  match st.line with
  | some rest =>
    if parse_method line = HttpMethod.HTTP_POST ∧ 0 < st.content_length then
      if malloc_succeeds ((st.content_length + 1) % 2 ^ 64) then
        { request with
          method := parse_method line, path := parse_path line request.path,
          content_type := st.content_type,
          body := some (rest.take st.content_length),
          body_length := st.content_length }
      else
        { request with
          method := parse_method line, path := parse_path line request.path,
          content_type := st.content_type,
          body := none,
          body_length := st.content_length }
    else
      { request with
        method := parse_method line, path := parse_path line request.path,
        content_type := st.content_type }
  | none =>
    { request with
      method := parse_method line, path := parse_path line request.path,
      content_type := st.content_type }

/-- The three ways the header section of a buffer can end: with the empty line
followed by further bytes, with the end of the buffer right after the CRLF of
the last header line, or with a last line that no CRLF ends. -/
inductive HeaderEnd where
  | blank (rest : List Char)
  | stop
  | unterminated (last : List Char)
  deriving DecidableEq, Repr

/-- The bytes of the buffer at the end of the header section. -/
def HeaderEnd.text : HeaderEnd → List Char
  | HeaderEnd.blank rest => CRLF ++ rest
  | HeaderEnd.stop => []
  | HeaderEnd.unterminated last => last

/-- The header line that the end of the header section adds to the lines
before it: the unterminated last line, if there is one. -/
def HeaderEnd.lines : HeaderEnd → List (List Char)
  | HeaderEnd.blank _ => []
  | HeaderEnd.stop => []
  | HeaderEnd.unterminated last => [last]

/-- The `line` pointer after the header loop: the bytes after the empty line,
the end of the buffer, or `NULL` after an unterminated line. -/
def HeaderEnd.line_after : HeaderEnd → Option (List Char)
  | HeaderEnd.blank rest => some (cstr rest)
  | HeaderEnd.stop => some []
  | HeaderEnd.unterminated _ => none

/-- An unterminated last line is a non-empty line. -/
def HeaderEnd.well_formed : HeaderEnd → Prop
  | HeaderEnd.blank _ => True
  | HeaderEnd.stop => True
  | HeaderEnd.unterminated last => last ≠ [] ∧ is_line last

instance header_end_well_formed_decidable (e : HeaderEnd) : Decidable e.well_formed :=
  match e with
  | HeaderEnd.blank _ => isTrue trivial
  | HeaderEnd.stop => isTrue trivial
  | HeaderEnd.unterminated last => inferInstanceAs (Decidable (last ≠ [] ∧ is_line last))

/-- A buffer with a request line, header lines and an end of the header
section. -/
def request_text (line : List Char) (hs : List (List Char)) (e : HeaderEnd) : List Char :=
  line ++ CRLF ++ header_block hs ++ e.text

/-- The state in which the header loop starts for a request. -/
def initial_state (request : HttpRequest) : HeaderState :=
  { line := none, content_type := request.content_type, content_length := 0 }

/-- The state of the header loop after the header section of `request_text`. -/
def final_state (request : HttpRequest) (hs : List (List Char)) (e : HeaderEnd) :
    HeaderState :=
  { line := e.line_after,
    content_type := (apply_headers (hs ++ e.lines) (initial_state request)).content_type,
    content_length := (apply_headers (hs ++ e.lines) (initial_state request)).content_length }

/-- The header line `h2` is the header line `h1` with the letter case of its
name changed, the name being `Content-Type:` or `Content-Length:` in some
letter case. -/
def same_header_name (h1 h2 : List Char) : Prop :=
  ∃ name1 name2 value, h1 = name1 ++ value ∧ h2 = name2 ++ value
    ∧ name1.map tolower = name2.map tolower
    ∧ (name1.map tolower = "content-type:".toList
        ∨ name1.map tolower = "content-length:".toList)

/-- The header line `h` declares the content length `d`: a name that is
`Content-Length:` in some letter case, white space, the decimal text of `d`,
and then text that does not begin with a digit. -/
def declares_content_length (h : List Char) (d : Int) : Prop :=
  ∃ name ws junk, h = name ++ (ws ++ (decimal_int d ++ junk))
    ∧ name.map tolower = "content-length:".toList
    ∧ ws.all isspace = true
    ∧ junk.takeWhile isdigit = []

/-- The header line `h` holds the content type `v`: a name that is
`Content-Type:` in some letter case, `k` space characters, and the text `v`,
which does not begin with a space character. -/
def declares_content_type (h v : List Char) : Prop :=
  ∃ name k, h = name ++ (List.replicate k ' ' ++ v)
    ∧ name.map tolower = "content-type:".toList
    ∧ v.head? ≠ some ' '

/-- The branches of `route_request` as a table: each registered route with the
handler call of its branch. -/
def route_table (env : Env) :
    List ((HttpMethod × List Char) × (HttpRequest → Except Fault HttpResponse)) :=
  [ ((HttpMethod.HTTP_GET, "/".toList), fun request => Except.ok (handle_root request)),
    ((HttpMethod.HTTP_GET, "/info".toList), fun request => Except.ok (handle_info request)),
    ((HttpMethod.HTTP_GET, "/glossary".toList), env.handle_glossary),
    ((HttpMethod.HTTP_GET, "/how-it-works".toList), env.handle_how_it_works),
    ((HttpMethod.HTTP_GET, "/image".toList),
      fun request => Except.ok (handle_image env.image_file request)),
    ((HttpMethod.HTTP_GET, "/api/health".toList), handle_api_health env.timestamp env.now),
    ((HttpMethod.HTTP_GET, "/api/users".toList), handle_api_users_get),
    ((HttpMethod.HTTP_GET, "/api/stats".toList), handle_api_stats),
    ((HttpMethod.HTTP_GET, "/api/time".toList),
      handle_api_time env.iso env.date env.time_str env.now),
    ((HttpMethod.HTTP_GET, "/api/weather".toList), handle_api_weather env.weather_response),
    ((HttpMethod.HTTP_GET, "/api/exchange".toList), handle_api_exchange_rates),
    ((HttpMethod.HTTP_GET, "/api/quote".toList), handle_api_quote),
    ((HttpMethod.HTTP_GET, "/api/proxy".toList), handle_api_proxy),
    ((HttpMethod.HTTP_POST, "/echo".toList), fun request => Except.ok (handle_echo request)),
    ((HttpMethod.HTTP_POST, "/data".toList),
      fun request => Except.ok (handle_post_data request)),
    ((HttpMethod.HTTP_POST, "/api/users".toList), handle_api_users_post env.rand),
    ((HttpMethod.HTTP_POST, "/api/login".toList), handle_api_login),
    ((HttpMethod.HTTP_POST, "/api/calculate".toList),
      handle_api_calculate env.format_quotient) ]

/-- The result of a handler is not a response with status 404. -/
def not_404 (result : Except Fault HttpResponse) : Prop :=
  ∀ response, result = Except.ok response → response.status_code ≠ 404

/-- The response has a body and `body_length` is the number of its bytes. -/
def body_sized (r : HttpResponse) : Prop :=
  ∃ b, r.body = some b ∧ r.body_length = b.length

/-- The result of a handler, if it is a response, has a body of `body_length`
bytes. -/
def sized (result : Except Fault HttpResponse) : Prop :=
  ∀ response, result = Except.ok response → body_sized response

/-- The GET paths whose handler a source file defines. -/
def defined_get_paths : List (List Char) :=
  ["/".toList, "/info".toList, "/image".toList, "/api/health".toList, "/api/users".toList,
    "/api/stats".toList, "/api/time".toList, "/api/weather".toList, "/api/exchange".toList,
    "/api/quote".toList, "/api/proxy".toList]

/-- The body of the health response for a time stamp text and a clock value:
the keys `status`, `service`, `version`, `timestamp` and `uptime_seconds`. -/
def health_text (timestamp : List Char) (now : Int) : List Char :=
  "\x7b\n  \"status\": \"healthy\",\n  \"service\": \"http-server\",\n  \"version\": \"1.0.0\",\n  \"timestamp\": \"".toList
    ++ timestamp ++ "\",\n  \"uptime_seconds\": ".toList ++ decimal_int now ++ "\n\x7d".toList

/-- The value is representable in a signed 64-bit `long`. -/
def in_long (v : Int) : Prop :=
  -(2 ^ 63) ≤ v ∧ v < 2 ^ 63

instance in_long_decidable (v : Int) : Decidable (in_long v) :=
  inferInstanceAs (Decidable (-(2 ^ 63) ≤ v ∧ v < 2 ^ 63))

/-- The text `url_decode` computes, read off the input from left to right:
`%XY` with two hexadecimal digits gives one byte, `+` gives a space, every
other byte is kept. -/
def url_decode_text : List Char → List Char
  | [] => []
  | c :: rest =>
    if c = '%' then
      match rest with
      | a :: b :: rest2 =>
        if isxdigit a = true ∧ isxdigit b = true then hex_byte a b :: url_decode_text rest2
        else '%' :: url_decode_text (a :: b :: rest2)
      | [a] => '%' :: url_decode_text [a]
      | [] => ['%']
    else if c = '+' then ' ' :: url_decode_text rest
    else c :: url_decode_text rest

/-- The text `t` is a percent-encoding of the bytes `s`: each byte is written
as `%` followed by two hexadecimal digits, upper or lower case, of its value. -/
def is_percent_encoding : List Char → List Char → Bool
  | [], [] => true
  | c :: s, '%' :: a :: b :: t =>
    isxdigit a && isxdigit b && (hex_value a * 16 + hex_value b == c.toNat)
      && is_percent_encoding s t
  | _, _ => false

/-- A hexadecimal digit of a value below 16, upper or lower case. -/
def hex_digit (upper : Bool) (n : Nat) : Char :=
  if n < 10 then Char.ofNat (48 + n)
  else if upper then Char.ofNat (55 + n) else Char.ofNat (87 + n)

/-- The percent-encoding of a byte string with digits of one letter case. -/
def percent_encode (upper : Bool) : List Char → List Char
  | [] => []
  | c :: s =>
    '%' :: hex_digit upper (c.toNat / 16) :: hex_digit upper (c.toNat % 16)
      :: percent_encode upper s

/-- Every double quote of the text stands after a backslash that escapes it,
and every backslash is followed by the byte it escapes. -/
def well_escaped : List Char → Bool
  | [] => true
  | [c] => c ≠ '\\' && c ≠ '"'
  | c :: d :: rest =>
    if c = '\\' then well_escaped rest
    else c ≠ '"' && well_escaped (d :: rest)

/-- The text of a string with each byte escaped as `json_builder_append_escaped`
escapes it, without the limit of the scratch buffer. -/
def escape_all : List Char → List Char
  | [] => []
  | c :: cs => escape_char c ++ escape_all cs

/-- The invariant of a `JSONBuilder`: `size` is the length of the text in the
buffer, and the buffer has room for the text and its NUL. -/
def builder_invariant (jb : JSONBuilder) : Prop :=
  jb.size = jb.buffer.length ∧ jb.size + 1 ≤ jb.capacity

instance builder_invariant_decidable (jb : JSONBuilder) : Decidable (builder_invariant jb) :=
  inferInstanceAs (Decidable (jb.size = jb.buffer.length ∧ jb.size + 1 ≤ jb.capacity))

/-- The use `parse_http_request` makes of the body buffer: the value of
`content_length`, the size `content_length + 1` passed to `malloc` (64-bit
unsigned arithmetic) and the number of bytes written into the buffer, the
`to_copy` bytes of `memcpy` and the NUL. -/
structure BodyBuffer where
  content_length : Nat
  allocated : Nat
  written : Nat
  deriving DecidableEq, Repr

/-- The body step of `parse_http_request` after the header loop ended in state
`st`: the buffer use, `none` when no buffer is allocated (the step is not taken,
or `malloc` returns `NULL`). -/
def body_buffer (line : List Char) (st : HeaderState) : Option BodyBuffer :=
  match st.line with
  | some rest =>
    if parse_method line = HttpMethod.HTTP_POST ∧ 0 < st.content_length then
      if malloc_succeeds ((st.content_length + 1) % 2 ^ 64) then
        some { content_length := st.content_length,
               allocated := (st.content_length + 1) % 2 ^ 64,
               written := min rest.length st.content_length + 1 }
      else none
    else none
  | none => none

/-- The buffer use of `parse_http_request(raw_request, request)` (`none` only
if the header loop ran out of fuel). -/
def parse_body_buffer (raw_request : List Char) : Option (Option BodyBuffer) :=
  (header_loop ((cstr raw_request).length + 1)
      { line := (cut_line (cstr raw_request)).2, content_type := [], content_length := 0 }).map
    (body_buffer (cut_line (cstr raw_request)).1)

/-- The string a JSON string literal text denotes, for the two-character
escapes `json_builder_append_escaped` writes: a backslash and the character
after it stand for one character. -/
def json_unescape : List Char → List Char
  | [] => []
  | [c] => [c]
  | c :: d :: ds =>
    if c = '\\' then
      (if d = 'n' then '\n' else if d = 'r' then '\r' else if d = 't' then '\t' else d)
        :: json_unescape ds
    else c :: json_unescape (d :: ds)

/-- The users body `{"name":N,"email":E}`, where `N` and `E` are the string
literals of `n` and `e`. -/
def users_body (n e : List Char) : List Char :=
  "\x7b\"name\":\"".toList
    ++ (escape_all n ++ ("\",\"email\":\"".toList ++ (escape_all e ++ "\"\x7d".toList)))

/-- The body of the 201 answer of `handle_api_users_post` that holds the texts
`name`, `email` and `role` between the quotes of the three fields. -/
def user_created_text (rand : Nat) (name email role : List Char) : List Char :=
  concat_all [
    "\x7b\n".toList,
    "  \"success\": true,\n".toList,
    "  \"message\": \"User created successfully\",\n".toList,
    "  \"data\": \x7b\n".toList,
    snprintf 512 ("    \"id\": ".toList
      ++ decimal_int ((rand % 1000 + 100 : Nat) : Int) ++ ",\n".toList),
    "    \"name\": \"".toList,
    name,
    "\",\n".toList,
    "    \"email\": \"".toList,
    email,
    "\",\n".toList,
    "    \"role\": \"".toList,
    role,
    "\"\n".toList,
    "  \x7d\n".toList,
    "\x7d".toList]

/-- The character is one of the five that `json_builder_append_escaped` writes
as two. -/
def needs_escape (c : Char) : Bool :=
  c = '"' || c = '\\' || c = '\n' || c = '\r' || c = '\t'

/-! ## Lemmas on C strings, the header loop and decimal printing -/

theorem malloc_succeeds_small (n : Nat) (h : n < 2 ^ 63 - 1) :
    malloc_succeeds ((n + 1) % 2 ^ 64) = true := by
  unfold malloc_succeeds
  rw [Nat.mod_eq_of_lt (by omega)]
  exact decide_eq_true (by omega)

theorem cstr_append_of_not_mem (a b : List Char) (h : NUL ∉ a) : cstr (a ++ b) = a ++ cstr b := by
  induction a with
  | nil => rfl
  | cons c a ih =>
    simp only [List.mem_cons, not_or] at h
    have hc : c ≠ NUL := fun e => h.1 e.symm
    simp [cstr, hc, ih h.2]

theorem cstr_nul (b : List Char) : cstr (NUL :: b) = [] := by
  simp [cstr]

theorem cstr_length_le (a : List Char) : (cstr a).length ≤ a.length := by
  induction a with
  | nil => simp [cstr]
  | cons c a ih =>
    by_cases hc : c = NUL
    · simp [cstr, hc]
    · simp [cstr, hc]; omega

theorem crlf_isPrefixOf (l : List Char) :
    CRLF.isPrefixOf l = true ↔ ∃ t, l = '\r' :: '\n' :: t := by
  match l with
  | [] => simp [CRLF, List.isPrefixOf]
  | [c] => simp [CRLF, List.isPrefixOf]
  | c :: d :: t =>
    simp [CRLF, List.isPrefixOf]
    constructor
    · rintro ⟨h1, h2⟩; exact ⟨h1.symm, h2.symm⟩
    · rintro ⟨h1, h2⟩; exact ⟨h1.symm, h2.symm⟩

theorem strstr_cons (c : Char) (hay needle : List Char) :
    strstr (c :: hay) needle =
      if needle.isPrefixOf (c :: hay) then some 0 else (strstr hay needle).map (· + 1) := by
  rw [strstr]

theorem strstr_crlf_append (a b : List Char) (h : strstr a CRLF = none) :
    strstr (a ++ CRLF ++ b) CRLF = some a.length := by
  induction a with
  | nil => simp [strstr_cons, CRLF, List.isPrefixOf]
  | cons c a ih =>
    rw [strstr_cons] at h
    split at h
    · simp at h
    · rename_i hp
      simp only [Option.map_eq_none'] at h
      have hnp : ¬ CRLF.isPrefixOf (c :: (a ++ CRLF ++ b)) = true := by
        intro hq
        rw [crlf_isPrefixOf] at hq
        obtain ⟨t, ht⟩ := hq
        apply hp
        rw [crlf_isPrefixOf]
        cases a with
        | nil => simp [CRLF] at ht
        | cons d a' =>
          simp at ht
          exact ⟨a', by simp [ht.1, ht.2.1]⟩
      simp only [List.cons_append, List.append_assoc] at hnp ⊢
      rw [strstr_cons, if_neg hnp]
      have := ih h
      simp only [List.append_assoc] at this
      rw [this]; simp

theorem cut_line_append (a b : List Char) (h : strstr a CRLF = none) :
    cut_line (a ++ CRLF ++ b) = (a, some b) := by
  unfold cut_line
  rw [strstr_crlf_append a b h]
  simp [CRLF]

theorem header_loop_none (fuel : Nat) (st : HeaderState) (h : st.line = none) :
    header_loop fuel st = some st := by
  cases fuel <;> simp [header_loop, h]

theorem header_loop_nil (fuel : Nat) (st : HeaderState) (h : st.line = some []) :
    header_loop fuel st = some st := by
  cases fuel <;> simp [header_loop, h]

theorem header_loop_succ (fuel : Nat) (st : HeaderState) (c : Char) (cs : List Char)
    (h : st.line = some (c :: cs)) :
    header_loop (fuel + 1) st =
      if (cut_line (c :: cs)).1 = [] then some { st with line := (cut_line (c :: cs)).2 }
      else header_loop fuel (header_step (cut_line (c :: cs)).1 st (cut_line (c :: cs)).2) := by
  rw [header_loop]
  simp only [h, header_step]

theorem strstr_lt_length (hay needle : List Char) (i : Nat) (hn : needle ≠ [])
    (h : strstr hay needle = some i) : i < hay.length := by
  induction hay generalizing i with
  | nil => simp [strstr, hn] at h
  | cons c hay ih =>
    rw [strstr_cons] at h
    split at h
    · simp at h; subst h; simp
    · simp only [Option.map_eq_some'] at h
      obtain ⟨j, hj, rfl⟩ := h
      have := ih j hj
      simp; omega

theorem cut_line_snd_lt (l r : List Char) (h : (cut_line l).2 = some r) :
    r.length < l.length := by
  unfold cut_line at h
  split at h
  · rename_i i hi
    simp at h
    have := strstr_lt_length l CRLF i (by simp [CRLF]) hi
    subst h; simp; omega
  · simp at h

theorem header_loop_total (fuel : Nat) (st : HeaderState)
    (h : ∀ l, st.line = some l → l.length < fuel) :
    ∃ st1, header_loop fuel st = some st1 := by
  induction fuel generalizing st with
  | zero =>
    match hl : st.line with
    | none => exact ⟨st, header_loop_none 0 st hl⟩
    | some l => exact absurd (h l hl) (by omega)
  | succ fuel ih =>
    match hl : st.line with
    | none => exact ⟨st, header_loop_none _ st hl⟩
    | some [] => exact ⟨st, header_loop_nil _ st hl⟩
    | some (c :: cs) =>
      rw [header_loop_succ fuel st c cs hl]
      split
      · exact ⟨_, rfl⟩
      · apply ih
        intro l hl2
        simp only [header_step] at hl2
        have h1 := cut_line_snd_lt (c :: cs) l hl2
        have h2 := h (c :: cs) hl
        omega

theorem parse_http_request_total (raw : List Char) (request : HttpRequest) :
    ∃ r, parse_http_request raw request = some r := by
  unfold parse_http_request
  obtain ⟨st, hst⟩ := header_loop_total ((cstr raw).length + 1)
    { line := (cut_line (cstr raw)).2, content_type := request.content_type, content_length := 0 }
    (by
      intro l hl
      have := cut_line_snd_lt (cstr raw) l hl
      omega)
  simp only [hst]
  split
  · split
    · split <;> exact ⟨_, rfl⟩
    · exact ⟨_, rfl⟩
  · exact ⟨_, rfl⟩

theorem strstr_nil_crlf : strstr [] CRLF = none := by simp [strstr, CRLF]

theorem header_loop_blank (fuel : Nat) (st : HeaderState) (rest : List Char)
    (h : st.line = some (CRLF ++ rest)) :
    header_loop (fuel + 1) st = some { st with line := some rest } := by
  have hc : cut_line ('\r' :: '\n' :: rest) = ([], some rest) := by
    have := cut_line_append [] rest strstr_nil_crlf
    simpa [CRLF] using this
  have h2 : st.line = some ('\r' :: '\n' :: rest) := by simpa [CRLF] using h
  rw [header_loop_succ fuel st _ _ h2, hc]
  simp

theorem header_loop_line (fuel : Nat) (st : HeaderState) (h rest : List Char)
    (hne : h ≠ []) (hh : strstr h CRLF = none) (hl : st.line = some (h ++ CRLF ++ rest)) :
    header_loop (fuel + 1) st = header_loop fuel (header_step h st (some rest)) := by
  have hc := cut_line_append h rest hh
  cases h with
  | nil => exact absurd rfl hne
  | cons c cs =>
    have hl2 : st.line = some (c :: (cs ++ CRLF ++ rest)) := by simpa using hl
    have hc2 : cut_line (c :: (cs ++ CRLF ++ rest)) = (c :: cs, some rest) := by simpa using hc
    rw [header_loop_succ fuel st _ _ hl2, hc2]
    simp

theorem apply_headers_congr (hs : List (List Char)) (s t : HeaderState)
    (h1 : s.content_type = t.content_type) (h2 : s.content_length = t.content_length) :
    (apply_headers hs s).content_type = (apply_headers hs t).content_type ∧
    (apply_headers hs s).content_length = (apply_headers hs t).content_length := by
  induction hs generalizing s t with
  | nil => exact ⟨h1, h2⟩
  | cons x xs ih =>
    simp only [apply_headers]
    apply ih
    · simp only [header_step, h1]
    · simp only [header_step, h2]

theorem header_loop_block (hs : List (List Char)) (fuel : Nat) (st : HeaderState)
    (rest : List Char)
    (hhs : ∀ h ∈ hs, h ≠ [] ∧ strstr h CRLF = none) (hfuel : hs.length < fuel)
    (hl : st.line = some (header_block hs ++ CRLF ++ rest)) :
    header_loop fuel st =
      some { line := some rest,
             content_type := (apply_headers hs st).content_type,
             content_length := (apply_headers hs st).content_length } := by
  induction hs generalizing fuel st with
  | nil =>
    obtain ⟨fuel, rfl⟩ : ∃ k, fuel = k + 1 := ⟨fuel - 1, by simp at hfuel; omega⟩
    rw [header_loop_blank fuel st rest (by simpa [header_block] using hl)]
    simp [apply_headers]
  | cons h hs ih =>
    obtain ⟨fuel, rfl⟩ : ∃ k, fuel = k + 1 := ⟨fuel - 1, by simp at hfuel; omega⟩
    have hh := hhs h (by simp)
    rw [header_loop_line fuel st h (header_block hs ++ CRLF ++ rest) hh.1 hh.2
      (by simpa [header_block, List.append_assoc] using hl)]
    rw [ih fuel _ (fun x hx => hhs x (by simp [hx])) (by simp at hfuel; omega) rfl]
    have e := apply_headers_congr hs (header_step h st (some (header_block hs ++ CRLF ++ rest)))
      (header_step h st none) rfl rfl
    simp only [apply_headers]
    rw [e.1, e.2]

theorem digit_char_spec : ∀ d, d < 10 →
    isdigit (Char.ofNat (d + 48)) = true ∧ (Char.ofNat (d + 48)).toNat = d + 48 := by
  decide

theorem isdigit_toNat (c : Char) (h : isdigit c = true) : 48 ≤ c.toNat ∧ c.toNat ≤ 57 := by
  simp only [isdigit, Bool.and_eq_true, decide_eq_true_eq] at h
  exact h

theorem decimal_aux_isdigit (fuel n : Nat) (acc : List Char)
    (hacc : ∀ c ∈ acc, isdigit c = true) :
    ∀ c ∈ decimal_aux fuel n acc, isdigit c = true := by
  induction fuel generalizing n acc with
  | zero => simpa [decimal_aux] using hacc
  | succ fuel ih =>
    rw [decimal_aux]
    split
    · rename_i h
      intro c hc
      simp only [List.mem_cons] at hc
      rcases hc with rfl | hc
      · exact (digit_char_spec n h).1
      · exact hacc c hc
    · apply ih
      intro c hc
      simp only [List.mem_cons] at hc
      rcases hc with rfl | hc
      · exact (digit_char_spec (n % 10) (Nat.mod_lt _ (by decide))).1
      · exact hacc c hc

theorem decimal_isdigit (n : Nat) : ∀ c ∈ decimal n, isdigit c = true :=
  decimal_aux_isdigit _ _ _ (by simp)

theorem decimal_aux_ne_nil (fuel n : Nat) (acc : List Char) (h : 0 < fuel) :
    decimal_aux fuel n acc ≠ [] := by
  induction fuel generalizing n acc with
  | zero => omega
  | succ fuel ih =>
    rw [decimal_aux]
    split
    · simp
    · cases fuel with
      | zero => simp [decimal_aux]
      | succ k => exact ih _ _ (by omega)

theorem decimal_ne_nil (n : Nat) : decimal n ≠ [] :=
  decimal_aux_ne_nil _ _ _ (by omega)

theorem digits_value_foldl (l : List Char) (init : Nat) :
    l.foldl (fun acc d => acc * 10 + (d.toNat - '0'.toNat)) init
      = init * 10 ^ l.length + digits_value l := by
  induction l generalizing init with
  | nil => simp [digits_value]
  | cons c l ih =>
    simp only [List.foldl_cons, digits_value, List.length_cons]
    rw [ih, ih (0 * 10 + _)]
    ring

theorem digits_value_cons (c : Char) (l : List Char) :
    digits_value (c :: l) = (c.toNat - 48) * 10 ^ l.length + digits_value l := by
  have := digits_value_foldl l (0 * 10 + (c.toNat - '0'.toNat))
  simp only [digits_value, List.foldl_cons] at this ⊢
  rw [this]
  simp [digits_value]

theorem decimal_aux_value (fuel n : Nat) (acc : List Char) (h : n < fuel) :
    digits_value (decimal_aux fuel n acc) = n * 10 ^ acc.length + digits_value acc := by
  induction fuel generalizing n acc with
  | zero => omega
  | succ fuel ih =>
    rw [decimal_aux]
    split
    · rename_i hn
      rw [digits_value_cons, (digit_char_spec n hn).2]
      simp
    · rename_i hn
      rw [ih _ _ (by omega), digits_value_cons,
        (digit_char_spec (n % 10) (Nat.mod_lt _ (by decide))).2]
      simp only [List.length_cons, Nat.add_sub_cancel]
      have e : n = 10 * (n / 10) + n % 10 := (Nat.div_add_mod n 10).symm
      rw [pow_succ]
      generalize n / 10 = q at e ⊢
      generalize n % 10 = r at e ⊢
      subst e
      ring

theorem decimal_value (n : Nat) : digits_value (decimal n) = n := by
  have := decimal_aux_value (n + 1) n [] (by omega)
  simpa [decimal, digits_value] using this

theorem decimal_aux_length (fuel n k : Nat) (acc : List Char) (hk : 1 ≤ k) (h : n < 10 ^ k) :
    (decimal_aux fuel n acc).length ≤ k + acc.length := by
  induction fuel generalizing n k acc with
  | zero => simp [decimal_aux]
  | succ fuel ih =>
    rw [decimal_aux]
    split
    · simp; omega
    · rename_i hn
      obtain ⟨j, rfl⟩ : ∃ j, k = j + 1 := ⟨k - 1, by omega⟩
      have hj : 1 ≤ j := by
        rcases Nat.eq_zero_or_pos j with rfl | hj
        · simp at h; omega
        · exact hj
      have := ih (n / 10) j (Char.ofNat (n % 10 + 48) :: acc) hj
        (by rw [pow_succ] at h; exact Nat.div_lt_of_lt_mul (by omega))
      simp only [List.length_cons] at this
      omega

theorem decimal_length_le (n k : Nat) (hk : 1 ≤ k) (h : n < 10 ^ k) : (decimal n).length ≤ k := by
  simpa using decimal_aux_length (n + 1) n k [] hk h

theorem isspace_toNat (c : Char) (h : isspace c = true) : c.toNat ≤ 32 := by
  simp only [isspace, Bool.or_eq_true, decide_eq_true_eq] at h
  rcases h with ((((rfl | rfl) | rfl) | rfl) | rfl) | rfl <;> decide

theorem isdigit_not_isspace (c : Char) (h : isdigit c = true) : isspace c = false := by
  have h1 := isdigit_toNat c h
  cases hs : isspace c with
  | false => rfl
  | true => have := isspace_toNat c hs; omega

theorem isdigit_ne (c d : Char) (h : isdigit c = true) (hd : d.toNat < 48 ∨ 57 < d.toNat) :
    c ≠ d := by
  rintro rfl
  have := isdigit_toNat c h
  omega

theorem wrap32_of_range (v : Int) (h1 : -(2 ^ 31) ≤ v) (h2 : v < 2 ^ 31) : wrap32 v = v := by
  unfold wrap32
  omega

theorem clamp64_of_range (v : Int) (h1 : -(2 ^ 63) ≤ v) (h2 : v < 2 ^ 63) : clamp64 v = v := by
  unfold clamp64
  split
  · omega
  · split
    · omega
    · rfl

theorem takeWhile_all {α : Type} (p : α → Bool) (l : List α) (h : ∀ x ∈ l, p x = true) :
    l.takeWhile p = l := by
  induction l with
  | nil => rfl
  | cons x l ih =>
    simp only [List.takeWhile_cons, h x (by simp)]
    simp [ih (fun y hy => h y (by simp [hy]))]

theorem atoi_space_decimal (n : Nat) (h : n < 2 ^ 31) : atoi (' ' :: decimal n) = (n : Int) := by
  obtain ⟨d, ds, hd⟩ : ∃ d ds, decimal n = d :: ds := by
    cases hdn : decimal n with
    | nil => exact absurd hdn (decimal_ne_nil n)
    | cons d ds => exact ⟨d, ds, rfl⟩
  have hdig : isdigit d = true := decimal_isdigit n d (by simp [hd])
  have hsp := isdigit_not_isspace d hdig
  have hm : d ≠ '-' := isdigit_ne d '-' hdig (by decide)
  have hp : d ≠ '+' := isdigit_ne d '+' hdig (by decide)
  have htw : (d :: ds).takeWhile isdigit = d :: ds :=
    takeWhile_all _ _ (by rw [← hd]; exact decimal_isdigit n)
  have hv := decimal_value n
  rw [hd] at hv
  unfold atoi
  rw [hd]
  have e1 : (' ' :: d :: ds).dropWhile isspace = d :: ds := by
    rw [List.dropWhile_cons_of_pos (by decide), List.dropWhile_cons_of_neg (by simp [hsp])]
  simp only [e1, List.head?_cons, Option.some.injEq, hm, hp, or_self, if_false, htw, hv,
    decide_False]
  have : ((n : Nat) : Int) < 2 ^ 31 := by exact_mod_cast h
  rw [clamp64_of_range _ (by omega) (by omega), wrap32_of_range _ (by omega) (by omega)]
  simp

theorem size_t_of_int_nat (n : Nat) (h : n < 2 ^ 64) : size_t_of_int (n : Int) = n := by
  unfold size_t_of_int
  have : ((n : Nat) : Int) < 2 ^ 64 := by exact_mod_cast h
  rw [Int.emod_eq_of_lt (by omega) this]
  simp

theorem header_block_length (hs : List (List Char)) : hs.length ≤ (header_block hs).length := by
  induction hs with
  | nil => simp
  | cons h hs ih => simp [header_block, CRLF]; omega

theorem header_block_no_nul (hs : List (List Char)) (h : ∀ x ∈ hs, NUL ∉ x) :
    NUL ∉ header_block hs := by
  induction hs with
  | nil => simp [header_block]
  | cons x hs ih =>
    simp only [header_block, List.mem_append, not_or]
    refine ⟨⟨h x (by simp), by decide⟩, ih (fun y hy => h y (by simp [hy]))⟩

theorem apply_headers_append (a b : List (List Char)) (st : HeaderState) :
    apply_headers (a ++ b) st = apply_headers b (apply_headers a st) := by
  induction a generalizing st with
  | nil => rfl
  | cons x a ih =>
    rw [List.cons_append]
    simp only [apply_headers]
    exact ih _

theorem apply_headers_content_length (hs : List (List Char)) (st : HeaderState)
    (h : ∀ x ∈ hs, strncasecmp_eq x "Content-Length:".toList 15 = false) :
    (apply_headers hs st).content_length = st.content_length := by
  induction hs generalizing st with
  | nil => rfl
  | cons x hs ih =>
    simp only [apply_headers]
    rw [ih _ (fun y hy => h y (by simp [hy]))]
    simp only [header_step, h x (by simp)]
    simp

theorem strstr_crlf_of_no_cr (l : List Char) (h : '\r' ∉ l) : strstr l CRLF = none := by
  induction l with
  | nil => simp [strstr, CRLF]
  | cons c l ih =>
    simp only [List.mem_cons, not_or] at h
    have hp : ¬ CRLF.isPrefixOf (c :: l) = true := by
      rw [crlf_isPrefixOf]
      rintro ⟨t, ht⟩
      simp only [List.cons.injEq] at ht
      exact h.1 ht.1.symm
    rw [strstr_cons, if_neg hp, ih h.2]
    rfl

theorem decimal_no_char (n : Nat) (d : Char) (hd : d.toNat < 48 ∨ 57 < d.toNat) :
    d ∉ decimal n := by
  intro hm
  exact isdigit_ne d d (decimal_isdigit n d hm) hd rfl

theorem content_length_line_is_line (n : Nat) :
    ("Content-Length: ".toList ++ decimal n) ≠ [] ∧
      is_line ("Content-Length: ".toList ++ decimal n) := by
  refine ⟨by simp, ?_, ?_⟩
  · simp only [List.mem_append, not_or]
    exact ⟨by decide, decimal_no_char n NUL (by decide)⟩
  · apply strstr_crlf_of_no_cr
    simp only [List.mem_append, not_or]
    exact ⟨by decide, decimal_no_char n '\r' (by decide)⟩

theorem content_length_line_step (n : Nat) (hn : n < 2 ^ 31) (st : HeaderState) :
    (header_step ("Content-Length: ".toList ++ decimal n) st none).content_length = n := by
  have e1 : strncasecmp_eq ("Content-Length: ".toList ++ decimal n) "Content-Length:".toList 15
      = true := rfl
  have e2 : ("Content-Length: ".toList ++ decimal n).drop 15 = ' ' :: decimal n := rfl
  simp only [header_step, e1, e2, if_true]
  rw [atoi_space_decimal n hn, size_t_of_int_nat n (by omega)]

theorem parse_http_request_of_loop (raw : List Char) (request : HttpRequest) (st : HeaderState)
    (h : header_loop ((cstr raw).length + 1)
      { line := (cut_line (cstr raw)).2, content_type := request.content_type,
        content_length := 0 } = some st) :
    parse_http_request raw request =
      some (match st.line with
        | some rest =>
          if parse_method (cut_line (cstr raw)).1 = HttpMethod.HTTP_POST ∧ 0 < st.content_length then
            if malloc_succeeds ((st.content_length + 1) % 2 ^ 64) then
              { request with
                method := parse_method (cut_line (cstr raw)).1,
                path := parse_path (cut_line (cstr raw)).1 request.path,
                content_type := st.content_type,
                body := some (rest.take st.content_length),
                body_length := st.content_length }
            else
              { request with
                method := parse_method (cut_line (cstr raw)).1,
                path := parse_path (cut_line (cstr raw)).1 request.path,
                content_type := st.content_type,
                body := none,
                body_length := st.content_length }
          else
            { request with
              method := parse_method (cut_line (cstr raw)).1,
              path := parse_path (cut_line (cstr raw)).1 request.path,
              content_type := st.content_type }
        | none =>
          { request with
            method := parse_method (cut_line (cstr raw)).1,
            path := parse_path (cut_line (cstr raw)).1 request.path,
            content_type := st.content_type }) := by
  unfold parse_http_request
  simp only [h]
  cases st.line with
  | none => rfl
  | some rest =>
    simp only []
    split
    · split <;> rfl
    · rfl

/-- The parse of a serialized request whose lines are well formed: the header
loop stops at the empty line with the effect of the header lines. -/
theorem parse_serialized (request_line : List Char) (hs : List (List Char))
    (body : List Char) (request : HttpRequest)
    (hline : is_line request_line) (hhs : ∀ h ∈ hs, h ≠ [] ∧ is_line h) :
    header_loop ((cstr (serialize_request request_line hs body)).length + 1)
      { line := (cut_line (cstr (serialize_request request_line hs body))).2,
        content_type := request.content_type, content_length := 0 }
      = some { line := some (cstr body),
               content_type := (apply_headers hs
                 { line := none, content_type := request.content_type,
                   content_length := 0 }).content_type,
               content_length := (apply_headers hs
                 { line := none, content_type := request.content_type,
                   content_length := 0 }).content_length }
    ∧ (cut_line (cstr (serialize_request request_line hs body))).1 = request_line := by
  have hnul : NUL ∉ request_line ++ CRLF ++ header_block hs ++ CRLF := by
    simp only [List.mem_append, not_or]
    exact ⟨⟨⟨hline.1, by decide⟩, header_block_no_nul hs (fun x hx => (hhs x hx).2.1)⟩, by decide⟩
  have hc : cstr (serialize_request request_line hs body)
      = request_line ++ CRLF ++ (header_block hs ++ CRLF ++ cstr body) := by
    unfold serialize_request
    rw [cstr_append_of_not_mem _ _ hnul]
    simp only [List.append_assoc]
  have hcut := cut_line_append request_line (header_block hs ++ CRLF ++ cstr body) hline.2
  rw [hc, hcut]
  refine ⟨?_, rfl⟩
  have hlen := header_block_length hs
  rw [header_loop_block hs _ _ (cstr body) (fun h hh => ⟨(hhs h hh).1, (hhs h hh).2.2⟩)
    (by simp only [List.length_append]; omega) rfl]
  have e := apply_headers_congr hs
    { line := some (header_block hs ++ CRLF ++ cstr body), content_type := request.content_type,
      content_length := 0 }
    { line := none, content_type := request.content_type, content_length := 0 } rfl rfl
  rw [e.1, e.2]

/-- C1: for every body of N >= 1 bytes without NUL (N within `int`), the parse
of a POST request made of a request line, header lines among which
`Content-Length: N` is the last Content-Length line, the empty line, and then
the body followed by any further bytes, yields exactly those N bytes as body,
with `body_length = N`. -/
theorem parse_post_body_roundtrip (tail : List Char) (hs1 hs2 : List (List Char))
    (body extra : List Char) (request : HttpRequest)
    (hline : is_line ("POST".toList ++ tail))
    (hhs1 : ∀ h ∈ hs1, h ≠ [] ∧ is_line h)
    (hhs2 : ∀ h ∈ hs2, h ≠ [] ∧ is_line h ∧
      strncasecmp_eq h "Content-Length:".toList 15 = false)
    (hN : 1 ≤ body.length) (hint : body.length < 2 ^ 31) (hbody : NUL ∉ body) :
    ∃ r, parse_http_request
        (serialize_request ("POST".toList ++ tail)
          (hs1 ++ ["Content-Length: ".toList ++ decimal body.length] ++ hs2) (body ++ extra))
        request = some r
      ∧ r.body = some body ∧ r.body_length = body.length := by
  have hcl : ("Content-Length: ".toList ++ decimal body.length) ≠ [] ∧
      is_line ("Content-Length: ".toList ++ decimal body.length) :=
    content_length_line_is_line body.length
  have hhs : ∀ h ∈ hs1 ++ ["Content-Length: ".toList ++ decimal body.length] ++ hs2,
      h ≠ [] ∧ is_line h := by
    intro h hh
    simp only [List.mem_append, List.mem_singleton] at hh
    rcases hh with (hh | rfl) | hh
    · exact hhs1 h hh
    · exact hcl
    · exact ⟨(hhs2 h hh).1, (hhs2 h hh).2.1⟩
  obtain ⟨hloop, hfirst⟩ := parse_serialized ("POST".toList ++ tail)
    (hs1 ++ ["Content-Length: ".toList ++ decimal body.length] ++ hs2) (body ++ extra)
    request hline hhs
  have hlen : (apply_headers (hs1 ++ ["Content-Length: ".toList ++ decimal body.length] ++ hs2)
      { line := none, content_type := request.content_type, content_length := 0 }).content_length
      = body.length := by
    rw [apply_headers_append, apply_headers_content_length hs2 _ (fun x hx => (hhs2 x hx).2.2),
      apply_headers_append]
    simp only [apply_headers]
    exact content_length_line_step body.length hint _
  have hm : parse_method ("POST".toList ++ tail) = HttpMethod.HTTP_POST := rfl
  rw [parse_http_request_of_loop _ _ _ hloop]
  refine ⟨_, rfl, ?_⟩
  simp only [hfirst, hm, hlen, true_and]
  rw [if_pos (by omega), if_pos (malloc_succeeds_small body.length (by omega))]
  simp [cstr_append_of_not_mem body extra hbody]

/-- Witness of C1: a POST to `/echo` with a five-byte body followed by further
bytes. -/
theorem parse_post_body_roundtrip_witness :
    ∃ r, parse_http_request
        (serialize_request ("POST".toList ++ " /echo HTTP/1.1".toList)
          (["Host: localhost".toList] ++ ["Content-Length: ".toList ++ decimal "hello".toList.length]
            ++ ["Content-Type: text/plain".toList]) ("hello".toList ++ " world".toList))
        zero_request = some r
      ∧ r.body = some "hello".toList ∧ r.body_length = "hello".toList.length :=
  parse_post_body_roundtrip " /echo HTTP/1.1".toList ["Host: localhost".toList]
    ["Content-Type: text/plain".toList] "hello".toList " world".toList zero_request
    (by decide) (by decide) (by decide) (by decide) (by decide) (by decide)

/-! ## The response serializer -/

theorem status_message_length (c : Int) : (status_message c).length ≤ 21 := by
  unfold status_message
  split
  · decide
  · split
    · decide
    · split <;> decide

theorem decimal_int_length (v : Int) (h1 : -(2 ^ 31) ≤ v) (h2 : v < 2 ^ 31) :
    (decimal_int v).length ≤ 11 := by
  have hb : v.natAbs < 10 ^ 10 := by omega
  have := decimal_length_le v.natAbs 10 (by omega) hb
  unfold decimal_int
  split
  · simp; omega
  · omega

theorem header_text_length (code : Int) (reason ct : List Char) (n : Nat) :
    (header_text code reason ct n).length
      = 67 + (decimal_int code).length + reason.length + ct.length + (decimal n).length := by
  simp [header_text, CRLF]
  omega

theorem header_text_fits (r : HttpResponse) (h : fits_c_types r) :
    (header_text r.status_code (status_message r.status_code) r.content_type
      r.body_length).length ≤ 1023 := by
  obtain ⟨h1, h2, h3, h4⟩ := h
  have a := status_message_length r.status_code
  have b := decimal_int_length r.status_code h1 h2
  have c := decimal_length_le r.body_length 20 (by omega) (by omega)
  rw [header_text_length]
  omega

theorem snprintf_of_fits (size : Nat) (s : List Char) (h : s.length ≤ size - 1) :
    snprintf size s = s := by
  unfold snprintf
  exact List.take_of_length_le h

/-- The calls `send_http_response` makes on a socket that writes everything,
for a response that fits the C types. -/
theorem send_http_response_full (r : HttpResponse) (h : fits_c_types r) :
    send_http_response full_send r =
      { buf := header_text r.status_code (status_message r.status_code) r.content_type
          r.body_length,
        len := (header_text r.status_code (status_message r.status_code) r.content_type
          r.body_length).length,
        ret := ((header_text r.status_code (status_message r.status_code) r.content_type
          r.body_length).length : Int) } ::
      (match r.body with
        | some body =>
          if 0 < r.body_length then
            [{ buf := body, len := r.body_length, ret := (r.body_length : Int) }]
          else []
        | none => []) := by
  have hf := header_text_fits r h
  unfold send_http_response
  simp only [snprintf_of_fits 1024 _ hf, full_send]
  rw [if_neg (by omega)]
  cases r.body with
  | none => rfl
  | some body =>
    simp only []
    split <;> rfl

/-- Outside the invariant of a response (`body_length` is the number of body
bytes, so an absent body has `body_length = 0`): for an absent body with
`body_length = 5` the header block announces `Content-Length: 5` and no body
byte is written. No handler returns such a response. -/
theorem content_length_mismatch_absent_body :
    (send_http_response full_send absent_body_response).map SendCall.buf
        = [header_text 200 "OK".toList "text/plain".toList 5]
      ∧ body_bytes_sent (send_http_response full_send absent_body_response) = 0
      ∧ (send_http_response full_send absent_body_response).map SendCall.buf
        ≠ [header_text 200 "OK".toList "text/plain".toList
            (body_bytes_sent (send_http_response full_send absent_body_response))] := by
  decide

/-- C2: for every response that fits the C types and keeps the invariant of a
response as far as an absent body has `body_length = 0`, the header block
written (all sends succeeding) is the format text with the number of body bytes
then written in its Content-Length field; when the body is empty
(`body_length` is 0) that number is 0 and the header call is the only call. -/
theorem content_length_matches_body_bytes (r : HttpResponse) (h : fits_c_types r)
    (hbody : r.body = none → r.body_length = 0) :
    (send_http_response full_send r).head?.map SendCall.buf
        = some (header_text r.status_code (status_message r.status_code) r.content_type
            (body_bytes_sent (send_http_response full_send r)))
      ∧ body_bytes_sent (send_http_response full_send r) = r.body_length
      ∧ (r.body_length = 0 → (send_http_response full_send r).length = 1) := by
  have hn : body_bytes_sent (send_http_response full_send r) = r.body_length := by
    rw [send_http_response_full r h]
    cases hb : r.body with
    | none => simp [body_bytes_sent, hbody hb]
    | some body =>
      simp only [body_bytes_sent]
      split
      · simp
      · simp; omega
  refine ⟨?_, hn, ?_⟩
  · rw [hn, send_http_response_full r h]
    rfl
  · intro h0
    rw [send_http_response_full r h]
    cases r.body with
    | none => rfl
    | some body => simp [h0]

/-- Witness of C2: a 404 response with a nine-byte body. -/
theorem content_length_matches_body_bytes_witness :
    (send_http_response full_send
        { status_code := 404, content_type := "text/plain".toList,
          body := some "not found".toList, body_length := 9 }).head?.map SendCall.buf
        = some (header_text 404 (status_message 404) "text/plain".toList
            (body_bytes_sent (send_http_response full_send
              { status_code := 404, content_type := "text/plain".toList,
                body := some "not found".toList, body_length := 9 })))
      ∧ body_bytes_sent (send_http_response full_send
          { status_code := 404, content_type := "text/plain".toList,
            body := some "not found".toList, body_length := 9 }) = 9
      ∧ ((9 : Nat) = 0 → (send_http_response full_send
          { status_code := 404, content_type := "text/plain".toList,
            body := some "not found".toList, body_length := 9 }).length = 1) :=
  content_length_matches_body_bytes
    { status_code := 404, content_type := "text/plain".toList,
      body := some "not found".toList, body_length := 9 } (by decide) (by decide)

/-- C3: for every response that fits the C types (content type of at most 127
bytes) and whose body buffer holds `body_length` bytes, the bytes written when
all sends succeed are the status line, the Content-Type, Content-Length and
Connection lines, the empty line and then the `body_length` body bytes
verbatim. -/
theorem wire_format (r : HttpResponse) (h : fits_c_types r)
    (hbody : r.body_length ≤ (r.body.getD []).length) :
    wire_bytes (send_http_response full_send r)
      = some ("HTTP/1.1 ".toList ++ decimal_int r.status_code ++ " ".toList
          ++ status_message r.status_code ++ CRLF
          ++ "Content-Type: ".toList ++ r.content_type ++ CRLF
          ++ "Content-Length: ".toList ++ decimal r.body_length ++ CRLF
          ++ "Connection: close".toList ++ CRLF
          ++ CRLF
          ++ (r.body.getD []).take r.body_length) := by
  rw [send_http_response_full r h]
  have hw : ∀ (buf : List Char), SendCall.written
      { buf := buf, len := buf.length, ret := (buf.length : Int) } = some buf := by
    intro buf
    simp [SendCall.written]
  cases hb : r.body with
  | none =>
    rw [hb] at hbody
    have h0 : r.body_length = 0 := by simpa using hbody
    simp only [wire_bytes, hw, h0]
    simp [header_text]
  | some body =>
    rw [hb] at hbody
    simp only [Option.getD_some] at hbody ⊢
    split
    · have hwb : SendCall.written
          { buf := body, len := r.body_length, ret := (r.body_length : Int) }
          = some (body.take r.body_length) := by
        simp [SendCall.written, hbody]
      simp only [wire_bytes, hw, hwb]
      simp [header_text]
    · have h0 : r.body_length = 0 := by omega
      simp only [wire_bytes, hw, h0]
      simp [header_text]

/-- Witness of C3: a 200 response with a two-byte body. -/
theorem wire_format_witness :
    wire_bytes (send_http_response full_send
        { status_code := 200, content_type := "text/plain".toList, body := some "ok".toList,
          body_length := 2 })
      = some ("HTTP/1.1 ".toList ++ decimal_int 200 ++ " ".toList
          ++ status_message 200 ++ CRLF
          ++ "Content-Type: ".toList ++ "text/plain".toList ++ CRLF
          ++ "Content-Length: ".toList ++ decimal 2 ++ CRLF
          ++ "Connection: close".toList ++ CRLF
          ++ CRLF
          ++ ((some "ok".toList).getD []).take 2) :=
  wire_format
    { status_code := 200, content_type := "text/plain".toList, body := some "ok".toList,
      body_length := 2 } (by decide) (by decide)

/-! ## The router -/

/-- C4: for every request whose (method, path) pair is not a registered route,
and for every request with method UNKNOWN whatever its path, `route_request`
answers with the not-found response, whose status is 404. -/
theorem unregistered_route_not_found (env : Env) (request : HttpRequest)
    (h : (request.method, request.path) ∉ registered_routes
      ∨ request.method = HttpMethod.HTTP_UNKNOWN) :
    route_request env request = Except.ok (handle_not_found request)
      ∧ (handle_not_found request).status_code = 404 := by
  refine ⟨?_, rfl⟩
  unfold route_request
  rcases h with h | h
  · cases hm : request.method with
    | HTTP_GET =>
      rw [hm] at h
      simp only [registered_routes, List.mem_cons, Prod.mk.injEq, true_and, false_and,
        false_or, List.mem_nil_iff, or_false, not_or, reduceCtorEq] at h
      obtain ⟨h1, h2, h3, h4, h5, h6, h7, h8, h9, h10, h11, h12, h13⟩ := h
      simp only [if_true, if_neg h1, if_neg h2, if_neg h3, if_neg h4, if_neg h5, if_neg h6,
        if_neg h7, if_neg h8, if_neg h9, if_neg h10, if_neg h11, if_neg h12, if_neg h13]
    | HTTP_POST =>
      rw [hm] at h
      simp only [registered_routes, List.mem_cons, Prod.mk.injEq, true_and, false_and,
        false_or, List.mem_nil_iff, or_false, not_or, reduceCtorEq] at h
      obtain ⟨h1, h2, h3, h4, h5⟩ := h
      simp only [reduceCtorEq, if_false, if_true, if_neg h1, if_neg h2, if_neg h3, if_neg h4,
        if_neg h5]
    | HTTP_UNKNOWN => simp only [reduceCtorEq, if_false]
  · simp only [h, reduceCtorEq, if_false]

/-- Witness of C4: `GET /nonexistent`, `GET /info?x=1`, `GET /echo`, `POST /`
and `DELETE /` (which the parser classifies as UNKNOWN) all yield 404. -/
theorem unregistered_route_not_found_witness :
    (route_request sample_env (request_of HttpMethod.HTTP_GET "/nonexistent".toList)
        = Except.ok (handle_not_found (request_of HttpMethod.HTTP_GET "/nonexistent".toList))
      ∧ (handle_not_found (request_of HttpMethod.HTTP_GET "/nonexistent".toList)).status_code
        = 404)
    ∧ (route_request sample_env (request_of HttpMethod.HTTP_GET "/info?x=1".toList)
        = Except.ok (handle_not_found (request_of HttpMethod.HTTP_GET "/info?x=1".toList))
      ∧ (handle_not_found (request_of HttpMethod.HTTP_GET "/info?x=1".toList)).status_code
        = 404)
    ∧ (route_request sample_env (request_of HttpMethod.HTTP_GET "/echo".toList)
        = Except.ok (handle_not_found (request_of HttpMethod.HTTP_GET "/echo".toList))
      ∧ (handle_not_found (request_of HttpMethod.HTTP_GET "/echo".toList)).status_code = 404)
    ∧ (route_request sample_env (request_of HttpMethod.HTTP_POST "/".toList)
        = Except.ok (handle_not_found (request_of HttpMethod.HTTP_POST "/".toList))
      ∧ (handle_not_found (request_of HttpMethod.HTTP_POST "/".toList)).status_code = 404)
    ∧ parse_http_request "DELETE / HTTP/1.1\r\n\r\n".toList zero_request
        = some (request_of HttpMethod.HTTP_UNKNOWN "/".toList)
    ∧ (route_request sample_env (request_of HttpMethod.HTTP_UNKNOWN "/".toList)
        = Except.ok (handle_not_found (request_of HttpMethod.HTTP_UNKNOWN "/".toList))
      ∧ (handle_not_found (request_of HttpMethod.HTTP_UNKNOWN "/".toList)).status_code = 404) :=
  ⟨unregistered_route_not_found sample_env _ (Or.inl (by decide)),
   unregistered_route_not_found sample_env _ (Or.inl (by decide)),
   unregistered_route_not_found sample_env _ (Or.inl (by decide)),
   unregistered_route_not_found sample_env _ (Or.inl (by decide)),
   by decide,
   unregistered_route_not_found sample_env _ (Or.inr rfl)⟩

/-! ## Method and path of the request line -/

theorem parse_http_request_method (raw : List Char) (request : HttpRequest) :
    ∃ r, parse_http_request raw request = some r
      ∧ r.method = parse_method (request_line raw)
      ∧ r.path = parse_path (request_line raw) request.path := by
  obtain ⟨st, hst⟩ := header_loop_total ((cstr raw).length + 1)
    { line := (cut_line (cstr raw)).2, content_type := request.content_type, content_length := 0 }
    (by
      intro l hl
      have := cut_line_snd_lt (cstr raw) l hl
      omega)
  rw [parse_http_request_of_loop raw request st hst]
  refine ⟨_, rfl, ?_⟩
  unfold request_line
  cases st.line with
  | none => exact ⟨rfl, rfl⟩
  | some rest =>
    simp only []
    split
    · split <;> exact ⟨rfl, rfl⟩
    · exact ⟨rfl, rfl⟩

theorem prefix_takeWhile_ne (w l : List Char) (c : Char) (hw : c ∉ w) :
    w <+: l.takeWhile (· ≠ c) ↔ w <+: l := by
  induction w generalizing l with
  | nil => simp
  | cons x w ih =>
    simp only [List.mem_cons, not_or] at hw
    cases l with
    | nil => simp
    | cons y l =>
      by_cases hy : y = c
      · subst hy
        have hx : ¬ x = y := fun e => hw.1 e.symm
        simp [List.takeWhile_cons, List.prefix_cons_inj, hx]
      · simp only [List.takeWhile_cons, ne_eq, hy, not_false_eq_true, decide_True, if_true]
        by_cases hxy : x = y
        · subst hxy
          rw [List.prefix_cons_inj, List.prefix_cons_inj]
          exact ih l hw.2
        · constructor
          · intro h; exact absurd (List.cons_prefix_cons.mp h).1 hxy
          · intro h; exact absurd (List.cons_prefix_cons.mp h).1 hxy

theorem strncmp_eq_iff_prefix (l w : List Char) :
    strncmp_eq l w w.length = true ↔ w <+: l := by
  unfold strncmp_eq
  rw [List.prefix_iff_eq_take]
  simp only [List.take_length, beq_iff_eq]
  exact eq_comm

theorem parse_method_eq (line : List Char) :
    parse_method line =
      if "GET".toList <+: method_token line then HttpMethod.HTTP_GET
      else if "POST".toList <+: method_token line then HttpMethod.HTTP_POST
      else HttpMethod.HTTP_UNKNOWN := by
  have hg : strncmp_eq line "GET".toList 3 = true ↔ "GET".toList <+: method_token line := by
    rw [method_token, prefix_takeWhile_ne _ _ _ (by decide)]
    exact strncmp_eq_iff_prefix line "GET".toList
  have hp : strncmp_eq line "POST".toList 4 = true ↔ "POST".toList <+: method_token line := by
    rw [method_token, prefix_takeWhile_ne _ _ _ (by decide)]
    exact strncmp_eq_iff_prefix line "POST".toList
  unfold parse_method
  by_cases h1 : "GET".toList <+: method_token line
  · rw [if_pos (hg.mpr h1), if_pos h1]
  · rw [if_neg (fun h => h1 (hg.mp h)), if_neg h1]
    by_cases h2 : "POST".toList <+: method_token line
    · rw [if_pos (hp.mpr h2), if_pos h2]
    · rw [if_neg (fun h => h2 (hp.mp h)), if_neg h2]

/-- C5, counterexample: the method token `GETX` is not `GET`, yet the request is
classified as GET; the token `POSTS` is classified as POST. -/
theorem method_token_prefix_counterexample :
    method_token (request_line "GETX / HTTP/1.1\r\n\r\n".toList) = "GETX".toList
      ∧ (parse_http_request "GETX / HTTP/1.1\r\n\r\n".toList zero_request).map
          HttpRequest.method = some HttpMethod.HTTP_GET
      ∧ method_token (request_line "POSTS / HTTP/1.1\r\n\r\n".toList) = "POSTS".toList
      ∧ (parse_http_request "POSTS / HTTP/1.1\r\n\r\n".toList zero_request).map
          HttpRequest.method = some HttpMethod.HTTP_POST := by
  decide

/-- C5, amended: for every raw request the parser returns, and the method is
GET exactly when the method token begins with the three bytes `GET`, POST
exactly when it begins with the four bytes `POST`, and UNKNOWN exactly when it
begins with neither (in particular when it is missing). -/
theorem method_by_token_prefix (raw : List Char) (request : HttpRequest) :
    ∃ r, parse_http_request raw request = some r
      ∧ (r.method = HttpMethod.HTTP_GET ↔ "GET".toList <+: method_token (request_line raw))
      ∧ (r.method = HttpMethod.HTTP_POST ↔ "POST".toList <+: method_token (request_line raw))
      ∧ (r.method = HttpMethod.HTTP_UNKNOWN ↔
          ¬ "GET".toList <+: method_token (request_line raw)
            ∧ ¬ "POST".toList <+: method_token (request_line raw)) := by
  obtain ⟨r, hr, hm, _⟩ := parse_http_request_method raw request
  refine ⟨r, hr, ?_⟩
  rw [hm, parse_method_eq]
  have hex : "GET".toList <+: method_token (request_line raw) →
      ¬ "POST".toList <+: method_token (request_line raw) := by
    intro h1 h2
    have e1 := List.prefix_iff_eq_take.mp h1
    have e2 := List.prefix_iff_eq_take.mp h2
    have e3 : List.take 1 (List.take 3 (method_token (request_line raw)))
        = List.take 1 (List.take 4 (method_token (request_line raw))) := by
      simp [List.take_take]
    rw [show "GET".toList.length = 3 from rfl] at e1
    rw [show "POST".toList.length = 4 from rfl] at e2
    rw [← e1, ← e2] at e3
    exact absurd e3 (by decide)
  by_cases h1 : "GET".toList <+: method_token (request_line raw)
  · have h2 := hex h1
    simp only [h1, h2, if_true, if_false, reduceCtorEq, not_true_eq_false, not_false_eq_true,
      and_self, and_true, true_and, and_false, false_and]
  · by_cases h2 : "POST".toList <+: method_token (request_line raw)
    · simp only [h1, h2, if_true, if_false, reduceCtorEq, not_true_eq_false,
        not_false_eq_true, and_self, and_true, true_and, and_false, false_and]
    · simp only [h1, h2, if_true, if_false, reduceCtorEq, not_true_eq_false,
        not_false_eq_true, and_self, and_true, true_and, and_false, false_and]

theorem strchr_append (m t : List Char) (c : Char) (h : c ∉ m) :
    strchr (m ++ c :: t) c = some m.length := by
  induction m with
  | nil => simp [strchr]
  | cons x m ih =>
    simp only [List.mem_cons, not_or] at h
    have hx : ¬ x = c := fun e => h.1 e.symm
    simp [strchr, hx, ih h.2]

theorem request_line_append (line tail : List Char) (h : is_line line) :
    request_line (line ++ CRLF ++ tail) = line := by
  unfold request_line
  have hn : NUL ∉ line ++ CRLF := by
    simp only [List.mem_append, not_or]
    exact ⟨h.1, by decide⟩
  rw [cstr_append_of_not_mem _ _ hn, cut_line_append line (cstr tail) h.2]

theorem parse_path_overlong (m token version path : List Char)
    (hm : ' ' ∉ m) (ht : ' ' ∉ token) (hlen : 255 < token.length) :
    parse_path (m ++ ' ' :: (token ++ ' ' :: version)) path = path := by
  unfold parse_path
  rw [strchr_append m _ ' ' hm]
  have hd : List.drop (m.length + 1) (m ++ ' ' :: (token ++ ' ' :: version))
      = token ++ ' ' :: version := by
    have e : m ++ ' ' :: (token ++ ' ' :: version) = (m ++ [' ']) ++ (token ++ ' ' :: version) := by
      simp
    rw [e]
    exact List.drop_left' (by simp)
  simp only [hd]
  rw [strchr_append token _ ' ' ht]
  simp only []
  rw [if_neg (by omega)]

set_option maxRecDepth 100000 in
/-- C6, counterexample: for a path token of 256 bytes the stored path is empty,
not the first 255 bytes of the token. -/
theorem long_path_not_truncated :
    long_path_token.length = 256
      ∧ (parse_http_request long_path_request zero_request).map HttpRequest.path = some []
      ∧ (parse_http_request long_path_request zero_request).map HttpRequest.path
          ≠ some (long_path_token.take 255) := by
  decide

/-- C6, amended: for every request line whose path token (the text between the
first and the second space) is longer than 255 bytes, the parser stores no
path: `path` keeps the content it had before the call (empty for the zeroed
request of the connection handler). -/
theorem overlong_path_not_stored (m token version tail : List Char) (request : HttpRequest)
    (hm : ' ' ∉ m) (ht : ' ' ∉ token) (hlen : 255 < token.length)
    (hline : is_line (m ++ ' ' :: (token ++ ' ' :: version))) :
    ∃ r, parse_http_request ((m ++ ' ' :: (token ++ ' ' :: version)) ++ CRLF ++ tail) request
        = some r
      ∧ r.path = request.path := by
  obtain ⟨r, hr, _, hp⟩ := parse_http_request_method
    ((m ++ ' ' :: (token ++ ' ' :: version)) ++ CRLF ++ tail) request
  refine ⟨r, hr, ?_⟩
  rw [hp, request_line_append _ _ hline, parse_path_overlong m token version _ hm ht hlen]

set_option maxRecDepth 100000 in
/-- Witness of C6 (amended): `GET`, a token of 256 bytes and `HTTP/1.1`, parsed
into the zeroed request, leave the path empty. -/
theorem overlong_path_not_stored_witness :
    ∃ r, parse_http_request (("GET".toList ++ ' ' :: (long_path_token ++ ' ' :: "HTTP/1.1".toList))
          ++ CRLF ++ CRLF) zero_request = some r
      ∧ r.path = zero_request.path :=
  overlong_path_not_stored "GET".toList long_path_token "HTTP/1.1".toList CRLF zero_request
    (by decide) (by decide) (by decide) (by decide)

/-! ## Handlers on a request without a body -/

/-- C7, the code at the failing inputs: a POST to `/api/login`, `/api/users` or
`/api/calculate` that carries no body (no Content-Length, or Content-Length 0)
is parsed with an absent body, and the handler hands that `NULL` to `strstr`:
the pipeline ends in a fault, not in a response. -/
theorem post_without_body_faults (env : Env) :
    serve_request env "POST /api/login HTTP/1.1\r\n\r\n".toList
        = Except.error Fault.null_deref
      ∧ serve_request env "POST /api/users HTTP/1.1\r\n\r\n".toList
        = Except.error Fault.null_deref
      ∧ serve_request env "POST /api/calculate HTTP/1.1\r\n\r\n".toList
        = Except.error Fault.null_deref
      ∧ serve_request env "POST /api/login HTTP/1.1\r\nContent-Length: 0\r\n\r\n".toList
        = Except.error Fault.null_deref
      ∧ serve_request env "POST /api/users HTTP/1.1\r\nContent-Length: 0\r\n\r\n".toList
        = Except.error Fault.null_deref
      ∧ serve_request env "POST /api/calculate HTTP/1.1\r\nContent-Length: 0\r\n\r\n".toList
        = Except.error Fault.null_deref
      ∧ handle_client_connection env full_send
          (RecvResult.data "POST /api/login HTTP/1.1\r\n\r\n".toList)
        = Except.error Fault.null_deref :=
  ⟨rfl, rfl, rfl, rfl, rfl, rfl, rfl⟩

/-! ## The JSON builder -/

theorem grow_capacity_some (fuel need capacity : Nat) (hc : 0 < capacity)
    (hf : need ≤ capacity + fuel) :
    ∃ c, grow_capacity fuel need capacity = some c ∧ 0 < c := by
  induction fuel generalizing capacity with
  | zero =>
    rw [grow_capacity]
    rw [if_neg (by omega)]
    exact ⟨capacity, rfl, hc⟩
  | succ fuel ih =>
    rw [grow_capacity]
    split
    · exact ih (capacity * 2) (by omega) (by omega)
    · exact ⟨capacity, rfl, hc⟩

theorem json_builder_append_ok (jb : JSONBuilder) (str : List Char) (h : 0 < jb.capacity) :
    ∃ c, json_builder_append jb str
        = Except.ok { buffer := jb.buffer ++ str, size := jb.size + str.length, capacity := c }
      ∧ 0 < c := by
  obtain ⟨c, hc, hpos⟩ := grow_capacity_some (jb.size + str.length + 1)
    (jb.size + str.length + 1) jb.capacity h (by omega)
  exact ⟨c, by simp only [json_builder_append, hc], hpos⟩

theorem json_builder_append_all_ok (jb : JSONBuilder) (parts : List (List Char))
    (h : 0 < jb.capacity) :
    ∃ jb1, json_builder_append_all jb parts = Except.ok jb1
      ∧ jb1.buffer = jb.buffer ++ concat_all parts ∧ 0 < jb1.capacity := by
  induction parts generalizing jb with
  | nil => exact ⟨jb, rfl, by simp [concat_all], h⟩
  | cons s rest ih =>
    obtain ⟨c, hc, hpos⟩ := json_builder_append_ok jb s h
    obtain ⟨jb1, h1, h2, h3⟩ := ih
      { buffer := jb.buffer ++ s, size := jb.size + s.length, capacity := c } hpos
    refine ⟨jb1, ?_, ?_, h3⟩
    · simp only [json_builder_append_all, hc, h1]
    · rw [h2]; simp [concat_all]

theorem json_response_ok (status_code : Int) (parts : List (List Char)) :
    json_response status_code parts
      = Except.ok (json_text_response status_code (concat_all parts)) := by
  obtain ⟨jb1, h1, h2, _⟩ := json_builder_append_all_ok json_builder_create parts (by decide)
  have hb : jb1.buffer = concat_all parts := by
    rw [h2]; rfl
  simp only [json_response, h1, json_builder_finalize, hb, json_text_response]

/-! ## The JSON handlers -/

theorem json_get_string_value_some (text key : List Char) :
    json_get_string_value (some text) key = Except.ok (find_string text key) := by
  unfold json_get_string_value find_string
  simp only []
  cases after_key text key <;> rfl

theorem json_get_int_value_some (text key : List Char) :
    json_get_int_value (some text) key = Except.ok (find_int text key) := by
  unfold json_get_int_value find_int
  simp only []
  cases after_key text key <;> rfl

theorem find_string_of_absent (text key : List Char)
    (h : strstr text (search_key key) = none) : find_string text key = none := by
  simp only [find_string, after_key, h]

/-- C10: for every present body of a POST to `/api/users` in which the key
`"email"` does not occur, and for every one in which the key `"name"` does not
occur, the handler answers 400 with content type `application/json` and a body
that holds `"success": false` and an `"error"` field; and it answers 201 only
when both a name and an email string value were found. -/
theorem users_post_missing_field (rand : Nat) (request : HttpRequest) (body : List Char)
    (hb : request.body = some body) :
    ((strstr body "\"email\"".toList = none ∨ strstr body "\"name\"".toList = none) →
        handle_api_users_post rand request
          = Except.ok { status_code := 400, content_type := "application/json".toList,
                        body := some missing_fields_text,
                        body_length := missing_fields_text.length })
      ∧ strstr missing_fields_text "\"success\": false".toList ≠ none
      ∧ strstr missing_fields_text "\"error\": \"".toList ≠ none
      ∧ (∀ r, handle_api_users_post rand request = Except.ok r → r.status_code = 201 →
          ∃ name email, json_get_string_value request.body "name".toList
              = Except.ok (some name)
            ∧ json_get_string_value request.body "email".toList = Except.ok (some email)) := by
  have hun : handle_api_users_post rand request =
      match find_string body "name".toList, find_string body "email".toList with
      | some name, some email =>
        json_response 201 [
          "\x7b\n".toList,
          "  \"success\": true,\n".toList,
          "  \"message\": \"User created successfully\",\n".toList,
          "  \"data\": \x7b\n".toList,
          snprintf 512 ("    \"id\": ".toList
            ++ decimal_int ((rand % 1000 + 100 : Nat) : Int) ++ ",\n".toList),
          "    \"name\": \"".toList,
          escape_loop name 0,
          "\",\n".toList,
          "    \"email\": \"".toList,
          escape_loop email 0,
          "\",\n".toList,
          "    \"role\": \"".toList,
          escape_loop (match find_string body "role".toList with
            | some role => role
            | none => "user".toList) 0,
          "\"\n".toList,
          "  \x7d\n".toList,
          "\x7d".toList]
      | _, _ => Except.ok (json_text_response 400 missing_fields_text) := by
    unfold handle_api_users_post
    simp only [hb, json_get_string_value_some]
    cases find_string body "name".toList <;> cases find_string body "email".toList <;> rfl
  refine ⟨?_, by decide, by decide, ?_⟩
  · intro h
    rw [hun]
    rcases h with h | h
    · rw [find_string_of_absent body "email".toList h]
      cases find_string body "name".toList <;> rfl
    · rw [find_string_of_absent body "name".toList h]
      rfl
  · intro r hr hs
    rw [hun] at hr
    rw [hb, json_get_string_value_some, json_get_string_value_some]
    cases hn : find_string body "name".toList with
    | none =>
      rw [hn] at hr
      simp only [Except.ok.injEq] at hr
      subst hr
      exact absurd hs (by decide)
    | some name =>
      cases he : find_string body "email".toList with
      | none =>
        rw [hn, he] at hr
        simp only [Except.ok.injEq] at hr
        subst hr
        exact absurd hs (by decide)
      | some email => exact ⟨name, email, rfl, rfl⟩

/-- Witness of C10: the body `{"name":"x"}` has no `"email"` key and is answered
with 400. -/
theorem users_post_missing_field_witness :
    handle_api_users_post 42 (post_request "/api/users".toList "\x7b\"name\":\"x\"\x7d".toList)
      = Except.ok { status_code := 400, content_type := "application/json".toList,
                    body := some missing_fields_text,
                    body_length := missing_fields_text.length } :=
  (users_post_missing_field 42
    (post_request "/api/users".toList "\x7b\"name\":\"x\"\x7d".toList)
    "\x7b\"name\":\"x\"\x7d".toList rfl).1 (Or.inl (by decide))

/-! ## Searching a key in a JSON text -/

theorem strstr_rest_nil (needle : List Char) (h : needle ≠ []) : strstr_rest [] needle = none := by
  simp [strstr_rest, strstr, h]

theorem strstr_rest_cons (c : Char) (l needle : List Char) :
    strstr_rest (c :: l) needle =
      if needle.isPrefixOf (c :: l) then some ((c :: l).drop needle.length)
      else strstr_rest l needle := by
  unfold strstr_rest
  rw [strstr_cons]
  split
  · simp
  · cases strstr l needle with
    | none => rfl
    | some i =>
      simp only [Option.map_some']
      congr 1
      rw [show i + 1 + needle.length = (i + needle.length) + 1 by omega]
      rfl

theorem strstr_rest_skip (n : Nat) (l needle : List Char)
    (h : ∀ k, k < n → needle.isPrefixOf (l.drop k) = false) :
    strstr_rest l needle = strstr_rest (l.drop n) needle := by
  induction n generalizing l with
  | zero => rfl
  | succ n ih =>
    cases l with
    | nil => rfl
    | cons c l =>
      have h0 := h 0 (by omega)
      simp only [List.drop_zero] at h0
      rw [strstr_rest_cons, h0]
      simp only [Bool.false_eq_true, if_false, List.drop_succ_cons]
      exact ih l (fun k hk => by simpa using h (k + 1) (by omega))

theorem strstr_rest_skip_free (a t needle : List Char) (c : Char) (n : List Char)
    (hn : needle = c :: n) (ha : c ∉ a) :
    strstr_rest (a ++ t) needle = strstr_rest t needle := by
  induction a with
  | nil => rfl
  | cons x a ih =>
    simp only [List.mem_cons, not_or] at ha
    have hx : (c == x) = false := by
      simp only [beq_eq_false_iff_ne, ne_eq]
      exact ha.1
    have hp : needle.isPrefixOf (x :: (a ++ t)) = false := by
      rw [hn]
      simp [List.isPrefixOf, hx]
    rw [List.cons_append, strstr_rest_cons, hp]
    simp only [Bool.false_eq_true, if_false]
    exact ih ha.2

theorem isPrefixOf_append_self (needle t : List Char) : needle.isPrefixOf (needle ++ t) = true := by
  induction needle with
  | nil => simp [List.isPrefixOf]
  | cons x n ih => simp [List.isPrefixOf, ih]

theorem strstr_rest_here (needle t : List Char) (h : needle ≠ []) :
    strstr_rest (needle ++ t) needle = some t := by
  cases needle with
  | nil => exact absurd rfl h
  | cons x n =>
    rw [List.cons_append, strstr_rest_cons]
    have := isPrefixOf_append_self (x :: n) t
    rw [List.cons_append] at this
    rw [this]
    simp only [if_true]
    congr 1
    have e : x :: (n ++ t) = (x :: n) ++ t := rfl
    rw [e]
    exact List.drop_left' rfl

theorem after_key_eq (text key : List Char) :
    after_key text key =
      match strstr_rest text (search_key key) with
      | none => none
      | some rest =>
        match skip_whitespace rest with
        | [] => none
        | c :: cs => if c = ':' then some cs else none := by
  unfold after_key strstr_rest
  cases strstr text (search_key key) <;> rfl

/-- The scan of a string value that holds no quote and no backslash stops at the
closing quote. -/
theorem scan_string_plain (v t : List Char) (hv : plain v) :
    scan_string (v ++ '"' :: t) = some v := by
  induction v with
  | nil =>
    cases t <;> simp [scan_string]
  | cons c v ih =>
    obtain ⟨h1, h2⟩ := hv
    simp only [List.mem_cons, not_or] at h1 h2
    have hq : ¬ c = '"' := fun e => h1.1 e.symm
    have hb : ¬ c = '\\' := fun e => h2.1 e.symm
    have ih1 := ih ⟨h1.2, h2.2⟩
    cases hvt : v ++ '"' :: t with
    | nil => simp at hvt
    | cons d ds =>
      rw [hvt] at ih1
      rw [List.cons_append, hvt, scan_string]
      simp only [hq, hb, if_false, ih1, Option.map_some']

/-- A quoted word is found at the start of a quoted plain string exactly when
the string is the word. -/
theorem quoted_isPrefixOf (w u t : List Char) (hw : '"' ∉ w) (hu : '"' ∉ u) :
    (w ++ ['"']).isPrefixOf (u ++ '"' :: t) = decide (u = w) := by
  induction w generalizing u with
  | nil =>
    cases u with
    | nil => simp [List.isPrefixOf]
    | cons x u =>
      simp only [List.mem_cons, not_or] at hu
      have : ('"' == x) = false := by simpa using hu.1
      simp [List.isPrefixOf, this]
  | cons y w ih =>
    simp only [List.mem_cons, not_or] at hw
    cases u with
    | nil =>
      have : (y == '"') = false := by
        simp only [beq_eq_false_iff_ne, ne_eq]
        exact fun e => hw.1 e.symm
      simp [List.isPrefixOf, this]
    | cons x u =>
      simp only [List.mem_cons, not_or] at hu
      have e : ((y :: w) ++ ['"']).isPrefixOf ((x :: u) ++ '"' :: t)
          = (y == x && (w ++ ['"']).isPrefixOf (u ++ '"' :: t)) := rfl
      rw [e, ih u hw.2 hu.2]
      by_cases hxy : y = x
      · subst hxy
        by_cases huw : u = w
        · simp [huw]
        · simp [huw]
      · have : ¬ x = y := fun e => hxy e.symm
        simp [hxy, this]

/-! ## The login handler -/

theorem find_string_of_rest (text key rest v : List Char)
    (h1 : strstr_rest text (search_key key) = some (':' :: '"' :: rest))
    (h2 : scan_string rest = some v) : find_string text key = some v := by
  unfold find_string
  rw [after_key_eq, h1]
  have e1 : skip_whitespace (':' :: '"' :: rest) = ':' :: '"' :: rest := rfl
  simp only [e1, if_true]
  unfold json_parse_string
  have e2 : skip_whitespace ('"' :: rest) = '"' :: rest := rfl
  simp only [e2, if_true, h2]

theorem login_username (u p : List Char) (hu : plain u) :
    find_string (login_body u p) "username".toList = some u := by
  apply find_string_of_rest _ _ (u ++ '"' :: (",\"password\":\"".toList ++ (p ++ "\"\x7d".toList)))
  · rw [strstr_rest_skip 1 (login_body u p) _ (by
      intro k hk
      interval_cases k
      rfl)]
    exact strstr_rest_here (search_key "username".toList) _ (by decide)
  · exact scan_string_plain u _ hu

theorem login_password (u p : List Char) (hu : plain u) (hp : plain p)
    (hne : u ≠ "password".toList) :
    find_string (login_body u p) "password".toList = some p := by
  apply find_string_of_rest _ _ (p ++ '"' :: "\x7d".toList)
  · rw [strstr_rest_skip 12 (login_body u p) _ (by
      intro k hk
      interval_cases k <;> rfl)]
    have e1 : (login_body u p).drop 12
        = '"' :: (u ++ '"' :: (",\"password\":\"".toList ++ (p ++ "\"\x7d".toList))) := rfl
    rw [e1, strstr_rest_cons]
    have hq : (search_key "password".toList).isPrefixOf
        ('"' :: (u ++ '"' :: (",\"password\":\"".toList ++ (p ++ "\"\x7d".toList)))) = false := by
      have := quoted_isPrefixOf "password".toList u
        (",\"password\":\"".toList ++ (p ++ "\"\x7d".toList)) (by decide) hu.1
      have e : (search_key "password".toList).isPrefixOf
          ('"' :: (u ++ '"' :: (",\"password\":\"".toList ++ (p ++ "\"\x7d".toList))))
          = ("password".toList ++ ['"']).isPrefixOf
              (u ++ '"' :: (",\"password\":\"".toList ++ (p ++ "\"\x7d".toList))) := rfl
      rw [e, this]
      exact decide_eq_false hne
    rw [hq]
    simp only [Bool.false_eq_true, if_false]
    rw [strstr_rest_skip_free u _ (search_key "password".toList) '"' "password\"".toList rfl hu.1]
    rw [strstr_rest_skip 2 _ _ (by
      intro k hk
      interval_cases k <;> rfl)]
    exact strstr_rest_here (search_key "password".toList) _ (by decide)
  · exact scan_string_plain p _ hp

theorem login_password_shadowed (p : List Char) :
    find_string (login_body "password".toList p) "password".toList = none := by
  unfold find_string
  rw [after_key_eq]
  rw [strstr_rest_skip 12 (login_body "password".toList p) _ (by
      intro k hk
      interval_cases k <;> rfl)]
  rfl

theorem json_response_status (status_code : Int) (parts : List (List Char)) :
    ∃ r, json_response status_code parts = Except.ok r ∧ r.status_code = status_code
      ∧ r.content_type = "application/json".toList := by
  rw [json_response_ok]
  exact ⟨_, rfl, rfl, rfl⟩

/-- C8, counterexample: the pair (`password`, `secret`) holds no quote and no
backslash and is not (`admin`, `password`), yet the answer is 400, not 401: the
search for the key `"password"` stops at the user name. -/
theorem login_shadowed_key_counterexample :
    plain "password".toList ∧ plain "secret".toList
      ∧ (handle_api_login
          (post_request "/api/login".toList (login_body "password".toList "secret".toList))).map
            HttpResponse.status_code = Except.ok 400
      ∧ (handle_api_login
          (post_request "/api/login".toList (login_body "password".toList "secret".toList))).map
            HttpResponse.status_code ≠ Except.ok 401 :=
  ⟨by decide, by decide, rfl,
    fun h => absurd (Except.ok.inj (h : (Except.ok 400 : Except Fault Int) = Except.ok 401))
      (by decide)⟩

/-- C8, amended: for every pair of strings (u, p) without double quote and
backslash, `handle_api_login` on the body `{"username":"u","password":"p"}`
answers 400 when u is `password` (the key search then stops at the user name),
and otherwise 200 when u = `admin` and p = `password`, and 401 for every other
pair. -/
theorem login_status (u p : List Char) (request : HttpRequest) (hu : plain u) (hp : plain p)
    (hb : request.body = some (login_body u p)) :
    ∃ r, handle_api_login request = Except.ok r
      ∧ r.status_code =
          (if u = "password".toList then 400
           else if u = "admin".toList ∧ p = "password".toList then 200 else 401) := by
  unfold handle_api_login
  simp only [hb, json_get_string_value_some, login_username u p hu]
  by_cases h : u = "password".toList
  · subst h
    rw [login_password_shadowed p, if_pos rfl]
    simp only []
    obtain ⟨r, hr, hs, _⟩ := json_response_status 400 [
      "\x7b\n".toList,
      "  \"success\": false,\n".toList,
      "  \"error\": \"Missing username or password\"\n".toList,
      "\x7d".toList]
    exact ⟨r, hr, hs⟩
  · rw [login_password u p hu hp h, if_neg h]
    simp only []
    split
    · obtain ⟨r, hr, hs, _⟩ := json_response_status 200 [
        "\x7b\n".toList,
        "  \"success\": true,\n".toList,
        "  \"message\": \"Login successful\",\n".toList,
        "  \"data\": \x7b\n".toList,
        "    \"user\": \"".toList,
        escape_loop u 0,
        "\",\n".toList,
        "    \"token\": \"eyJhbGciOiJIUzI1NiIsInR5cCI6IkpXVCJ9\",\n".toList,
        "    \"expires_in\": 3600\n".toList,
        "  \x7d\n".toList,
        "\x7d".toList]
      exact ⟨r, hr, hs⟩
    · obtain ⟨r, hr, hs, _⟩ := json_response_status 401 [
        "\x7b\n".toList,
        "  \"success\": false,\n".toList,
        "  \"error\": \"Invalid credentials\"\n".toList,
        "\x7d".toList]
      exact ⟨r, hr, hs⟩

/-- Witness of C8 (amended): the pair (`admin`, `password`) is answered with
200. -/
theorem login_status_witness :
    ∃ r, handle_api_login
          (post_request "/api/login".toList (login_body "admin".toList "password".toList))
        = Except.ok r
      ∧ r.status_code =
          (if "admin".toList = "password".toList then 400
           else if "admin".toList = "admin".toList ∧ "password".toList = "password".toList
             then 200 else 401) :=
  login_status "admin".toList "password".toList
    (post_request "/api/login".toList (login_body "admin".toList "password".toList))
    (by decide) (by decide) rfl

/-! ## The calculator handler -/

theorem wrap32_step (x k : Int) : wrap32 (wrap32 x * 10 + k) = wrap32 (x * 10 + k) := by
  unfold wrap32
  omega

theorem parse_int_fold (ds : List Char) (x : Int) :
    ds.foldl parse_int_step (wrap32 x)
      = wrap32 (ds.foldl (fun (acc : Int) d => acc * 10 + ((d.toNat : Int) - 48)) x) := by
  induction ds generalizing x with
  | nil => rfl
  | cons d ds ih =>
    simp only [List.foldl_cons]
    have e : parse_int_step (wrap32 x) d = wrap32 (x * 10 + ((d.toNat : Int) - 48)) := by
      unfold parse_int_step
      exact wrap32_step x _
    rw [e, ih]

theorem int_fold_digits (ds : List Char) (n : Nat) (h : ∀ c ∈ ds, isdigit c = true) :
    ds.foldl (fun (acc : Int) d => acc * 10 + ((d.toNat : Int) - 48)) (n : Int)
      = ((ds.foldl (fun acc d => acc * 10 + (d.toNat - '0'.toNat)) n : Nat) : Int) := by
  induction ds generalizing n with
  | nil => rfl
  | cons d ds ih =>
    simp only [List.foldl_cons]
    have hd := isdigit_toNat d (h d (by simp))
    have e : (n : Int) * 10 + ((d.toNat : Int) - 48) = ((n * 10 + (d.toNat - '0'.toNat) : Nat) : Int) := by
      have : '0'.toNat = 48 := rfl
      rw [this]
      omega
    rw [e]
    exact ih _ (fun c hc => h c (by simp [hc]))

theorem parse_int_digits (n : Nat) :
    (decimal n).foldl parse_int_step 0 = wrap32 (n : Int) := by
  have h0 : (0 : Int) = wrap32 ((0 : Nat) : Int) := by decide
  rw [h0, parse_int_fold, int_fold_digits _ _ (decimal_isdigit n)]
  have := decimal_value n
  unfold digits_value at this
  rw [this]

theorem takeWhile_append_stop {α : Type} (p : α → Bool) (l t : List α) (c : α)
    (h : ∀ x ∈ l, p x = true) (hc : p c = false) : (l ++ c :: t).takeWhile p = l := by
  induction l with
  | nil => simp [List.takeWhile_cons, hc]
  | cons x l ih =>
    simp only [List.cons_append, List.takeWhile_cons, h x (by simp), if_true]
    rw [ih (fun y hy => h y (by simp [hy]))]

theorem is_json_space_toNat (c : Char) (h : is_json_space c = true) : c.toNat ≤ 32 := by
  simp only [is_json_space, Bool.or_eq_true, decide_eq_true_eq] at h
  rcases h with ((rfl | rfl) | rfl) | rfl <;> decide

theorem skip_whitespace_cons (c : Char) (l : List Char) (h : 32 < c.toNat) :
    skip_whitespace (c :: l) = c :: l := by
  unfold skip_whitespace
  have : is_json_space c = false := by
    cases hs : is_json_space c with
    | false => rfl
    | true => have := is_json_space_toNat c hs; omega
  rw [List.dropWhile_cons_of_neg (by simp [this])]

/-- The digit loop of `json_parse_int` reads back a printed `int`. -/
theorem json_parse_int_decimal (a : Int) (c : Char) (t : List Char) (ha : in_int a)
    (hc : isdigit c = false) : json_parse_int (decimal_int a ++ c :: t) = a := by
  obtain ⟨h1, h2⟩ := ha
  obtain ⟨d, ds, hd⟩ : ∃ d ds, decimal a.natAbs = d :: ds := by
    cases hdn : decimal a.natAbs with
    | nil => exact absurd hdn (decimal_ne_nil _)
    | cons d ds => exact ⟨d, ds, rfl⟩
  have hdig : isdigit d = true := decimal_isdigit a.natAbs d (by rw [hd]; simp)
  have hdn := isdigit_toNat d hdig
  have htw : (decimal a.natAbs ++ c :: t).takeWhile isdigit = decimal a.natAbs :=
    takeWhile_append_stop _ _ _ _ (decimal_isdigit _) hc
  have hfold := parse_int_digits a.natAbs
  unfold json_parse_int decimal_int
  by_cases hneg : a < 0
  · rw [if_pos hneg]
    have e1 : skip_whitespace ('-' :: decimal a.natAbs ++ c :: t)
        = '-' :: (decimal a.natAbs ++ c :: t) := skip_whitespace_cons _ _ (by decide)
    simp only [e1, List.head?_cons, if_true, List.drop_succ_cons, List.drop_zero, htw]
    change wrap32 ((decimal a.natAbs).foldl parse_int_step 0 * -1) = a
    rw [hfold]
    unfold wrap32
    omega
  · rw [if_neg hneg]
    have e1 : skip_whitespace (decimal a.natAbs ++ c :: t) = decimal a.natAbs ++ c :: t := by
      rw [hd]
      exact skip_whitespace_cons _ _ (by omega)
    have hm : d ≠ '-' := isdigit_ne d '-' hdig (by decide)
    have e2 : (decimal a.natAbs ++ c :: t).head? = some d := by rw [hd]; rfl
    simp only [e1, e2, Option.some.injEq, hm, if_false, htw]
    change wrap32 ((decimal a.natAbs).foldl parse_int_step 0 * 1) = a
    rw [hfold]
    unfold wrap32
    omega

theorem decimal_int_no_quote (a : Int) : '"' ∉ decimal_int a := by
  unfold decimal_int
  split
  · simp only [List.mem_cons, not_or]
    exact ⟨by decide, decimal_no_char _ '"' (by decide)⟩
  · exact decimal_no_char _ '"' (by decide)

theorem decimal_int_length_of_in_int (a : Int) (h : in_int a) : (decimal_int a).length ≤ 11 :=
  decimal_int_length a h.1 h.2

theorem find_int_of_rest (text key rest : List Char)
    (h1 : strstr_rest text (search_key key) = some (':' :: rest)) :
    find_int text key = json_parse_int rest := by
  unfold find_int
  rw [after_key_eq, h1]
  have e1 : skip_whitespace (':' :: rest) = ':' :: rest := rfl
  simp only [e1, if_true]

theorem calculate_find_a (a b : Int) (op : List Char) (ha : in_int a) :
    find_int (calculate_body a b op) "a".toList = a := by
  rw [find_int_of_rest _ _ (decimal_int a ++ ',' :: ("\"b\":".toList ++ (decimal_int b
    ++ (",\"operation\":\"".toList ++ (op ++ "\"\x7d".toList)))))]
  · exact json_parse_int_decimal a ',' _ ha (by decide)
  · rw [strstr_rest_skip 1 (calculate_body a b op) _ (by
      intro k hk
      interval_cases k
      rfl)]
    exact strstr_rest_here (search_key "a".toList) _ (by decide)

theorem calculate_find_b (a b : Int) (op : List Char) (hb : in_int b) :
    find_int (calculate_body a b op) "b".toList = b := by
  rw [find_int_of_rest _ _ (decimal_int b ++ ',' :: ("\"operation\":\"".toList
    ++ (op ++ "\"\x7d".toList)))]
  · exact json_parse_int_decimal b ',' _ hb (by decide)
  · rw [strstr_rest_skip 5 (calculate_body a b op) _ (by
      intro k hk
      interval_cases k <;> rfl)]
    have e1 : (calculate_body a b op).drop 5
        = decimal_int a ++ (",\"b\":".toList ++ (decimal_int b
          ++ (",\"operation\":\"".toList ++ (op ++ "\"\x7d".toList)))) := rfl
    rw [e1, strstr_rest_skip_free (decimal_int a) _ (search_key "b".toList) '"' "b\"".toList rfl
      (decimal_int_no_quote a)]
    rw [strstr_rest_skip 1 _ _ (by
      intro k hk
      interval_cases k
      rfl)]
    exact strstr_rest_here (search_key "b".toList) _ (by decide)

theorem calculate_find_operation (a b : Int) (op : List Char) (hop : plain op) :
    find_string (calculate_body a b op) "operation".toList = some op := by
  apply find_string_of_rest _ _ (op ++ '"' :: "\x7d".toList)
  · rw [strstr_rest_skip 5 (calculate_body a b op) _ (by
      intro k hk
      interval_cases k <;> rfl)]
    have e1 : (calculate_body a b op).drop 5
        = decimal_int a ++ (",\"b\":".toList ++ (decimal_int b
          ++ (",\"operation\":\"".toList ++ (op ++ "\"\x7d".toList)))) := rfl
    rw [e1, strstr_rest_skip_free (decimal_int a) _ (search_key "operation".toList) '"'
      "operation\"".toList rfl (decimal_int_no_quote a)]
    rw [strstr_rest_skip 5 _ _ (by
      intro k hk
      interval_cases k <;> rfl)]
    have e2 : (",\"b\":".toList ++ (decimal_int b
          ++ (",\"operation\":\"".toList ++ (op ++ "\"\x7d".toList)))).drop 5
        = decimal_int b ++ (",\"operation\":\"".toList ++ (op ++ "\"\x7d".toList)) := rfl
    rw [e2, strstr_rest_skip_free (decimal_int b) _ (search_key "operation".toList) '"'
      "operation\"".toList rfl (decimal_int_no_quote b)]
    rw [strstr_rest_skip 1 _ _ (by
      intro k hk
      interval_cases k
      rfl)]
    exact strstr_rest_here (search_key "operation".toList) _ (by decide)
  · exact scan_string_plain op _ hop

theorem calculate_success_text (fq : Int → Int → List Char) (a b result : Int) (op : List Char)
    (ha : in_int a) (hb : in_int b) (hr : in_int result) (hesc : escape_loop op 0 = op) :
    concat_all [
        "\x7b\n".toList,
        "  \"success\": true,\n".toList,
        "  \"data\": \x7b\n".toList,
        snprintf 256 ("    \"a\": ".toList ++ decimal_int a ++ ",\n".toList),
        snprintf 256 ("    \"b\": ".toList ++ decimal_int b ++ ",\n".toList),
        "    \"operation\": \"".toList,
        escape_loop op 0,
        "\",\n".toList,
        snprintf 256 ("    \"result\": ".toList
          ++ format_result fq (CalcResult.of_int result) ++ "\n".toList),
        "  \x7d\n".toList,
        "\x7d".toList]
      = calculate_text a b op result := by
  have la := decimal_int_length_of_in_int a ha
  have lb := decimal_int_length_of_in_int b hb
  have lr := decimal_int_length_of_in_int result hr
  rw [snprintf_of_fits 256 _ (by simp; omega), snprintf_of_fits 256 _ (by simp; omega),
    snprintf_of_fits 256 _ (by simp [format_result, format_2f_int]; omega), hesc]
  simp [concat_all, calculate_text, format_result, format_2f_int]

/-- C9: for all `int` operands a and b whose sum, difference or product fits a
signed 32-bit `int`, the calculator answers the body
`{"a":a,"b":b,"operation":op}` with status 200 and a body whose result field
is a+b for `add`, a-b for `subtract` and a*b for `multiply`, printed with two
decimals. -/
theorem calculate_result (fq : Int → Int → List Char) (a b : Int) (op : List Char)
    (request : HttpRequest) (ha : in_int a) (hb : in_int b)
    (hop : op = "add".toList ∨ op = "subtract".toList ∨ op = "multiply".toList)
    (hres : in_int (calculate_value a b op))
    (hbody : request.body = some (calculate_body a b op)) :
    handle_api_calculate fq request
      = Except.ok { status_code := 200, content_type := "application/json".toList,
                    body := some (calculate_text a b op (calculate_value a b op)),
                    body_length := (calculate_text a b op (calculate_value a b op)).length } := by
  have hplain : plain op := by
    rcases hop with rfl | rfl | rfl <;> decide
  have hesc : escape_loop op 0 = op := by
    rcases hop with rfl | rfl | rfl <;> decide
  unfold handle_api_calculate
  simp only [hbody, json_get_int_value_some, json_get_string_value_some,
    calculate_find_a a b op ha, calculate_find_b a b op hb,
    calculate_find_operation a b op hplain]
  have hw : wrap32 (calculate_value a b op) = calculate_value a b op :=
    wrap32_of_range _ hres.1 hres.2
  rcases hop with rfl | rfl | rfl
  · have hv : calculate_value a b "add".toList = a + b := rfl
    rw [hv] at hw hres ⊢
    rw [if_pos rfl, hw, json_response_ok,
      calculate_success_text fq a b (a + b) _ ha hb hres hesc]
    rfl
  · have hv : calculate_value a b "subtract".toList = a - b := rfl
    rw [hv] at hw hres ⊢
    rw [if_neg (by decide), if_pos rfl, hw, json_response_ok,
      calculate_success_text fq a b (a - b) _ ha hb hres hesc]
    rfl
  · have hv : calculate_value a b "multiply".toList = a * b := rfl
    rw [hv] at hw hres ⊢
    rw [if_neg (by decide), if_neg (by decide), if_pos rfl, hw, json_response_ok,
      calculate_success_text fq a b (a * b) _ ha hb hres hesc]
    rfl

/-- Witness of C9: the body `{"a":10,"b":5,"operation":"add"}` is answered with
status 200 and the result 15.00. -/
theorem calculate_result_witness :
    handle_api_calculate (fun _ _ => [])
        (post_request "/api/calculate".toList
          "\x7b\"a\":10,\"b\":5,\"operation\":\"add\"\x7d".toList)
      = Except.ok { status_code := 200, content_type := "application/json".toList,
                    body := some (calculate_text 10 5 "add".toList 15),
                    body_length := (calculate_text 10 5 "add".toList 15).length }
      ∧ calculate_text 10 5 "add".toList 15
        = ("\x7b\n  \"success\": true,\n  \"data\": \x7b\n    \"a\": 10,\n    \"b\": 5,\n"
            ++ "    \"operation\": \"add\",\n    \"result\": 15.00\n  \x7d\n\x7d").toList :=
  ⟨calculate_result (fun _ _ => []) 10 5 "add".toList
    (post_request "/api/calculate".toList
      "\x7b\"a\":10,\"b\":5,\"operation\":\"add\"\x7d".toList)
    (by decide) (by decide) (Or.inl rfl) (by decide) (by decide), by decide⟩

/-! ## The parse of a request with a given header section -/

theorem cstr_of_not_mem (a : List Char) (h : NUL ∉ a) : cstr a = a := by
  have := cstr_append_of_not_mem a [] h
  simpa [cstr] using this

theorem cut_line_of_no_crlf (l : List Char) (h : strstr l CRLF = none) :
    cut_line l = (l, none) := by
  simp only [cut_line, h]

theorem parse_http_request_finish (raw : List Char) (request : HttpRequest) (st : HeaderState)
    (h : header_loop ((cstr raw).length + 1)
      { line := (cut_line (cstr raw)).2, content_type := request.content_type,
        content_length := 0 } = some st) :
    parse_http_request raw request = some (finish_request request (request_line raw) st) := by
  rw [parse_http_request_of_loop raw request st h]
  rfl

/-- The header loop on the header lines `hs` followed by the end `e`. -/
theorem header_loop_end (hs : List (List Char)) (e : HeaderEnd) (fuel : Nat) (st : HeaderState)
    (hhs : ∀ h ∈ hs, h ≠ [] ∧ is_line h) (he : e.well_formed) (hfuel : hs.length + 2 ≤ fuel)
    (hl : st.line = some (header_block hs ++ cstr e.text)) :
    header_loop fuel st =
      some { line := e.line_after,
             content_type := (apply_headers (hs ++ e.lines) st).content_type,
             content_length := (apply_headers (hs ++ e.lines) st).content_length } := by
  induction hs generalizing fuel st with
  | nil =>
    obtain ⟨fuel, rfl⟩ : ∃ k, fuel = k + 2 := ⟨fuel - 2, by simp at hfuel; omega⟩
    cases e with
    | blank rest =>
      have hc : cstr (HeaderEnd.blank rest).text = CRLF ++ cstr rest :=
        cstr_append_of_not_mem CRLF rest (by decide)
      rw [header_loop_blank (fuel + 1) st (cstr rest) (by simpa [header_block, hc] using hl)]
      rfl
    | stop =>
      rw [header_loop_nil _ st (by simpa [header_block, HeaderEnd.text, cstr] using hl)]
      have hl2 : st.line = some [] := by simpa [header_block, HeaderEnd.text, cstr] using hl
      simp only [HeaderEnd.lines, List.append_nil, apply_headers, HeaderEnd.line_after, ← hl2]
    | unterminated last =>
      obtain ⟨hne, hnul, hcr⟩ := he
      have hl2 : st.line = some last := by
        simpa [header_block, HeaderEnd.text, cstr_of_not_mem last hnul] using hl
      cases last with
      | nil => exact absurd rfl hne
      | cons c cs =>
        rw [header_loop_succ (fuel + 1) st c cs hl2, cut_line_of_no_crlf _ hcr]
        simp only [reduceCtorEq, if_false]
        rw [header_loop_none _ _ rfl]
        rfl
  | cons h hs ih =>
    obtain ⟨fuel, rfl⟩ : ∃ k, fuel = k + 1 := ⟨fuel - 1, by omega⟩
    have hh := hhs h (by simp)
    rw [header_loop_line fuel st h (header_block hs ++ cstr e.text) hh.1 hh.2.2
      (by simpa [header_block, List.append_assoc] using hl)]
    rw [ih fuel _ (fun x hx => hhs x (by simp [hx])) (by simp at hfuel; omega) rfl]
    have e1 := apply_headers_congr (hs ++ e.lines)
      (header_step h st (some (header_block hs ++ cstr e.text))) (header_step h st none) rfl rfl
    rw [e1.1, e1.2]
    rfl

theorem cstr_request_text (line : List Char) (hs : List (List Char)) (e : HeaderEnd)
    (hline : is_line line) (hhs : ∀ h ∈ hs, h ≠ [] ∧ is_line h) :
    cstr (request_text line hs e) = line ++ CRLF ++ (header_block hs ++ cstr e.text) := by
  have hnul : NUL ∉ line ++ CRLF ++ header_block hs := by
    simp only [List.mem_append, not_or]
    exact ⟨⟨hline.1, by decide⟩, header_block_no_nul hs (fun x hx => (hhs x hx).2.1)⟩
  unfold request_text
  rw [cstr_append_of_not_mem _ _ hnul]
  simp only [List.append_assoc]

theorem request_line_request_text (line : List Char) (hs : List (List Char)) (e : HeaderEnd)
    (hline : is_line line) (hhs : ∀ h ∈ hs, h ≠ [] ∧ is_line h) :
    request_line (request_text line hs e) = line := by
  unfold request_line
  rw [cstr_request_text line hs e hline hhs, cut_line_append line _ hline.2]

/-- The parse of a request given by its request line, its header lines and the
end of its header section. -/
theorem parse_request_text (line : List Char) (hs : List (List Char)) (e : HeaderEnd)
    (request : HttpRequest) (hline : is_line line) (hhs : ∀ h ∈ hs, h ≠ [] ∧ is_line h)
    (he : e.well_formed) :
    parse_http_request (request_text line hs e) request
      = some (finish_request request line (final_state request hs e)) := by
  have hrl := request_line_request_text line hs e hline hhs
  have hc := cstr_request_text line hs e hline hhs
  have hloop : header_loop ((cstr (request_text line hs e)).length + 1)
      { line := (cut_line (cstr (request_text line hs e))).2,
        content_type := request.content_type, content_length := 0 }
      = some (final_state request hs e) := by
    rw [hc, cut_line_append line _ hline.2]
    have hlen := header_block_length hs
    rw [header_loop_end hs e _ _ hhs he
      (by simp only [List.length_append, CRLF, List.length_cons, List.length_nil]; omega) rfl]
    have e1 := apply_headers_congr (hs ++ e.lines)
      { line := some (header_block hs ++ cstr e.text), content_type := request.content_type,
        content_length := 0 } (initial_state request) rfl rfl
    simp only [final_state]
    rw [e1.1, e1.2]
  rw [parse_http_request_finish _ _ _ hloop, hrl]

/-! ## The status line -/

theorem send_http_response_head (sock : Socket) (r : HttpResponse) :
    (send_http_response sock r).head?.map SendCall.buf
      = some (snprintf 1024 (header_text r.status_code (status_message r.status_code)
          r.content_type r.body_length)) := by
  unfold send_http_response
  simp only []
  split
  · rfl
  · split
    · split <;> rfl
    · rfl

/-- C11: for every `int` status code c, the status line `send_http_response`
writes is `HTTP/1.1 c ` followed by the reason phrase `OK` if c = 200,
`Not Found` if c = 404, `Internal Server Error` if c = 500 and `Unknown` for
every other c, and CRLF. -/
theorem reason_phrase_table (sock : Socket) (r : HttpResponse) (h : in_int r.status_code) :
    ∃ rest, (send_http_response sock r).head?.map SendCall.buf
      = some ("HTTP/1.1 ".toList ++ decimal_int r.status_code ++ " ".toList
          ++ (if r.status_code = 200 then "OK".toList
              else if r.status_code = 404 then "Not Found".toList
              else if r.status_code = 500 then "Internal Server Error".toList
              else "Unknown".toList) ++ CRLF ++ rest) := by
  have hl := decimal_int_length r.status_code h.1 h.2
  have hm := status_message_length r.status_code
  have hs : ("HTTP/1.1 ".toList ++ decimal_int r.status_code ++ " ".toList
      ++ status_message r.status_code ++ CRLF).length ≤ 1024 - 1 := by
    simp [CRLF]
    omega
  rw [send_http_response_head]
  refine ⟨List.take (1024 - 1 - ("HTTP/1.1 ".toList ++ decimal_int r.status_code ++ " ".toList
      ++ status_message r.status_code ++ CRLF).length)
      ("Content-Type: ".toList ++ r.content_type ++ CRLF
        ++ "Content-Length: ".toList ++ decimal r.body_length ++ CRLF
        ++ "Connection: close".toList ++ CRLF ++ CRLF), ?_⟩
  have e : header_text r.status_code (status_message r.status_code) r.content_type
      r.body_length
      = ("HTTP/1.1 ".toList ++ decimal_int r.status_code ++ " ".toList
          ++ status_message r.status_code ++ CRLF)
        ++ ("Content-Type: ".toList ++ r.content_type ++ CRLF
          ++ "Content-Length: ".toList ++ decimal r.body_length ++ CRLF
          ++ "Connection: close".toList ++ CRLF ++ CRLF) := by
    simp only [header_text, List.append_assoc]
  rw [e, snprintf, List.take_append_eq_append_take, List.take_of_length_le hs]
  rfl

/-- Witness of C11: the codes 201 and 502 are written with the phrase
`Unknown`. -/
theorem reason_phrase_table_witness :
    (∃ rest, (send_http_response full_send
        { status_code := 201, content_type := "application/json".toList,
          body := some "ok".toList, body_length := 2 }).head?.map SendCall.buf
      = some ("HTTP/1.1 201 Unknown\r\n".toList ++ rest))
    ∧ (∃ rest, (send_http_response full_send
        { status_code := 502, content_type := "application/json".toList,
          body := some "ok".toList, body_length := 2 }).head?.map SendCall.buf
      = some ("HTTP/1.1 502 Unknown\r\n".toList ++ rest)) :=
  ⟨reason_phrase_table full_send
      { status_code := 201, content_type := "application/json".toList,
        body := some "ok".toList, body_length := 2 } (by decide),
    reason_phrase_table full_send
      { status_code := 502, content_type := "application/json".toList,
        body := some "ok".toList, body_length := 2 } (by decide)⟩

/-! ## The body of the parsed request -/

theorem parse_http_request_eq_finish (raw : List Char) (request : HttpRequest) :
    ∃ st, parse_http_request raw request = some (finish_request request (request_line raw) st) := by
  obtain ⟨st, hst⟩ := header_loop_total ((cstr raw).length + 1)
    { line := (cut_line (cstr raw)).2, content_type := request.content_type, content_length := 0 }
    (by
      intro l hl
      have := cut_line_snd_lt (cstr raw) l hl
      omega)
  exact ⟨st, parse_http_request_finish raw request st hst⟩

theorem finish_request_method (request : HttpRequest) (line : List Char) (st : HeaderState) :
    (finish_request request line st).method = parse_method line := by
  unfold finish_request
  cases st.line with
  | none => rfl
  | some rest =>
    simp only []
    split
    · split <;> rfl
    · rfl

theorem finish_request_path (request : HttpRequest) (line : List Char) (st : HeaderState) :
    (finish_request request line st).path = parse_path line request.path := by
  unfold finish_request
  cases st.line with
  | none => rfl
  | some rest =>
    simp only []
    split
    · split <;> rfl
    · rfl

theorem finish_request_content_type (request : HttpRequest) (line : List Char)
    (st : HeaderState) : (finish_request request line st).content_type = st.content_type := by
  unfold finish_request
  cases st.line with
  | none => rfl
  | some rest =>
    simp only []
    split
    · split <;> rfl
    · rfl

theorem finish_request_no_body (request : HttpRequest) (line : List Char) (st : HeaderState)
    (h : ¬ (parse_method line = HttpMethod.HTTP_POST ∧ 0 < st.content_length ∧ st.line ≠ none)) :
    (finish_request request line st).body = request.body
      ∧ (finish_request request line st).body_length = request.body_length := by
  unfold finish_request
  cases hl : st.line with
  | none => exact ⟨rfl, rfl⟩
  | some rest =>
    simp only []
    split
    · rename_i hc
      exact absurd ⟨hc.1, hc.2, by simp [hl]⟩ h
    · exact ⟨rfl, rfl⟩

theorem finish_request_body (request : HttpRequest) (line : List Char) (st : HeaderState)
    (rest : List Char) (hl : st.line = some rest)
    (hm : parse_method line = HttpMethod.HTTP_POST) (hc : 0 < st.content_length)
    (ha : malloc_succeeds ((st.content_length + 1) % 2 ^ 64) = true) :
    (finish_request request line st).body = some (rest.take st.content_length)
      ∧ (finish_request request line st).body_length = st.content_length := by
  unfold finish_request
  simp only [hl]
  rw [if_pos ⟨hm, hc⟩, if_pos ha]
  exact ⟨rfl, rfl⟩

theorem finish_request_malloc_fails (request : HttpRequest) (line : List Char)
    (st : HeaderState) (rest : List Char) (hl : st.line = some rest)
    (hm : parse_method line = HttpMethod.HTTP_POST) (hc : 0 < st.content_length)
    (ha : malloc_succeeds ((st.content_length + 1) % 2 ^ 64) = false) :
    (finish_request request line st).body = none
      ∧ (finish_request request line st).body_length = st.content_length := by
  unfold finish_request
  simp only [hl]
  rw [if_pos ⟨hm, hc⟩, if_neg (by rw [ha]; exact Bool.false_ne_true)]
  exact ⟨rfl, rfl⟩

theorem finish_request_some_line (request : HttpRequest) (line : List Char)
    (st : HeaderState) (rest : List Char) (hl : st.line = some rest) :
    (finish_request request line st).body_length
      = (if parse_method line = HttpMethod.HTTP_POST ∧ 0 < st.content_length then
          st.content_length else request.body_length) := by
  by_cases hc : parse_method line = HttpMethod.HTTP_POST ∧ 0 < st.content_length
  · rw [if_pos hc]
    cases ha : malloc_succeeds ((st.content_length + 1) % 2 ^ 64) with
    | true => exact (finish_request_body request line st rest hl hc.1 hc.2 ha).2
    | false => exact (finish_request_malloc_fails request line st rest hl hc.1 hc.2 ha).2
  · rw [if_neg hc]
    exact (finish_request_no_body request line st (fun c => hc ⟨c.1, c.2.1⟩)).2

/-- C12: for every raw request that the parser classifies as GET or as UNKNOWN,
the body and `body_length` of the request are left as they were before the
call, whatever Content-Length header and trailing bytes the request holds; for
the zeroed request of the connection handler the parsed request has no body and
`body_length = 0`. -/
theorem no_body_unless_post (raw : List Char) (request : HttpRequest) :
    (∃ r, parse_http_request raw request = some r
      ∧ (r.method = HttpMethod.HTTP_GET ∨ r.method = HttpMethod.HTTP_UNKNOWN →
          r.body = request.body ∧ r.body_length = request.body_length))
    ∧ (∃ r, parse_http_request raw zero_request = some r
      ∧ (r.method = HttpMethod.HTTP_GET ∨ r.method = HttpMethod.HTTP_UNKNOWN →
          r.body = none ∧ r.body_length = 0)) := by
  have key : ∀ q : HttpRequest, ∃ r, parse_http_request raw q = some r
      ∧ (r.method = HttpMethod.HTTP_GET ∨ r.method = HttpMethod.HTTP_UNKNOWN →
          r.body = q.body ∧ r.body_length = q.body_length) := by
    intro q
    obtain ⟨st, hst⟩ := parse_http_request_eq_finish raw q
    refine ⟨_, hst, ?_⟩
    intro hm
    rw [finish_request_method] at hm
    apply finish_request_no_body
    rintro ⟨hp, _, _⟩
    rw [hp] at hm
    rcases hm with hm | hm <;> exact absurd hm (by decide)
  exact ⟨key request, key zero_request⟩

/-- Example for C12: a GET request with a Content-Length header and trailing
bytes is parsed without a body. -/
theorem no_body_unless_post_example :
    parse_http_request "GET /x HTTP/1.1\r\nContent-Length: 5\r\n\r\nhello".toList zero_request
      = some (request_of HttpMethod.HTTP_GET "/x".toList) := by
  decide

theorem parse_path_token (m token version path : List Char)
    (hm : ' ' ∉ m) (ht : ' ' ∉ token) (hlen : token.length ≤ 255) :
    parse_path (m ++ ' ' :: (token ++ ' ' :: version)) path = token := by
  unfold parse_path
  rw [strchr_append m _ ' ' hm]
  have hd : List.drop (m.length + 1) (m ++ ' ' :: (token ++ ' ' :: version))
      = token ++ ' ' :: version := by
    have e : m ++ ' ' :: (token ++ ' ' :: version) = (m ++ [' ']) ++ (token ++ ' ' :: version) := by
      simp
    rw [e]
    exact List.drop_left' (by simp)
  simp only [hd]
  rw [strchr_append token _ ' ' ht]
  simp only []
  rw [if_pos (by omega)]
  exact List.take_left' rfl

/-- C19: for every request line `<method> <path> <version>` followed by CRLF,
where the path holds no space and at most 255 bytes, the parsed path is the
path token exactly, query string included, whatever the method token is. -/
theorem path_token_stored (m token version tail : List Char) (request : HttpRequest)
    (hm : ' ' ∉ m) (ht : ' ' ∉ token) (hlen : token.length ≤ 255)
    (hline : is_line (m ++ ' ' :: (token ++ ' ' :: version))) :
    ∃ r, parse_http_request ((m ++ ' ' :: (token ++ ' ' :: version)) ++ CRLF ++ tail) request
        = some r
      ∧ r.path = token := by
  obtain ⟨r, hr, _, hp⟩ := parse_http_request_method
    ((m ++ ' ' :: (token ++ ' ' :: version)) ++ CRLF ++ tail) request
  refine ⟨r, hr, ?_⟩
  rw [hp, request_line_append _ _ hline, parse_path_token m token version _ hm ht hlen]

/-- Witness of C19: the path `/search?q=a&b=c` of a request with the method
token `DELETE` is stored with its query string. -/
theorem path_token_stored_witness :
    ∃ r, parse_http_request (("DELETE".toList ++ ' ' :: ("/search?q=a&b=c".toList
          ++ ' ' :: "HTTP/1.1".toList)) ++ CRLF ++ "Host: x\r\n\r\n".toList) zero_request
        = some r
      ∧ r.path = "/search?q=a&b=c".toList :=
  path_token_stored "DELETE".toList "/search?q=a&b=c".toList "HTTP/1.1".toList
    "Host: x\r\n\r\n".toList zero_request (by decide) (by decide) (by decide) (by decide)

/-! ## Header lines that do not count, and the letter case of header names -/

theorem header_step_other (h : List Char) (st : HeaderState)
    (hct : strncasecmp_eq h "Content-Type:".toList 13 = false)
    (hcl : strncasecmp_eq h "Content-Length:".toList 15 = false) :
    (header_step h st none).content_type = st.content_type
      ∧ (header_step h st none).content_length = st.content_length := by
  simp only [header_step, hct, hcl]
  exact ⟨rfl, rfl⟩

theorem final_state_congr (request : HttpRequest) (hs1 hs2 : List (List Char)) (e1 e2 : HeaderEnd)
    (hl : e1.line_after = e2.line_after)
    (h : ∀ st : HeaderState,
      (apply_headers (hs1 ++ e1.lines) st).content_type
          = (apply_headers (hs2 ++ e2.lines) st).content_type
        ∧ (apply_headers (hs1 ++ e1.lines) st).content_length
          = (apply_headers (hs2 ++ e2.lines) st).content_length) :
    final_state request hs1 e1 = final_state request hs2 e2 := by
  unfold final_state
  rw [hl, (h (initial_state request)).1, (h (initial_state request)).2]

theorem apply_headers_insert (hs1 hs2 : List (List Char)) (h : List Char) (st : HeaderState)
    (hct : strncasecmp_eq h "Content-Type:".toList 13 = false)
    (hcl : strncasecmp_eq h "Content-Length:".toList 15 = false) :
    (apply_headers (hs1 ++ h :: hs2) st).content_type
        = (apply_headers (hs1 ++ hs2) st).content_type
      ∧ (apply_headers (hs1 ++ h :: hs2) st).content_length
        = (apply_headers (hs1 ++ hs2) st).content_length := by
  rw [apply_headers_append, apply_headers_append]
  simp only [apply_headers]
  have e := header_step_other h (apply_headers hs1 st) hct hcl
  exact apply_headers_congr hs2 _ _ e.1 e.2

/-- C17: for every request, an additional non-empty header line whose name
does not begin (in any letter case) with `Content-Type:` or `Content-Length:`,
inserted anywhere among the header lines, leaves the parsed request unchanged
in every field; and the parser returns. -/
theorem other_header_ignored (line h : List Char) (hs1 hs2 : List (List Char)) (e : HeaderEnd)
    (request : HttpRequest) (hline : is_line line)
    (hhs1 : ∀ x ∈ hs1, x ≠ [] ∧ is_line x) (hhs2 : ∀ x ∈ hs2, x ≠ [] ∧ is_line x)
    (he : e.well_formed) (hh : h ≠ [] ∧ is_line h)
    (hct : strncasecmp_eq h "Content-Type:".toList 13 = false)
    (hcl : strncasecmp_eq h "Content-Length:".toList 15 = false) :
    parse_http_request (request_text line (hs1 ++ h :: hs2) e) request
        = parse_http_request (request_text line (hs1 ++ hs2) e) request
      ∧ ∃ r, parse_http_request (request_text line (hs1 ++ hs2) e) request = some r := by
  have w1 : ∀ x ∈ hs1 ++ h :: hs2, x ≠ [] ∧ is_line x := by
    intro x hx
    simp only [List.mem_append, List.mem_cons] at hx
    rcases hx with hx | rfl | hx
    · exact hhs1 x hx
    · exact hh
    · exact hhs2 x hx
  have w2 : ∀ x ∈ hs1 ++ hs2, x ≠ [] ∧ is_line x := by
    intro x hx
    simp only [List.mem_append] at hx
    rcases hx with hx | hx
    · exact hhs1 x hx
    · exact hhs2 x hx
  rw [parse_request_text line _ e request hline w1 he,
    parse_request_text line _ e request hline w2 he]
  refine ⟨?_, _, rfl⟩
  rw [final_state_congr request (hs1 ++ h :: hs2) (hs1 ++ hs2) e e rfl]
  intro st
  have := apply_headers_insert hs1 (hs2 ++ e.lines) h st hct hcl
  simpa [List.append_assoc] using this

/-- Witness of C17: a `Host:` line inserted between the request line and the
`Content-Length:` line of a POST request. -/
theorem other_header_ignored_witness :
    parse_http_request (request_text "POST /echo HTTP/1.1".toList
        ([] ++ "Host: localhost".toList :: ["Content-Length: 2".toList])
        (HeaderEnd.blank "hi".toList)) zero_request
      = parse_http_request (request_text "POST /echo HTTP/1.1".toList
        ([] ++ ["Content-Length: 2".toList]) (HeaderEnd.blank "hi".toList)) zero_request
    ∧ ∃ r, parse_http_request (request_text "POST /echo HTTP/1.1".toList
        ([] ++ ["Content-Length: 2".toList]) (HeaderEnd.blank "hi".toList)) zero_request
        = some r :=
  other_header_ignored "POST /echo HTTP/1.1".toList "Host: localhost".toList []
    ["Content-Length: 2".toList] (HeaderEnd.blank "hi".toList) zero_request
    (by decide) (by decide) (by decide) (by decide) (by decide) (by decide) (by decide)

theorem strstr_none_of_append (a b needle : List Char)
    (h : strstr (a ++ b) needle = none) : strstr b needle = none := by
  induction a with
  | nil => simpa using h
  | cons c a ih =>
    apply ih
    rw [List.cons_append, strstr_cons] at h
    by_cases hp : needle.isPrefixOf (c :: (a ++ b)) = true
    · simp [hp] at h
    · simp only [hp] at h
      cases hs : strstr (a ++ b) needle with
      | none => rfl
      | some k => simp [hs] at h

theorem strstr_crlf_append_none (a b : List Char) (ha : '\r' ∉ a)
    (hb : strstr b CRLF = none) : strstr (a ++ b) CRLF = none := by
  induction a with
  | nil => simpa using hb
  | cons c a ih =>
    simp only [List.mem_cons, not_or] at ha
    have hp : ¬ CRLF.isPrefixOf (c :: (a ++ b)) = true := by
      rw [crlf_isPrefixOf]
      intro ⟨t, ht⟩
      exact ha.1 (List.cons.inj ht).1.symm
    rw [List.cons_append, strstr_cons, if_neg hp, ih ha.2]
    rfl

theorem header_name_chars (name : List Char)
    (h : name.map tolower = "content-type:".toList
      ∨ name.map tolower = "content-length:".toList) :
    NUL ∉ name ∧ '\r' ∉ name ∧ (name.length = 13 ∨ name.length = 15) := by
  refine ⟨?_, ?_, ?_⟩
  · intro hmem
    have hm : tolower NUL ∈ name.map tolower := List.mem_map_of_mem _ hmem
    rcases h with h | h <;> rw [h] at hm <;> revert hm <;> decide
  · intro hmem
    have hm : tolower '\r' ∈ name.map tolower := List.mem_map_of_mem _ hmem
    rcases h with h | h <;> rw [h] at hm <;> revert hm <;> decide
  · rcases h with h | h
    · left
      have := congrArg List.length h
      simpa using this
    · right
      have := congrArg List.length h
      simpa using this

theorem strncasecmp_eq_map (a b x : List Char) (n : Nat)
    (h : a.map tolower = b.map tolower) : strncasecmp_eq a x n = strncasecmp_eq b x n := by
  unfold strncasecmp_eq
  have e : ∀ l : List Char, (l.take n).map tolower = (l.map tolower).take n :=
    fun l => List.map_take tolower l n
  rw [e a, e b, h]

theorem header_step_same_name (h1 h2 : List Char) (st : HeaderState)
    (next_line : Option (List Char)) (h : same_header_name h1 h2) :
    header_step h1 st next_line = header_step h2 st next_line := by
  obtain ⟨name1, name2, value, e1, e2, hn, hk⟩ := h
  have hmap : h1.map tolower = h2.map tolower := by
    rw [e1, e2, List.map_append, List.map_append, hn]
  have l1 := (header_name_chars name1 hk).2.2
  have l2 := (header_name_chars name2 (hn ▸ hk)).2.2
  have hlen : name1.length = name2.length := by
    have := congrArg List.length hn
    simpa using this
  unfold header_step
  rw [strncasecmp_eq_map h1 h2 _ 13 hmap, strncasecmp_eq_map h1 h2 _ 15 hmap]
  rcases hk with hk | hk
  · have a1 : name1.length = 13 := by
      have := congrArg List.length hk
      simpa using this
    have a2 : name2.length = 13 := by omega
    have c15 : strncasecmp_eq h2 "Content-Length:".toList 15 = false := by
      rw [← strncasecmp_eq_map h1 h2 _ 15 hmap]
      unfold strncasecmp_eq
      rw [List.map_take tolower, e1, List.map_append, hk]
      simp
      intro _ _ _ _ _ _ _ _ h9
      exact absurd h9 (by decide)
    have d1 : content_type_value h1 = content_type_value h2 := by
      unfold content_type_value
      rw [e1, e2, List.drop_left' a1, List.drop_left' a2]
    rw [c15, d1]
    simp
  · have a1 : name1.length = 15 := by
      have := congrArg List.length hk
      simpa using this
    have a2 : name2.length = 15 := by omega
    have c13 : strncasecmp_eq h2 "Content-Type:".toList 13 = false := by
      rw [← strncasecmp_eq_map h1 h2 _ 13 hmap]
      unfold strncasecmp_eq
      rw [List.map_take tolower, e1, List.map_append, hk]
      simp
      intro _ _ _ _ _ _ _ _ h9
      exact absurd h9 (by decide)
    have d1 : List.drop 15 h1 = List.drop 15 h2 := by
      rw [e1, e2, List.drop_left' a1, List.drop_left' a2]
    rw [c13, d1]
    simp

theorem is_line_same_name (h1 h2 : List Char) (h : same_header_name h1 h2)
    (hl : h1 ≠ [] ∧ is_line h1) : h2 ≠ [] ∧ is_line h2 := by
  obtain ⟨name1, name2, value, e1, e2, hn, hk⟩ := h
  have c1 := header_name_chars name1 hk
  have c2 := header_name_chars name2 (hn ▸ hk)
  constructor
  · intro e
    rw [e] at e2
    have : name2.length = 0 := by
      have := congrArg List.length e2
      simp at this
      omega
    omega
  · rw [e1] at hl
    rw [e2]
    refine ⟨?_, ?_⟩
    · intro hmem
      rcases List.mem_append.mp hmem with hm | hm
      · exact c2.1 hm
      · exact hl.2.1 (List.mem_append.mpr (Or.inr hm))
    · exact strstr_crlf_append_none _ _ c2.2.1 (strstr_none_of_append _ _ _ hl.2.2)

theorem apply_headers_same_name (hs1 hs2 : List (List Char)) (h1 h2 : List Char)
    (st : HeaderState) (h : same_header_name h1 h2) :
    apply_headers (hs1 ++ h1 :: hs2) st = apply_headers (hs1 ++ h2 :: hs2) st := by
  rw [apply_headers_append, apply_headers_append]
  simp only [apply_headers]
  rw [header_step_same_name h1 h2 _ none h]

/-- C15: for every request, writing the name of a `Content-Type:` or
`Content-Length:` header line in another letter case gives the same parse
result, in every field, whether the line stands among the terminated header
lines or is the unterminated last line of the buffer; the parser returns. -/
theorem header_name_case_insensitive (line h1 h2 : List Char) (hs1 hs2 : List (List Char))
    (e : HeaderEnd) (request : HttpRequest) (hline : is_line line)
    (hhs1 : ∀ x ∈ hs1, x ≠ [] ∧ is_line x) (hhs2 : ∀ x ∈ hs2, x ≠ [] ∧ is_line x)
    (he : e.well_formed) (hh : is_line h1) (hsame : same_header_name h1 h2) :
    parse_http_request (request_text line (hs1 ++ h1 :: hs2) e) request
        = parse_http_request (request_text line (hs1 ++ h2 :: hs2) e) request
      ∧ parse_http_request (request_text line hs1 (HeaderEnd.unterminated h1)) request
        = parse_http_request (request_text line hs1 (HeaderEnd.unterminated h2)) request
      ∧ ∃ r, parse_http_request (request_text line (hs1 ++ h2 :: hs2) e) request = some r := by
  have n1 : h1 ≠ [] := by
    obtain ⟨name1, name2, value, e1, e2, hn, hk⟩ := hsame
    have := (header_name_chars name1 hk).2.2
    intro e0
    rw [e0] at e1
    have := congrArg List.length e1
    simp at this
    omega
  have g1 : h1 ≠ [] ∧ is_line h1 := ⟨n1, hh⟩
  have g2 : h2 ≠ [] ∧ is_line h2 := is_line_same_name h1 h2 hsame g1
  have w : ∀ h : List Char, (h ≠ [] ∧ is_line h) →
      ∀ x ∈ hs1 ++ h :: hs2, x ≠ [] ∧ is_line x := by
    intro h hg x hx
    simp only [List.mem_append, List.mem_cons] at hx
    rcases hx with hx | rfl | hx
    · exact hhs1 x hx
    · exact hg
    · exact hhs2 x hx
  rw [parse_request_text line _ e request hline (w h1 g1) he,
    parse_request_text line _ e request hline (w h2 g2) he,
    parse_request_text line hs1 (HeaderEnd.unterminated h1) request hline hhs1 g1,
    parse_request_text line hs1 (HeaderEnd.unterminated h2) request hline hhs1 g2]
  refine ⟨?_, ?_, _, rfl⟩
  · rw [final_state_congr request (hs1 ++ h1 :: hs2) (hs1 ++ h2 :: hs2) e e rfl]
    intro st
    have := apply_headers_same_name hs1 (hs2 ++ e.lines) h1 h2 st hsame
    simp only [List.append_assoc, List.cons_append]
    rw [this]
    exact ⟨rfl, rfl⟩
  · rw [final_state_congr request hs1 hs1 (HeaderEnd.unterminated h1)
      (HeaderEnd.unterminated h2) rfl]
    intro st
    have := apply_headers_same_name hs1 [] h1 h2 st hsame
    simp only [HeaderEnd.lines]
    rw [this]
    exact ⟨rfl, rfl⟩

/-- Witness of C15: `cOnTeNt-LeNgTh: 2` is read as `Content-Length: 2`. -/
theorem header_name_case_insensitive_witness :
    parse_http_request (request_text "POST /echo HTTP/1.1".toList
        ([] ++ "Content-Length: 2".toList :: []) (HeaderEnd.blank "hi".toList)) zero_request
      = parse_http_request (request_text "POST /echo HTTP/1.1".toList
        ([] ++ "cOnTeNt-LeNgTh: 2".toList :: []) (HeaderEnd.blank "hi".toList)) zero_request
    ∧ parse_http_request (request_text "POST /echo HTTP/1.1".toList []
        (HeaderEnd.unterminated "Content-Length: 2".toList)) zero_request
      = parse_http_request (request_text "POST /echo HTTP/1.1".toList []
        (HeaderEnd.unterminated "cOnTeNt-LeNgTh: 2".toList)) zero_request
    ∧ ∃ r, parse_http_request (request_text "POST /echo HTTP/1.1".toList
        ([] ++ "cOnTeNt-LeNgTh: 2".toList :: []) (HeaderEnd.blank "hi".toList)) zero_request
        = some r :=
  header_name_case_insensitive "POST /echo HTTP/1.1".toList "Content-Length: 2".toList
    "cOnTeNt-LeNgTh: 2".toList [] [] (HeaderEnd.blank "hi".toList) zero_request
    (by decide) (by decide) (by decide) (by decide) (by decide)
    ⟨"Content-Length:".toList, "cOnTeNt-LeNgTh:".toList, " 2".toList, rfl, rfl,
      by decide, Or.inr (by decide)⟩

/-- The upper-case and the lower-case spelling of the two header names are
read: the content type and the body length of the parsed request. -/
theorem header_name_case_example :
    (parse_http_request
        "POST /echo HTTP/1.1\r\nCONTENT-TYPE: text/plain\r\ncontent-length: 2\r\n\r\nhi".toList
        zero_request).map (fun r => (r.content_type, r.body, r.body_length))
      = some ("text/plain".toList, some "hi".toList, 2) := by
  decide

/-! ## The value read by `atoi` and the header values -/

theorem dropWhile_append_all {α : Type} (p : α → Bool) (l t : List α)
    (h : l.all p = true) : (l ++ t).dropWhile p = t.dropWhile p := by
  induction l with
  | nil => rfl
  | cons x l ih =>
    simp only [List.all_cons, Bool.and_eq_true] at h
    rw [List.cons_append, List.dropWhile_cons_of_pos h.1]
    exact ih h.2

theorem takeWhile_append_junk {α : Type} (p : α → Bool) (l junk : List α)
    (h : ∀ x ∈ l, p x = true) (hj : junk.takeWhile p = []) :
    (l ++ junk).takeWhile p = l := by
  induction l with
  | nil => simpa using hj
  | cons x l ih =>
    simp only [List.cons_append, List.takeWhile_cons, h x (by simp), if_true]
    rw [ih (fun y hy => h y (by simp [hy]))]

theorem atoi_decimal_int (ws junk : List Char) (d : Int) (hws : ws.all isspace = true)
    (hj : junk.takeWhile isdigit = []) (hd : in_int d) :
    atoi (ws ++ (decimal_int d ++ junk)) = d := by
  obtain ⟨c, cs, hc⟩ : ∃ c cs, decimal d.natAbs = c :: cs := by
    cases hdn : decimal d.natAbs with
    | nil => exact absurd hdn (decimal_ne_nil _)
    | cons c cs => exact ⟨c, cs, rfl⟩
  have hdig : isdigit c = true := decimal_isdigit d.natAbs c (by rw [hc]; simp)
  have hsp := isdigit_not_isspace c hdig
  have hm : c ≠ '-' := isdigit_ne c '-' hdig (by decide)
  have hp : c ≠ '+' := isdigit_ne c '+' hdig (by decide)
  have htw : (c :: cs ++ junk).takeWhile isdigit = c :: cs :=
    takeWhile_append_junk _ _ _ (by rw [← hc]; exact decimal_isdigit _) hj
  have hv := decimal_value d.natAbs
  rw [hc] at hv
  unfold atoi
  rw [dropWhile_append_all _ _ _ hws]
  unfold in_int at hd
  unfold decimal_int
  by_cases hneg : d < 0
  · rw [if_pos hneg, hc]
    have e1 : ('-' :: (c :: cs) ++ junk).dropWhile isspace = '-' :: (c :: cs ++ junk) := by
      rw [List.cons_append, List.dropWhile_cons_of_neg (by decide)]
    simp only [e1, List.head?_cons, true_or, if_true, List.drop_succ_cons, List.drop_zero,
      htw, hv, decide_True]
    have : -((d.natAbs : Nat) : Int) = d := by omega
    rw [this, clamp64_of_range _ (by omega) (by omega), wrap32_of_range _ hd.1 hd.2]
  · rw [if_neg hneg, hc]
    have e1 : (c :: cs ++ junk).dropWhile isspace = c :: cs ++ junk := by
      rw [List.cons_append, List.dropWhile_cons_of_neg (by simp [hsp])]
    have e2 : (c :: cs ++ junk).head? = some c := rfl
    simp only [e1, e2, Option.some.injEq, hm, hp, or_self, if_false, decide_False, htw, hv]
    have : ((d.natAbs : Nat) : Int) = d := by omega
    simp only [Bool.false_eq_true, if_false]
    rw [this, clamp64_of_range _ (by omega) (by omega), wrap32_of_range _ hd.1 hd.2]

theorem apply_headers_content_type (hs : List (List Char)) (st : HeaderState)
    (h : ∀ x ∈ hs, strncasecmp_eq x "Content-Type:".toList 13 = false) :
    (apply_headers hs st).content_type = st.content_type := by
  induction hs generalizing st with
  | nil => rfl
  | cons x hs ih =>
    simp only [apply_headers]
    rw [ih _ (fun y hy => h y (by simp [hy]))]
    simp only [header_step, h x (by simp)]
    simp

theorem strncasecmp_eq_name (name value lit : List Char) (n : Nat)
    (hn : name.map tolower = (lit.take n).map tolower) (hl : name.length = n) :
    strncasecmp_eq (name ++ value) lit n = true := by
  unfold strncasecmp_eq
  rw [List.take_left' hl, hn]
  simp

theorem declares_content_length_step (h : List Char) (d : Int) (st : HeaderState)
    (next_line : Option (List Char)) (hh : declares_content_length h d) (hd : in_int d) :
    (header_step h st next_line).content_length = size_t_of_int d := by
  obtain ⟨name, ws, junk, e, hn, hws, hj⟩ := hh
  have hlen : name.length = 15 := by
    have := congrArg List.length hn
    simpa using this
  have e1 : strncasecmp_eq h "Content-Length:".toList 15 = true := by
    rw [e]
    exact strncasecmp_eq_name _ _ _ _ (by rw [hn]; rfl) hlen
  have e2 : h.drop 15 = ws ++ (decimal_int d ++ junk) := by
    rw [e, List.drop_left' hlen]
  simp only [header_step, e1, e2, if_true]
  rw [atoi_decimal_int ws junk d hws hj hd]

theorem declares_content_type_step (h v : List Char) (st : HeaderState)
    (next_line : Option (List Char)) (hh : declares_content_type h v) :
    (header_step h st next_line).content_type = v.take 127 := by
  obtain ⟨name, k, e, hn, hv⟩ := hh
  have hlen : name.length = 13 := by
    have := congrArg List.length hn
    simpa using this
  have e1 : strncasecmp_eq h "Content-Type:".toList 13 = true := by
    rw [e]
    exact strncasecmp_eq_name _ _ _ _ (by rw [hn]; rfl) hlen
  have e2 : content_type_value h = v.take 127 := by
    unfold content_type_value
    rw [e, List.drop_left' hlen,
      dropWhile_append_all _ (List.replicate k ' ') v (by simp)]
    cases v with
    | nil => rfl
    | cons c v =>
      have hc : c ≠ ' ' := fun ec => hv (by rw [ec]; rfl)
      rw [List.dropWhile_cons_of_neg (by simp [hc])]
  simp only [header_step, e1, e2, if_true]

theorem final_state_content_length (request : HttpRequest) (hs1 hs2 : List (List Char))
    (h : List Char) (e : HeaderEnd) (d : Int) (hh : declares_content_length h d)
    (hd : in_int d)
    (hlast : ∀ x ∈ hs2 ++ e.lines, strncasecmp_eq x "Content-Length:".toList 15 = false) :
    (final_state request (hs1 ++ h :: hs2) e).content_length = size_t_of_int d := by
  unfold final_state
  simp only [List.append_assoc, List.cons_append]
  rw [apply_headers_append]
  simp only [apply_headers]
  rw [apply_headers_content_length _ _ hlast, declares_content_length_step h d _ _ hh hd]

theorem final_state_content_type (request : HttpRequest) (hs1 hs2 : List (List Char))
    (h v : List Char) (e : HeaderEnd) (hh : declares_content_type h v)
    (hlast : ∀ x ∈ hs2 ++ e.lines, strncasecmp_eq x "Content-Type:".toList 13 = false) :
    (final_state request (hs1 ++ h :: hs2) e).content_type = v.take 127 := by
  unfold final_state
  simp only [List.append_assoc, List.cons_append]
  rw [apply_headers_append]
  simp only [apply_headers]
  rw [apply_headers_content_type _ _ hlast, declares_content_type_step h v _ _ hh]

theorem is_line_insert (hs1 hs2 : List (List Char)) (h : List Char)
    (hhs1 : ∀ x ∈ hs1, x ≠ [] ∧ is_line x) (hhs2 : ∀ x ∈ hs2, x ≠ [] ∧ is_line x)
    (hh : h ≠ [] ∧ is_line h) : ∀ x ∈ hs1 ++ h :: hs2, x ≠ [] ∧ is_line x := by
  intro x hx
  simp only [List.mem_append, List.mem_cons] at hx
  rcases hx with hx | rfl | hx
  · exact hhs1 x hx
  · exact hh
  · exact hhs2 x hx

theorem declares_content_length_ne_nil (h : List Char) (d : Int)
    (hh : declares_content_length h d) : h ≠ [] := by
  obtain ⟨name, ws, junk, e, hn, _, _⟩ := hh
  have hlen : name.length = 15 := by
    have := congrArg List.length hn
    simpa using this
  intro e0
  rw [e0] at e
  have := congrArg List.length e
  simp at this
  omega

theorem declares_content_type_ne_nil (h v : List Char)
    (hh : declares_content_type h v) : h ≠ [] := by
  obtain ⟨name, k, e, hn, _⟩ := hh
  have hlen : name.length = 13 := by
    have := congrArg List.length hn
    simpa using this
  intro e0
  rw [e0] at e
  have := congrArg List.length e
  simp at this
  omega

theorem size_t_of_int_nonneg (d : Int) (h0 : 0 ≤ d) (h1 : d < 2 ^ 31) :
    ((size_t_of_int d : Nat) : Int) = d := by
  unfold size_t_of_int
  omega

/-- C13, as the claim reads: a POST request that declares the content length
4294967297 produces a body, and its `body_length` is 1, the declared number
reduced to an `int`; no `int` value converts to the `size_t` 4294967297. -/
theorem body_length_not_declared :
    (parse_http_request
        "POST /echo HTTP/1.1\r\nContent-Length: 4294967297\r\n\r\nhello".toList
        zero_request).map (fun r => (r.body, r.body_length))
      = some (some "h".toList, 1)
    ∧ ∀ v : Int, in_int v → size_t_of_int v ≠ 4294967297 := by
  refine ⟨by decide, ?_⟩
  intro v hv
  unfold in_int at hv
  unfold size_t_of_int
  omega

/-- The declared length of a request given by its lines: when the last
Content-Length line declares an `int` value `d`, the parser returns, and
whenever the parsed request has a body its `body_length` is `d` converted to
`size_t`; that is `d` itself when `d` is not negative; and a POST request with
`0 < d` whose header lines all end with CRLF does get a body. -/
theorem body_length_is_declared_int (line h : List Char) (hs1 hs2 : List (List Char))
    (e : HeaderEnd) (d : Int) (request : HttpRequest) (hline : is_line line)
    (hhs1 : ∀ x ∈ hs1, x ≠ [] ∧ is_line x) (hhs2 : ∀ x ∈ hs2, x ≠ [] ∧ is_line x)
    (he : e.well_formed) (hh : is_line h) (hdecl : declares_content_length h d)
    (hd : in_int d)
    (hlast : ∀ x ∈ hs2 ++ e.lines, strncasecmp_eq x "Content-Length:".toList 15 = false)
    (hb : request.body = none) :
    ∃ r, parse_http_request (request_text line (hs1 ++ h :: hs2) e) request = some r
      ∧ (r.body ≠ none → r.body_length = size_t_of_int d)
      ∧ (r.body ≠ none → 0 ≤ d → (r.body_length : Int) = d)
      ∧ (parse_method line = HttpMethod.HTTP_POST → 0 < d → e.line_after ≠ none
          → r.body ≠ none) := by
  have w := is_line_insert hs1 hs2 h hhs1 hhs2 ⟨declares_content_length_ne_nil h d hdecl, hh⟩
  have hcl := final_state_content_length request hs1 hs2 h e d hdecl hd hlast
  have hln : (final_state request (hs1 ++ h :: hs2) e).line = e.line_after := rfl
  refine ⟨_, parse_request_text line _ e request hline w he, ?_⟩
  by_cases c : parse_method line = HttpMethod.HTTP_POST
      ∧ 0 < (final_state request (hs1 ++ h :: hs2) e).content_length
      ∧ (final_state request (hs1 ++ h :: hs2) e).line ≠ none
  · obtain ⟨rest, hrest⟩ : ∃ rest, (final_state request (hs1 ++ h :: hs2) e).line = some rest := by
      cases hl : (final_state request (hs1 ++ h :: hs2) e).line with
      | none => exact absurd hl c.2.2
      | some rest => exact ⟨rest, rfl⟩
    have hbl := finish_request_some_line request line _ rest hrest
    rw [if_pos ⟨c.1, c.2.1⟩] at hbl
    refine ⟨fun _ => ?_, fun _ h0 => ?_, fun _ h0 _ => ?_⟩
    · rw [hbl, hcl]
    · rw [hbl, hcl]
      exact size_t_of_int_nonneg d h0 hd.2
    · have hnn := size_t_of_int_nonneg d (by omega) hd.2
      have hlt := hd.2
      have ha := malloc_succeeds_small (final_state request (hs1 ++ h :: hs2) e).content_length
        (by rw [hcl]; omega)
      rw [(finish_request_body request line _ rest hrest c.1 c.2.1 ha).1]
      simp
  · have b := finish_request_no_body request line _ c
    refine ⟨fun hne => ?_, fun hne _ => ?_, fun hm h0 hl => ?_⟩
    · exact absurd (b.1.trans hb) hne
    · exact absurd (b.1.trans hb) hne
    · exfalso
      apply c
      refine ⟨hm, ?_, ?_⟩
      · rw [hcl]
        have := size_t_of_int_nonneg d (by omega) hd.2
        omega
      · rw [hln]
        exact hl

/-- Instance of the declared length: `content-length:  12abc` between two other
header lines of a POST request whose body holds 12 bytes. -/
theorem body_length_is_declared_int_witness :
    ∃ r, parse_http_request (request_text "POST /echo HTTP/1.1".toList
          (["Host: x".toList] ++ "content-length:  12abc".toList :: ["Accept: */*".toList])
          (HeaderEnd.blank "hello, world".toList)) zero_request = some r
      ∧ (r.body ≠ none → r.body_length = size_t_of_int 12)
      ∧ (r.body ≠ none → (0 : Int) ≤ 12 → (r.body_length : Int) = 12)
      ∧ (parse_method "POST /echo HTTP/1.1".toList = HttpMethod.HTTP_POST → (0 : Int) < 12
          → (HeaderEnd.blank "hello, world".toList).line_after ≠ none → r.body ≠ none) :=
  body_length_is_declared_int "POST /echo HTTP/1.1".toList "content-length:  12abc".toList
    ["Host: x".toList] ["Accept: */*".toList] (HeaderEnd.blank "hello, world".toList) 12
    zero_request (by decide) (by decide) (by decide) (by decide) (by decide)
    ⟨"content-length:".toList, "  ".toList, "abc".toList, by decide, by decide, by decide,
      by decide⟩
    (by decide) (by decide) rfl

/-- The three truncated requests of C14 as raw text: the bytes `abc` of ten
declared, no byte after the last CRLF, and a buffer cut inside the
Content-Length line. -/
theorem truncated_body_example :
    (parse_http_request "POST /echo HTTP/1.1\r\nContent-Length: 10\r\n\r\nabc".toList
        zero_request).map (fun r => (r.body, r.body_length)) = some (some "abc".toList, 10)
    ∧ (parse_http_request "POST /echo HTTP/1.1\r\nContent-Length: 10\r\n".toList
        zero_request).map (fun r => (r.body, r.body_length)) = some (some [], 10)
    ∧ (parse_http_request "POST /echo HTTP/1.1\r\nContent-Length: 10".toList
        zero_request).map (fun r => (r.body, r.body_length)) = some (none, 0) := by
  decide

/-- C16, as the claim reads: the spaces after the value `text/plain` stay in
the parsed content type, and so does a tab before it. -/
theorem content_type_not_trimmed :
    (parse_http_request "GET / HTTP/1.1\r\nContent-Type:   text/plain  \r\n\r\n".toList
        zero_request).map (fun r => r.content_type) = some "text/plain  ".toList
    ∧ (parse_http_request "GET / HTTP/1.1\r\nContent-Type: \ttext/plain\r\n\r\n".toList
        zero_request).map (fun r => r.content_type) = some "\ttext/plain".toList := by
  decide

/-- C16: for every request whose last Content-Type line is the header name (in
any letter case), any number of space characters, and a text `v` that does not
begin with a space character, the parser returns and the parsed content type is
the first 127 bytes of `v`: all of `v` when it has at most 127 bytes, white
space at its end and tabs at its start included. -/
theorem content_type_leading_spaces_skipped (line h v : List Char) (hs1 hs2 : List (List Char))
    (e : HeaderEnd) (request : HttpRequest) (hline : is_line line)
    (hhs1 : ∀ x ∈ hs1, x ≠ [] ∧ is_line x) (hhs2 : ∀ x ∈ hs2, x ≠ [] ∧ is_line x)
    (he : e.well_formed) (hh : is_line h) (hdecl : declares_content_type h v)
    (hlast : ∀ x ∈ hs2 ++ e.lines, strncasecmp_eq x "Content-Type:".toList 13 = false) :
    ∃ r, parse_http_request (request_text line (hs1 ++ h :: hs2) e) request = some r
      ∧ r.content_type = v.take 127
      ∧ (v.length ≤ 127 → r.content_type = v) := by
  have w := is_line_insert hs1 hs2 h hhs1 hhs2 ⟨declares_content_type_ne_nil h v hdecl, hh⟩
  have hct := final_state_content_type request hs1 hs2 h v e hdecl hlast
  refine ⟨_, parse_request_text line _ e request hline w he, ?_, ?_⟩
  · rw [finish_request_content_type, hct]
  · intro hlen
    rw [finish_request_content_type, hct, List.take_of_length_le hlen]

/-- Witness of C16: `content-type:` followed by three spaces and the value
`application/json ` with a space at its end. -/
theorem content_type_leading_spaces_skipped_witness :
    ∃ r, parse_http_request (request_text "POST /echo HTTP/1.1".toList
          (["Host: x".toList] ++ "content-type:   application/json ".toList
            :: ["Content-Length: 2".toList]) (HeaderEnd.blank "hi".toList)) zero_request = some r
      ∧ r.content_type = "application/json ".toList.take 127
      ∧ ("application/json ".toList.length ≤ 127 → r.content_type = "application/json ".toList) :=
  content_type_leading_spaces_skipped "POST /echo HTTP/1.1".toList
    "content-type:   application/json ".toList "application/json ".toList
    ["Host: x".toList] ["Content-Length: 2".toList] (HeaderEnd.blank "hi".toList) zero_request
    (by decide) (by decide) (by decide) (by decide) (by decide)
    ⟨"content-type:".toList, 3, by decide, by decide, by decide⟩ (by decide)

/-! ## Registered routes -/

theorem not_404_json_response (status_code : Int) (parts : List (List Char))
    (h : status_code ≠ 404) : not_404 (json_response status_code parts) := by
  intro response hr
  obtain ⟨r, h1, h2, _⟩ := json_response_status status_code parts
  rw [h1] at hr
  rw [← Except.ok.inj hr, h2]
  exact h

theorem not_404_error (e : Fault) : not_404 (Except.error e) := by
  intro response hr
  cases hr

theorem not_404_ok (response : HttpResponse) (h : response.status_code ≠ 404) :
    not_404 (Except.ok response) := by
  intro r hr
  rw [← Except.ok.inj hr]
  exact h

theorem not_404_handle_api_users_post (rand : Nat) (request : HttpRequest) :
    not_404 (handle_api_users_post rand request) := by
  unfold handle_api_users_post
  repeat' split
  all_goals first
    | exact not_404_error _
    | exact not_404_json_response _ _ (by decide)

theorem not_404_handle_api_login (request : HttpRequest) :
    not_404 (handle_api_login request) := by
  unfold handle_api_login
  repeat' split
  all_goals first
    | exact not_404_error _
    | exact not_404_json_response _ _ (by decide)

theorem not_404_handle_api_calculate (fq : Int → Int → List Char) (request : HttpRequest) :
    not_404 (handle_api_calculate fq request) := by
  unfold handle_api_calculate
  repeat' split
  all_goals first
    | exact not_404_error _
    | exact not_404_json_response _ _ (by decide)

theorem not_404_handle_api_weather (api_response : HTTPResponse) (request : HttpRequest) :
    not_404 (handle_api_weather api_response request) := by
  unfold handle_api_weather
  repeat' split
  all_goals first
    | exact not_404_error _
    | exact not_404_json_response _ _ (by decide)

theorem route_table_routes (env : Env) :
    (route_table env).map Prod.fst = registered_routes := rfl

theorem route_table_dispatch (env : Env) (request : HttpRequest)
    (entry : (HttpMethod × List Char) × (HttpRequest → Except Fault HttpResponse))
    (he : entry ∈ route_table env) (hm : request.method = entry.1.1)
    (hp : request.path = entry.1.2) : route_request env request = entry.2 request := by
  simp only [route_table, List.mem_cons, List.mem_nil_iff, or_false] at he
  unfold route_request
  rcases he with rfl | rfl | rfl | rfl | rfl | rfl | rfl | rfl | rfl | rfl | rfl | rfl | rfl
    | rfl | rfl | rfl | rfl | rfl
  all_goals
    simp only [] at hm hp
    rw [hm, hp]
    repeat (first | rw [if_pos rfl] | rw [if_neg (by decide)])

theorem not_404_json_handlers (env : Env) (request : HttpRequest) :
    not_404 (handle_api_health env.timestamp env.now request)
      ∧ not_404 (handle_api_users_get request)
      ∧ not_404 (handle_api_stats request)
      ∧ not_404 (handle_api_time env.iso env.date env.time_str env.now request)
      ∧ not_404 (handle_api_exchange_rates request)
      ∧ not_404 (handle_api_quote request)
      ∧ not_404 (handle_api_proxy request) := by
  refine ⟨?_, ?_, ?_, ?_, ?_, ?_, ?_⟩
  · unfold handle_api_health
    exact not_404_json_response _ _ (by decide)
  · unfold handle_api_users_get
    exact not_404_json_response _ _ (by decide)
  · unfold handle_api_stats
    exact not_404_json_response _ _ (by decide)
  · unfold handle_api_time
    exact not_404_json_response _ _ (by decide)
  · unfold handle_api_exchange_rates
    exact not_404_json_response _ _ (by decide)
  · unfold handle_api_quote
    exact not_404_json_response _ _ (by decide)
  · unfold handle_api_proxy
    exact not_404_json_response _ _ (by decide)

theorem not_404_page_handlers (env : Env) (request : HttpRequest) :
    (handle_root request).status_code = 200
      ∧ (handle_info request).status_code = 200
      ∧ (handle_image env.image_file request).status_code = 200
      ∧ (handle_echo request).status_code = 200 := by
  refine ⟨rfl, rfl, ?_, ?_⟩
  · unfold handle_image
    split <;> rfl
  · unfold handle_echo
    split
    · split <;> rfl
    · rfl

theorem route_table_not_404 (env : Env) (request : HttpRequest)
    (entry : (HttpMethod × List Char) × (HttpRequest → Except Fault HttpResponse))
    (he : entry ∈ route_table env) (h1 : entry.1.2 ≠ "/data".toList)
    (h2 : entry.1.2 ≠ "/glossary".toList) (h3 : entry.1.2 ≠ "/how-it-works".toList) :
    not_404 (entry.2 request) := by
  have j := not_404_json_handlers env request
  have p := not_404_page_handlers env request
  have ok : ∀ r : HttpResponse, r.status_code = 200 → not_404 (Except.ok r) := by
    intro r hr
    apply not_404_ok
    rw [hr]
    decide
  simp only [route_table, List.mem_cons, List.mem_nil_iff, or_false] at he
  rcases he with rfl | rfl | rfl | rfl | rfl | rfl | rfl | rfl | rfl | rfl | rfl | rfl | rfl
    | rfl | rfl | rfl | rfl | rfl
  all_goals dsimp only at h1 h2 h3 ⊢
  · exact ok (handle_root request) p.1
  · exact ok (handle_info request) p.2.1
  · exact absurd rfl h2
  · exact absurd rfl h3
  · exact ok (handle_image env.image_file request) p.2.2.1
  · exact j.1
  · exact j.2.1
  · exact j.2.2.1
  · exact j.2.2.2.1
  · exact not_404_handle_api_weather env.weather_response request
  · exact j.2.2.2.2.1
  · exact j.2.2.2.2.2.1
  · exact j.2.2.2.2.2.2
  · exact ok (handle_echo request) p.2.2.2
  · exact absurd rfl h1
  · exact not_404_handle_api_users_post env.rand request
  · exact not_404_handle_api_login request
  · exact not_404_handle_api_calculate env.format_quotient request

theorem handle_post_data_status (request : HttpRequest) :
    ((request.body = none ∨ request.body_length = 0)
        → handle_post_data request = handle_not_found request)
      ∧ ((handle_post_data request).status_code = 404
        ↔ (request.body = none ∨ request.body_length = 0)) := by
  unfold handle_post_data
  cases hb : request.body with
  | none =>
    simp only [true_or, true_implies, iff_true, true_and]
    rfl
  | some body =>
    simp only [reduceCtorEq, false_or]
    by_cases hl : 0 < request.body_length
    · rw [if_pos hl]
      refine ⟨fun h0 => by omega, ?_⟩
      constructor
      · intro h
        have h2 : (200 : Int) = 404 := h
        exact absurd h2 (by decide)
      · intro h0
        omega
    · rw [if_neg hl]
      refine ⟨fun _ => rfl, ?_⟩
      constructor
      · intro _
        omega
      · intro _
        rfl

theorem route_request_post_data (env : Env) (request : HttpRequest)
    (hm : request.method = HttpMethod.HTTP_POST) (hp : request.path = "/data".toList) :
    route_request env request = Except.ok (handle_post_data request) :=
  route_table_dispatch env request
    ((HttpMethod.HTTP_POST, "/data".toList), fun request => Except.ok (handle_post_data request))
    (by simp [route_table]) hm hp

/-- C18, as the claim reads: `POST /data` is a registered route, and a request
for it that carries no body is answered with the not-found response, status
404; the parser yields such a request from `POST /data HTTP/1.1`. -/
theorem registered_route_answers_not_found :
    (HttpMethod.HTTP_POST, "/data".toList) ∈ registered_routes
      ∧ parse_http_request "POST /data HTTP/1.1\r\n\r\n".toList zero_request
        = some (request_of HttpMethod.HTTP_POST "/data".toList)
      ∧ route_request sample_env (request_of HttpMethod.HTTP_POST "/data".toList)
        = Except.ok (handle_not_found (request_of HttpMethod.HTTP_POST "/data".toList))
      ∧ (handle_not_found (request_of HttpMethod.HTTP_POST "/data".toList)).status_code
        = 404 :=
  ⟨by decide, by decide, rfl, rfl⟩

/-- C18: for every request, (1) the branches of `route_request` are the
registered routes, and a request whose method and path equal a registered
route gets the result of the handler call of that route; (2) for `POST /data`
without a body (or with `body_length` 0) that result is the not-found
response; (3) on every registered route whose handler the sources define, the
response has status 404 exactly in case (2). -/
theorem registered_route_dispatch (env : Env) (request : HttpRequest) :
    (route_table env).map Prod.fst = registered_routes
      ∧ (∀ entry ∈ route_table env, request.method = entry.1.1 → request.path = entry.1.2 →
          route_request env request = entry.2 request)
      ∧ (request.method = HttpMethod.HTTP_POST → request.path = "/data".toList →
          (request.body = none ∨ request.body_length = 0) →
          route_request env request = Except.ok (handle_not_found request))
      ∧ (∀ response, (request.method, request.path) ∈ registered_routes →
          request.path ≠ "/glossary".toList → request.path ≠ "/how-it-works".toList →
          route_request env request = Except.ok response →
          (response.status_code = 404
            ↔ request.method = HttpMethod.HTTP_POST ∧ request.path = "/data".toList
              ∧ (request.body = none ∨ request.body_length = 0))) := by
  refine ⟨rfl, fun entry he hm hp => route_table_dispatch env request entry he hm hp, ?_, ?_⟩
  · intro hm hp hb
    rw [route_request_post_data env request hm hp,
      (handle_post_data_status request).1 hb]
  · intro response hmem hg hh hr
    have hmem2 : (request.method, request.path) ∈ (route_table env).map Prod.fst := by
      rw [route_table_routes]
      exact hmem
    obtain ⟨entry, he, heq⟩ := List.mem_map.mp hmem2
    have hm : request.method = entry.1.1 := by rw [heq]
    have hp : request.path = entry.1.2 := by rw [heq]
    by_cases hd : request.path = "/data".toList
    · have hpost : request.method = HttpMethod.HTTP_POST := by
        simp only [registered_routes, List.mem_cons, Prod.mk.injEq, List.mem_nil_iff,
          or_false] at hmem
        rcases hmem with h | h | h | h | h | h | h | h | h | h | h | h | h | h | h | h | h | h
        all_goals first
          | exact h.1
          | exact absurd (hd.symm.trans h.2) (by decide)
      rw [route_request_post_data env request hpost hd] at hr
      rw [← Except.ok.inj hr, (handle_post_data_status request).2]
      constructor
      · intro h
        exact ⟨hpost, hd, h⟩
      · intro h
        exact h.2.2
    · have hn := route_table_not_404 env request entry he (hp ▸ hd) (hp ▸ hg) (hp ▸ hh)
      rw [route_table_dispatch env request entry he hm hp] at hr
      constructor
      · intro h
        exact absurd h (hn response hr)
      · intro h
        exact absurd h.2.1 hd

/-- Instances of C18: `GET /info`, `POST /echo` and `POST /data` with a body are
answered by their handlers with status 200. -/
theorem registered_route_dispatch_example :
    (route_request sample_env (request_of HttpMethod.HTTP_GET "/info".toList)).map
        (fun r => r.status_code) = Except.ok 200
      ∧ (route_request sample_env (post_request "/echo".toList "hi".toList)).map
        (fun r => r.status_code) = Except.ok 200
      ∧ (route_request sample_env (post_request "/data".toList "hi".toList)).map
        (fun r => r.status_code) = Except.ok 200 :=
  ⟨rfl, rfl, rfl⟩

/-! ## The port argument of `main` -/

theorem atoi_not_numeric (arg : List Char)
    (h : ∀ c, arg.head? = some c →
      isspace c = false ∧ c ≠ '-' ∧ c ≠ '+' ∧ isdigit c = false) : atoi arg = 0 := by
  cases arg with
  | nil => decide
  | cons c t =>
    obtain ⟨h1, h2, h3, h4⟩ := h c rfl
    unfold atoi
    have e1 : (c :: t).dropWhile isspace = c :: t := by
      rw [List.dropWhile_cons_of_neg (by simp [h1])]
    have e2 : (c :: t).takeWhile isdigit = [] := by
      rw [List.takeWhile_cons_of_neg (by simp [h4])]
    simp only [e1, List.head?_cons, Option.some.injEq, h2, h3, or_self, if_false, e2,
      decide_False]
    decide

/-- C20, as the claim reads: the argument `8080x` is not a decimal integer, yet
`main` calls `start_http_server` with port 8080 and returns the exit status 0
when the server returns 0; so it does for ` 80` and `+80`, on port 80. -/
theorem main_accepts_trailing_text :
    main ["server".toList, "8080x".toList] (fun _ => 0)
        = { started := some 8080, exit_status := 0 }
      ∧ main ["server".toList, " 80".toList] (fun _ => 0)
        = { started := some 80, exit_status := 0 }
      ∧ main ["server".toList, "+80".toList] (fun _ => 0)
        = { started := some 80, exit_status := 0 } := by
  decide

/-- C20: for every argument list and every server, (1) without an argument
`main` starts the server on port 8080; (2) with an argument it returns the
exit status 1 without starting the server exactly when the value `atoi` reads
from the argument is at most 0 or above 65535, and otherwise starts the server
on that value; the exit status is then 0 iff the server returned 0; (3) the
value read from white space, the decimal text of an `int` and text that does
not begin with a digit is that `int`; (4) the value read from text that begins
with neither white space, a sign nor a digit is 0. -/
theorem main_port_check (prog arg : List Char) (rest : List (List Char))
    (start_http_server : Int → Int) :
    (main [] start_http_server).started = some 8080
      ∧ main [prog] start_http_server
        = { started := some 8080, exit_status := if start_http_server 8080 = 0 then 0 else 1 }
      ∧ ((atoi arg ≤ 0 ∨ 65535 < atoi arg) →
          main (prog :: arg :: rest) start_http_server = { started := none, exit_status := 1 })
      ∧ (0 < atoi arg → atoi arg ≤ 65535 →
          main (prog :: arg :: rest) start_http_server
            = { started := some (atoi arg),
                exit_status := if start_http_server (atoi arg) = 0 then 0 else 1 })
      ∧ (∀ ws junk d, arg = ws ++ (decimal_int d ++ junk) → ws.all isspace = true →
          junk.takeWhile isdigit = [] → in_int d → atoi arg = d)
      ∧ ((∀ c, arg.head? = some c →
            isspace c = false ∧ c ≠ '-' ∧ c ≠ '+' ∧ isdigit c = false) →
          main (prog :: arg :: rest) start_http_server
            = { started := none, exit_status := 1 }) := by
  refine ⟨rfl, rfl, ?_, ?_, ?_, ?_⟩
  · intro h
    simp only [main]
    rw [if_pos (by omega)]
  · intro h1 h2
    simp only [main]
    rw [if_neg (by omega)]
  · intro ws junk d e hws hj hd
    rw [e]
    exact atoi_decimal_int ws junk d hws hj hd
  · intro h
    simp only [main]
    rw [atoi_not_numeric arg h]
    rfl

/-- Instances of C20: the arguments `abc`, `0`, `-5`, `65536` and the empty
text are rejected, `1` and `65535` are accepted, and a server that returns -1
gives the exit status 1. -/
theorem main_port_check_example :
    main ["server".toList, "abc".toList] (fun _ => 0) = { started := none, exit_status := 1 }
      ∧ main ["server".toList, "0".toList] (fun _ => 0) = { started := none, exit_status := 1 }
      ∧ main ["server".toList, "-5".toList] (fun _ => 0) = { started := none, exit_status := 1 }
      ∧ main ["server".toList, "65536".toList] (fun _ => 0)
        = { started := none, exit_status := 1 }
      ∧ main ["server".toList, [] ] (fun _ => 0) = { started := none, exit_status := 1 }
      ∧ main ["server".toList, "1".toList] (fun _ => 0) = { started := some 1, exit_status := 0 }
      ∧ main ["server".toList, "65535".toList] (fun _ => 0)
        = { started := some 65535, exit_status := 0 }
      ∧ main ["server".toList] (fun _ => -1) = { started := some 8080, exit_status := 1 } := by
  decide

/-! ## The body length of the responses -/

theorem route_request_unregistered (env : Env) (request : HttpRequest)
    (h : (request.method, request.path) ∉ registered_routes) :
    route_request env request = Except.ok (handle_not_found request) := by
  unfold route_request
  cases hm : request.method with
  | HTTP_GET =>
    rw [hm] at h
    simp only [registered_routes, List.mem_cons, Prod.mk.injEq, true_and, false_and,
      false_or, List.mem_nil_iff, or_false, not_or, reduceCtorEq] at h
    obtain ⟨h1, h2, h3, h4, h5, h6, h7, h8, h9, h10, h11, h12, h13⟩ := h
    simp only [if_true, if_neg h1, if_neg h2, if_neg h3, if_neg h4, if_neg h5, if_neg h6,
      if_neg h7, if_neg h8, if_neg h9, if_neg h10, if_neg h11, if_neg h12, if_neg h13]
  | HTTP_POST =>
    rw [hm] at h
    simp only [registered_routes, List.mem_cons, Prod.mk.injEq, true_and, false_and,
      false_or, List.mem_nil_iff, or_false, not_or, reduceCtorEq] at h
    obtain ⟨h1, h2, h3, h4, h5⟩ := h
    simp only [reduceCtorEq, if_false, if_true, if_neg h1, if_neg h2, if_neg h3, if_neg h4,
      if_neg h5]
  | HTTP_UNKNOWN => simp only [reduceCtorEq, if_false]

theorem route_request_cases (env : Env) (request : HttpRequest)
    (P : Except Fault HttpResponse → Prop)
    (h1 : ∀ entry ∈ route_table env, request.method = entry.1.1 → request.path = entry.1.2 →
      P (entry.2 request))
    (h2 : P (Except.ok (handle_not_found request))) : P (route_request env request) := by
  by_cases hmem : (request.method, request.path) ∈ registered_routes
  · have hmem2 : (request.method, request.path) ∈ (route_table env).map Prod.fst := by
      rw [route_table_routes]
      exact hmem
    obtain ⟨entry, he, heq⟩ := List.mem_map.mp hmem2
    have hm : request.method = entry.1.1 := by rw [heq]
    have hp : request.path = entry.1.2 := by rw [heq]
    rw [route_table_dispatch env request entry he hm hp]
    exact h1 entry he hm hp
  · rw [route_request_unregistered env request hmem]
    exact h2

theorem sized_json_response (status_code : Int) (parts : List (List Char)) :
    sized (json_response status_code parts) := by
  intro response hr
  rw [json_response_ok] at hr
  rw [← Except.ok.inj hr]
  exact ⟨_, rfl, rfl⟩

theorem sized_error (e : Fault) : sized (Except.error e) := by
  intro response hr
  cases hr

theorem sized_ok (response : HttpResponse) (h : body_sized response) :
    sized (Except.ok response) := by
  intro r hr
  rw [← Except.ok.inj hr]
  exact h

theorem sized_handle_api_users_post (rand : Nat) (request : HttpRequest) :
    sized (handle_api_users_post rand request) := by
  unfold handle_api_users_post
  repeat' split
  all_goals first
    | exact sized_error _
    | exact sized_json_response _ _

theorem sized_handle_api_login (request : HttpRequest) :
    sized (handle_api_login request) := by
  unfold handle_api_login
  repeat' split
  all_goals first
    | exact sized_error _
    | exact sized_json_response _ _

theorem sized_handle_api_calculate (fq : Int → Int → List Char) (request : HttpRequest) :
    sized (handle_api_calculate fq request) := by
  unfold handle_api_calculate
  repeat' split
  all_goals first
    | exact sized_error _
    | exact sized_json_response _ _

theorem sized_handle_api_weather (api_response : HTTPResponse) (request : HttpRequest) :
    sized (handle_api_weather api_response request) := by
  unfold handle_api_weather
  repeat' split
  all_goals first
    | exact sized_error _
    | exact sized_json_response _ _

theorem sized_json_handlers (env : Env) (request : HttpRequest) :
    sized (handle_api_health env.timestamp env.now request)
      ∧ sized (handle_api_users_get request)
      ∧ sized (handle_api_stats request)
      ∧ sized (handle_api_time env.iso env.date env.time_str env.now request)
      ∧ sized (handle_api_exchange_rates request)
      ∧ sized (handle_api_quote request)
      ∧ sized (handle_api_proxy request) := by
  refine ⟨?_, ?_, ?_, ?_, ?_, ?_, ?_⟩
  · unfold handle_api_health
    exact sized_json_response _ _
  · unfold handle_api_users_get
    exact sized_json_response _ _
  · unfold handle_api_stats
    exact sized_json_response _ _
  · unfold handle_api_time
    exact sized_json_response _ _
  · unfold handle_api_exchange_rates
    exact sized_json_response _ _
  · unfold handle_api_quote
    exact sized_json_response _ _
  · unfold handle_api_proxy
    exact sized_json_response _ _

theorem body_sized_mk (status_code : Int) (content_type body : List Char) :
    body_sized { status_code := status_code, content_type := content_type, body := some body,
                 body_length := body.length } :=
  ⟨body, rfl, rfl⟩

theorem body_sized_page_handlers (env : Env) (request : HttpRequest) :
    body_sized (handle_root request)
      ∧ body_sized (handle_info request)
      ∧ body_sized (handle_image env.image_file request)
      ∧ body_sized (handle_echo request)
      ∧ body_sized (handle_not_found request)
      ∧ body_sized (handle_post_data request) := by
  have nf : body_sized (handle_not_found request) := by
    unfold handle_not_found
    exact body_sized_mk _ _ _
  refine ⟨?_, ?_, ?_, ?_, nf, ?_⟩
  · unfold handle_root
    exact body_sized_mk _ _ _
  · unfold handle_info
    exact body_sized_mk _ _ _
  · unfold handle_image
    split
    · exact body_sized_mk _ _ _
    · exact body_sized_mk _ _ _
  · unfold handle_echo
    split
    · split
      · exact body_sized_mk _ _ _
      · exact body_sized_mk _ _ _
    · exact body_sized_mk _ _ _
  · unfold handle_post_data
    split
    · split
      · exact body_sized_mk _ _ _
      · exact nf
    · exact nf

theorem route_table_sized (env : Env) (request : HttpRequest)
    (entry : (HttpMethod × List Char) × (HttpRequest → Except Fault HttpResponse))
    (he : entry ∈ route_table env)
    (h2 : entry.1.2 ≠ "/glossary".toList) (h3 : entry.1.2 ≠ "/how-it-works".toList) :
    sized (entry.2 request) := by
  have j := sized_json_handlers env request
  have p := body_sized_page_handlers env request
  simp only [route_table, List.mem_cons, List.mem_nil_iff, or_false] at he
  rcases he with rfl | rfl | rfl | rfl | rfl | rfl | rfl | rfl | rfl | rfl | rfl | rfl | rfl
    | rfl | rfl | rfl | rfl | rfl
  all_goals dsimp only at h2 h3 ⊢
  · exact sized_ok (handle_root request) p.1
  · exact sized_ok (handle_info request) p.2.1
  · exact absurd rfl h2
  · exact absurd rfl h3
  · exact sized_ok (handle_image env.image_file request) p.2.2.1
  · exact j.1
  · exact j.2.1
  · exact j.2.2.1
  · exact j.2.2.2.1
  · exact sized_handle_api_weather env.weather_response request
  · exact j.2.2.2.2.1
  · exact j.2.2.2.2.2.1
  · exact j.2.2.2.2.2.2
  · exact sized_ok (handle_echo request) p.2.2.2.1
  · exact sized_ok (handle_post_data request) p.2.2.2.2.2
  · exact sized_handle_api_users_post env.rand request
  · exact sized_handle_api_login request
  · exact sized_handle_api_calculate env.format_quotient request

/-- C21: for every request that `route_request` answers through a handler the
sources define (every route but `/glossary` and `/how-it-works`, whose handlers
no source file defines, and the not-found handler included), the response has a
body and its `body_length` is the number of bytes of that body; the image file
read by `read_image_file` is a byte sequence with its exact size. -/
theorem body_length_is_body_size (env : Env) (request : HttpRequest) (response : HttpResponse)
    (hg : request.path ≠ "/glossary".toList) (hh : request.path ≠ "/how-it-works".toList)
    (hr : route_request env request = Except.ok response) :
    ∃ body, response.body = some body ∧ response.body_length = body.length := by
  have key : sized (route_request env request) := by
    apply route_request_cases env request sized
    · intro entry he _ hp
      exact route_table_sized env request entry he (hp ▸ hg) (hp ▸ hh)
    · exact sized_ok _ (body_sized_page_handlers env request).2.2.2.2.1
  exact key response hr

/-- Witness of C21: the responses to `POST /echo` with the body `hi` and to
`GET /nope` (the not-found page). -/
theorem body_length_is_body_size_witness :
    (∃ body, (handle_echo (post_request "/echo".toList "hi".toList)).body = some body
        ∧ (handle_echo (post_request "/echo".toList "hi".toList)).body_length = body.length)
      ∧ (∃ body, (handle_not_found (request_of HttpMethod.HTTP_GET "/nope".toList)).body
          = some body
        ∧ (handle_not_found (request_of HttpMethod.HTTP_GET "/nope".toList)).body_length
          = body.length) :=
  ⟨body_length_is_body_size sample_env (post_request "/echo".toList "hi".toList)
      (handle_echo (post_request "/echo".toList "hi".toList)) (by decide) (by decide) rfl,
    body_length_is_body_size sample_env (request_of HttpMethod.HTTP_GET "/nope".toList)
      (handle_not_found (request_of HttpMethod.HTTP_GET "/nope".toList)) (by decide)
      (by decide) rfl⟩

/-! ## The steps of the connection handler and of the serializer -/

theorem filter_is_recv_send (calls : List SendCall) :
    (calls.map ConnEvent.send).filter ConnEvent.is_recv = [] := by
  induction calls with
  | nil => rfl
  | cons c cs ih =>
    rw [List.map_cons, List.filter_cons_of_neg (by simp [ConnEvent.is_recv])]
    exact ih

theorem handle_client_connection_events_recv (env : Env) (sock : Socket) (r : RecvResult) :
    ∃ tail, handle_client_connection_events env sock r = ConnEvent.recv 65535 :: tail
      ∧ tail.filter ConnEvent.is_recv = [] := by
  cases r with
  | failed => exact ⟨[], rfl, rfl⟩
  | closed => exact ⟨[], rfl, rfl⟩
  | data bytes =>
    refine ⟨_, rfl, ?_⟩
    rw [List.filter_cons_of_neg (by simp [ConnEvent.is_recv])]
    cases parse_http_request (bytes ++ [NUL]) zero_request with
    | none => rfl
    | some request =>
      simp only []
      rw [List.filter_cons_of_neg (by simp [ConnEvent.is_recv])]
      cases route_request env request with
      | error e => rfl
      | ok response =>
        simp only []
        rw [List.filter_cons_of_neg (by simp [ConnEvent.is_recv])]
        exact filter_is_recv_send _

/-- C22: in `handle_client_connection`, when the call of `recv` fails or
returns zero bytes, the call of `recv` is the only step: the parser, the router
and the serializer are not called and `send` is not called; and for every
result of `recv`, the steps of the function hold exactly one call of `recv`,
the first step. -/
theorem no_work_without_data (env : Env) (sock : Socket) (r : RecvResult) :
    handle_client_connection_events env sock RecvResult.failed = [ConnEvent.recv 65535]
      ∧ handle_client_connection_events env sock RecvResult.closed = [ConnEvent.recv 65535]
      ∧ handle_client_connection env sock RecvResult.failed = Except.ok []
      ∧ handle_client_connection env sock RecvResult.closed = Except.ok []
      ∧ (r = RecvResult.failed ∨ r = RecvResult.closed →
          (handle_client_connection_events env sock r).filter ConnEvent.is_work = [])
      ∧ ((handle_client_connection_events env sock r).filter ConnEvent.is_recv).length = 1
      ∧ (handle_client_connection_events env sock r).head? = some (ConnEvent.recv 65535) := by
  refine ⟨rfl, rfl, rfl, rfl, ?_, ?_, ?_⟩
  · rintro (h | h) <;> rw [h] <;> rfl
  · obtain ⟨tail, h1, h2⟩ := handle_client_connection_events_recv env sock r
    rw [h1, List.filter_cons_of_pos (by rfl), h2]
    rfl
  · obtain ⟨tail, h1, _⟩ := handle_client_connection_events_recv env sock r
    rw [h1]
    rfl

/-- Instance of C22: on received bytes the steps are the call of `recv`, the
parser, the router, the serializer and its call of `send` (here on a socket
whose `send` fails): one `recv`. -/
theorem no_work_without_data_example :
    (handle_client_connection_events sample_env failing_send
        (RecvResult.data "BREW /pot HTTP/1.1\r\n\r\n".toList)).map
        (fun e => (e.is_recv, e.is_work))
      = [(true, false), (false, true), (false, true), (false, true), (false, true)] := by
  rfl

theorem send_http_response_calls (sock : Socket) (r : HttpResponse) :
    send_http_response sock r
      = { buf := snprintf 1024 (header_text r.status_code (status_message r.status_code)
              r.content_type r.body_length),
          len := (header_text r.status_code (status_message r.status_code)
              r.content_type r.body_length).length,
          ret := sock (snprintf 1024 (header_text r.status_code (status_message r.status_code)
              r.content_type r.body_length))
            (header_text r.status_code (status_message r.status_code)
              r.content_type r.body_length).length }
        :: (if sock (snprintf 1024 (header_text r.status_code (status_message r.status_code)
                r.content_type r.body_length))
              (header_text r.status_code (status_message r.status_code)
                r.content_type r.body_length).length < 0 then []
            else match r.body with
              | some body =>
                if 0 < r.body_length then
                  [{ buf := body, len := r.body_length, ret := sock body r.body_length }]
                else []
              | none => []) := by
  unfold send_http_response
  simp only []
  by_cases hs : sock (snprintf 1024 (header_text r.status_code (status_message r.status_code)
      r.content_type r.body_length))
      (header_text r.status_code (status_message r.status_code)
        r.content_type r.body_length).length < 0
  · rw [if_pos hs, if_pos hs]
  · rw [if_neg hs, if_neg hs]
    cases r.body with
    | none => rfl
    | some body =>
      simp only []
      by_cases hl : 0 < r.body_length
      · rw [if_pos hl, if_pos hl]
      · rw [if_neg hl, if_neg hl]

/-- C23: for every socket and every response, `send_http_response` first calls
`send` on the header buffer; if that call returns a negative value it is the
only call; a second call of `send` is made only when the body is present and
`body_length > 0`, and it is then the call on the body with the length
`body_length`; there is never a third call. -/
theorem body_sent_only_after_headers (sock : Socket) (r : HttpResponse) :
    ∃ first rest, send_http_response sock r = first :: rest
      ∧ first.buf = snprintf 1024 (header_text r.status_code (status_message r.status_code)
          r.content_type r.body_length)
      ∧ first.ret = sock first.buf first.len
      ∧ (first.ret < 0 → rest = [])
      ∧ (r.body = none ∨ r.body_length = 0 → rest = [])
      ∧ (rest ≠ [] → ∃ body, r.body = some body ∧ 0 < r.body_length ∧ 0 ≤ first.ret
          ∧ rest = [{ buf := body, len := r.body_length, ret := sock body r.body_length }])
      ∧ (∀ body, r.body = some body → 0 < r.body_length → 0 ≤ first.ret →
          rest = [{ buf := body, len := r.body_length, ret := sock body r.body_length }]) := by
  refine ⟨_, _, send_http_response_calls sock r, rfl, rfl, ?_, ?_, ?_, ?_⟩
  all_goals dsimp only
  all_goals generalize (sock (snprintf 1024 (header_text r.status_code
      (status_message r.status_code) r.content_type r.body_length))
      (header_text r.status_code (status_message r.status_code)
        r.content_type r.body_length).length) = sent
  · intro h
    rw [if_pos h]
  · intro h
    by_cases hs : sent < 0
    · rw [if_pos hs]
    · rw [if_neg hs]
      rcases h with h | h
      · rw [h]
      · cases r.body with
        | none => rfl
        | some body =>
          dsimp only
          rw [if_neg (by omega)]
  · intro h
    by_cases hs : sent < 0
    · rw [if_pos hs] at h
      exact absurd rfl h
    · rw [if_neg hs] at h
      rw [if_neg hs]
      cases hb : r.body with
      | none =>
        rw [hb] at h
        exact absurd rfl h
      | some body =>
        rw [hb] at h
        dsimp only at h ⊢
        by_cases hl : 0 < r.body_length
        · refine ⟨body, rfl, hl, by omega, ?_⟩
          rw [if_pos hl]
        · rw [if_neg hl] at h
          exact absurd rfl h
  · intro body hb hl h0
    rw [if_neg (by omega), hb]
    dsimp only
    rw [if_pos hl]

/-- Instances of C23: on a socket whose `send` fails, a response with a body
gives one call of `send`; on a socket that writes everything it gives two, and
a response without a body gives one. -/
theorem body_sent_only_after_headers_example :
    (send_http_response failing_send
        { status_code := 200, content_type := "text/plain".toList, body := some "ok".toList,
          body_length := 2 }).length = 1
      ∧ (send_http_response full_send
        { status_code := 200, content_type := "text/plain".toList, body := some "ok".toList,
          body_length := 2 }).length = 2
      ∧ (send_http_response full_send
        { status_code := 200, content_type := "text/plain".toList, body := none,
          body_length := 0 }).length = 1 := by
  decide

/-! ## Totality of the parser -/

theorem strchr_none_of_not_mem (l : List Char) (c : Char) (h : c ∉ l) : strchr l c = none := by
  induction l with
  | nil => rfl
  | cons x l ih =>
    simp only [List.mem_cons, not_or] at h
    have hx : ¬ x = c := fun e => h.1 e.symm
    simp only [strchr, hx, if_false, ih h.2]
    rfl

theorem strchr_count (l : List Char) (c : Char) (i : Nat) (h : strchr l c = some i) :
    List.count c (l.drop (i + 1)) + 1 = List.count c l := by
  induction l generalizing i with
  | nil => simp [strchr] at h
  | cons x l ih =>
    by_cases hx : x = c
    · simp only [strchr, hx, if_true, Option.some.injEq] at h
      subst h
      subst hx
      simp
    · simp only [strchr, hx, if_false] at h
      cases hs : strchr l c with
      | none => simp [hs] at h
      | some k =>
        rw [hs] at h
        simp only [Option.map_some', Option.some.injEq] at h
        subst h
        have := ih k hs
        rw [List.drop_succ_cons, List.count_cons_of_ne (fun e => hx e.symm)]
        exact this

theorem parse_path_few_spaces (line path : List Char) (h : List.count ' ' line < 2) :
    parse_path line path = path := by
  unfold parse_path
  cases h1 : strchr line ' ' with
  | none => rfl
  | some i =>
    dsimp only
    have hc := strchr_count line ' ' i h1
    have h0 : ' ' ∉ line.drop (i + 1) := by
      intro hm
      have := List.count_pos_iff.mpr hm
      omega
    rw [strchr_none_of_not_mem _ _ h0]

/-- C24: `parse_http_request` is total: for every input buffer it returns a
request.  Called on the zeroed request, it yields the method UNKNOWN when the
request line begins with neither `GET` nor `POST`, the empty path when the
request line holds fewer than two spaces, and no body (with `body_length` 0)
unless the method is POST; so input with none of these has the method UNKNOWN,
the empty path and no body. -/
theorem parse_http_request_never_fails (raw : List Char) (request : HttpRequest) :
    (∃ r, parse_http_request raw request = some r)
      ∧ ∃ r, parse_http_request raw zero_request = some r
        ∧ (¬ "GET".toList <+: request_line raw → ¬ "POST".toList <+: request_line raw →
            r.method = HttpMethod.HTTP_UNKNOWN)
        ∧ (List.count ' ' (request_line raw) < 2 → r.path = [])
        ∧ (r.method ≠ HttpMethod.HTTP_POST → r.body = none ∧ r.body_length = 0)
        ∧ (¬ "GET".toList <+: request_line raw → ¬ "POST".toList <+: request_line raw →
            List.count ' ' (request_line raw) < 2 →
            r.method = HttpMethod.HTTP_UNKNOWN ∧ r.path = [] ∧ r.body = none
              ∧ r.body_length = 0) := by
  refine ⟨parse_http_request_total raw request, ?_⟩
  obtain ⟨st, hst⟩ := parse_http_request_eq_finish raw zero_request
  have hm : ¬ "GET".toList <+: request_line raw → ¬ "POST".toList <+: request_line raw →
      (finish_request zero_request (request_line raw) st).method = HttpMethod.HTTP_UNKNOWN := by
    intro hg hp
    rw [finish_request_method]
    unfold parse_method
    have e1 : strncmp_eq (request_line raw) "GET".toList 3 = false := by
      cases h : strncmp_eq (request_line raw) "GET".toList 3 with
      | false => rfl
      | true => exact absurd (( strncmp_eq_iff_prefix _ "GET".toList).mp h) hg
    have e2 : strncmp_eq (request_line raw) "POST".toList 4 = false := by
      cases h : strncmp_eq (request_line raw) "POST".toList 4 with
      | false => rfl
      | true => exact absurd (( strncmp_eq_iff_prefix _ "POST".toList).mp h) hp
    rw [e1, e2]
    rfl
  have hpath : List.count ' ' (request_line raw) < 2 →
      (finish_request zero_request (request_line raw) st).path = [] := by
    intro hc
    rw [finish_request_path, parse_path_few_spaces _ _ hc]
    rfl
  have hbody : (finish_request zero_request (request_line raw) st).method
        ≠ HttpMethod.HTTP_POST →
      (finish_request zero_request (request_line raw) st).body = none
        ∧ (finish_request zero_request (request_line raw) st).body_length = 0 := by
    intro hne
    rw [finish_request_method] at hne
    exact finish_request_no_body zero_request (request_line raw) st (fun c => hne c.1)
  refine ⟨_, hst, hm, hpath, hbody, ?_⟩
  intro hg hp hc
  have h1 := hm hg hp
  exact ⟨h1, hpath hc, hbody (by rw [h1]; decide)⟩

/-- Instances of C24: the empty buffer, text without CRLF and without space, a
request line without CRLF, and a header section without an empty line. -/
theorem parse_http_request_never_fails_example :
    parse_http_request [] zero_request = some (request_of HttpMethod.HTTP_UNKNOWN [])
      ∧ parse_http_request "garbage".toList zero_request
        = some (request_of HttpMethod.HTTP_UNKNOWN [])
      ∧ parse_http_request "GET /x HTTP/1.1".toList zero_request
        = some (request_of HttpMethod.HTTP_GET "/x".toList)
      ∧ parse_http_request "POST /x HTTP/1.1\r\nContent-Length: 3".toList zero_request
        = some (request_of HttpMethod.HTTP_POST "/x".toList)
      ∧ parse_http_request "\r\n\r\n".toList zero_request
        = some (request_of HttpMethod.HTTP_UNKNOWN []) := by
  decide

/-! ## The echo page -/

theorem snprintf_length_le (size : Nat) (s : List Char) :
    (snprintf size s).length ≤ size - 1 := by
  unfold snprintf
  rw [List.length_take]
  omega

set_option maxRecDepth 100000 in
theorem echo_html_parts :
    ∃ a b c d : List Char,
      (∀ content_type body_length body, echo_html content_type body_length body
        = snprintf 8192 (a ++ content_type ++ b ++ decimal body_length ++ c ++ body ++ d))
      ∧ a.length + b.length + c.length + d.length = 691 := by
  have h0 : (echo_html [] 0 []).length = 692 := by decide
  unfold echo_html at h0
  refine ⟨_, _, _, _, fun content_type body_length body => rfl, ?_⟩
  generalize (String.join _).toList = a at h0 ⊢
  generalize (String.join _).toList = b at h0 ⊢
  generalize (String.join _).toList = c at h0 ⊢
  generalize (String.join _).toList = d at h0 ⊢
  have hd : (decimal 0).length = 1 := by decide
  simp only [snprintf, List.length_take, List.length_append, List.length_nil, hd] at h0
  omega

theorem echo_html_length (content_type body : List Char) (body_length : Nat) :
    (echo_html content_type body_length body).length
      = min 8191 (691 + content_type.length + (decimal body_length).length + body.length) := by
  obtain ⟨a, b, c, d, h, hl⟩ := echo_html_parts
  rw [h]
  simp only [snprintf, List.length_take, List.length_append]
  omega

theorem echo_html_infix (content_type body : List Char) (body_length : Nat)
    (hfit : 691 + content_type.length + (decimal body_length).length + body.length ≤ 8191) :
    ∃ pre post, echo_html content_type body_length body = pre ++ body ++ post := by
  obtain ⟨a, b, c, d, h, hl⟩ := echo_html_parts
  refine ⟨a ++ content_type ++ b ++ decimal body_length ++ c, d, ?_⟩
  rw [h]
  apply snprintf_of_fits
  simp only [List.length_append]
  omega

theorem handle_echo_of_body (request : HttpRequest) (b : List Char)
    (hb : request.body = some b) (hl : 0 < request.body_length) :
    handle_echo request
      = { status_code := 200, content_type := "text/html; charset=utf-8".toList,
          body := some (echo_html
            (if request.content_type ≠ [] then request.content_type
              else "not specified".toList) request.body_length b),
          body_length := (echo_html
            (if request.content_type ≠ [] then request.content_type
              else "not specified".toList) request.body_length b).length } := by
  unfold handle_echo
  rw [hb]
  dsimp only
  rw [if_pos hl]

/-- C25, as the claim reads: for a body of 8192 bytes `a` the response body,
formatted by `snprintf` into a buffer of 8192 bytes, has at most 8191 bytes and
does not contain the request body. -/
theorem echo_truncates_long_body :
    ∃ html, (handle_echo (post_request "/echo".toList (List.replicate 8192 'a'))).body
        = some html
      ∧ html.length ≤ 8191
      ∧ ¬ List.replicate 8192 'a' <:+: html := by
  have hl : 0 < (post_request "/echo".toList (List.replicate 8192 'a')).body_length := by
    have e : (post_request "/echo".toList (List.replicate 8192 'a')).body_length
        = (List.replicate 8192 'a').length := rfl
    rw [e, List.length_replicate]
    omega
  rw [handle_echo_of_body _ (List.replicate 8192 'a') rfl hl]
  refine ⟨_, rfl, snprintf_length_le 8192 _, ?_⟩
  intro h
  have h1 := h.length_le
  have h3 := snprintf_length_le 8192
  rw [List.length_replicate] at h1
  have h4 := echo_html_length
    (if (post_request "/echo".toList (List.replicate 8192 'a')).content_type ≠ [] then
      (post_request "/echo".toList (List.replicate 8192 'a')).content_type
      else "not specified".toList)
    (List.replicate 8192 'a')
    (post_request "/echo".toList (List.replicate 8192 'a')).body_length
  omega

/-- C25: for every request with a body `b` and `body_length > 0`, `handle_echo`
returns status 200 and the echo page, the first 8191 bytes of the text
formatted from the content type, `body_length` and `b`; the page contains `b`
in full when the 691 bytes of the template, the content type, the decimal text
of `body_length` and `b` fit into 8191 bytes.  Without a body (or with
`body_length` 0) it returns status 200 and the text
`No body received in POST request`. -/
theorem echo_page (request : HttpRequest) :
    (∀ b, request.body = some b → 0 < request.body_length →
        handle_echo request
          = { status_code := 200, content_type := "text/html; charset=utf-8".toList,
              body := some (echo_html
                (if request.content_type ≠ [] then request.content_type
                  else "not specified".toList) request.body_length b),
              body_length := (echo_html
                (if request.content_type ≠ [] then request.content_type
                  else "not specified".toList) request.body_length b).length }
          ∧ (echo_html
              (if request.content_type ≠ [] then request.content_type
                else "not specified".toList) request.body_length b).length ≤ 8191
          ∧ (691 + (if request.content_type ≠ [] then request.content_type
                else "not specified".toList).length
              + (decimal request.body_length).length + b.length ≤ 8191 →
            ∃ pre post, echo_html
              (if request.content_type ≠ [] then request.content_type
                else "not specified".toList) request.body_length b = pre ++ b ++ post))
      ∧ (request.body = none ∨ request.body_length = 0 →
          handle_echo request
            = { status_code := 200, content_type := "text/plain".toList,
                body := some "No body received in POST request".toList,
                body_length := 32 }) := by
  constructor
  · intro b hb hl
    exact ⟨handle_echo_of_body request b hb hl, snprintf_length_le 8192 _,
      fun hfit => echo_html_infix _ _ _ hfit⟩
  · intro h
    unfold handle_echo
    cases hb : request.body with
    | none => rfl
    | some b =>
      rcases h with h | h
      · rw [hb] at h
        cases h
      · dsimp only
        rw [if_neg (by omega)]
        rfl

set_option maxRecDepth 100000 in
/-- Instances of C25: the page for the body `hi` holds `<pre>hi</pre>`, and a
POST request without a body gets the plain text. -/
theorem echo_page_example :
    ((handle_echo (post_request "/echo".toList "hi".toList)).body.map
        (fun html => decide ("<pre>hi</pre>".toList <:+: html))) = some true
      ∧ (handle_echo (post_request "/echo".toList "hi".toList)).status_code = 200
      ∧ handle_echo (request_of HttpMethod.HTTP_POST "/echo".toList)
        = { status_code := 200, content_type := "text/plain".toList,
            body := some "No body received in POST request".toList, body_length := 32 } := by
  refine ⟨?_, rfl, rfl⟩
  decide

/-! ## The status of the calculator -/

/-- C27: for every pass of the listener loop made with the flag
`server_running` set, (1) when `select` returns 0 (the wait timed out) the pass
calls `select` only and the loop goes on; (2) when `select` returns a positive
value the pass calls `select` and `accept`; (3) when `select` returns a
negative value with `errno = EINTR` (the wait was interrupted) the pass calls
`select` and then `accept` as well; (4) when `select` returns a negative value
with another `errno` the loop ends without a call of `accept`. -/
theorem accept_after_select (server_fd : Int) (p : LoopPass) (rest : List LoopPass)
    (hrun : p.server_running = true) :
    (p.activity = 0 →
        listener_loop server_fd (p :: rest)
          = (ServerCall.select :: (listener_loop server_fd rest).1,
              (listener_loop server_fd rest).2))
      ∧ (0 < p.activity ∨ (p.activity < 0 ∧ p.select_eintr = true) →
          ∃ tail, (listener_loop server_fd (p :: rest)).1
            = ServerCall.select :: ServerCall.accept :: tail)
      ∧ (p.activity < 0 → p.select_eintr = false →
          listener_loop server_fd (p :: rest)
            = ([ServerCall.select, ServerCall.close server_fd], some 0)) := by
  have hr : ¬ p.server_running = false := by
    rw [hrun]
    decide
  refine ⟨?_, ?_, ?_⟩
  · intro h0
    rw [listener_loop, if_neg hr, if_neg (by omega), if_pos h0]
  · intro h
    have h1 : ¬ (p.activity < 0 ∧ p.select_eintr = false) := by
      rintro ⟨ha, he⟩
      rcases h with h | h
      · omega
      · rw [h.2] at he
        cases he
    have h2 : ¬ p.activity = 0 := by
      rcases h with h | h <;> omega
    rw [listener_loop, if_neg hr, if_neg h1, if_neg h2]
    split
    · exact ⟨_, rfl⟩
    · exact ⟨_, rfl⟩
  · intro ha he
    rw [listener_loop, if_neg hr, if_pos ⟨ha, he⟩]

/-- Witness of C27: a pass in which `select` returns -1 with `errno = EINTR`
calls `accept` and hands the accepted connection to the handler; a pass in
which `select` times out calls `select` only. -/
theorem accept_after_select_witness :
    (∃ tail, (listener_loop 3
          ({ server_running := true, activity := -1, select_eintr := true, client_fd := 4,
             client_ip := "192.0.2.7".toList } :: [])).1
        = ServerCall.select :: ServerCall.accept :: tail)
      ∧ listener_loop 3
          [{ server_running := true, activity := -1, select_eintr := true, client_fd := 4,
             client_ip := "192.0.2.7".toList }]
        = ([ServerCall.select, ServerCall.accept, ServerCall.handle_client_connection 4,
            ServerCall.close 4], none)
      ∧ listener_loop 3
          [{ server_running := true, activity := 0, select_eintr := false, client_fd := 4,
             client_ip := "192.0.2.7".toList }]
        = ([ServerCall.select], none) :=
  ⟨(accept_after_select 3
      { server_running := true, activity := -1, select_eintr := true, client_fd := 4,
        client_ip := "192.0.2.7".toList } [] rfl).2.1 (Or.inr ⟨by decide, rfl⟩),
    by decide, by decide⟩

/-! ## The client address -/

theorem finish_request_client_ip (request : HttpRequest) (line : List Char)
    (st : HeaderState) : (finish_request request line st).client_ip = request.client_ip := by
  unfold finish_request
  cases st.line with
  | none => rfl
  | some rest =>
    dsimp only
    split
    · split <;> rfl
    · rfl

/-- C30: the peer address that `inet_ntop` writes in `start_http_server` has no
effect on the calls the listener makes (`handle_client_connection` is given the
descriptor only); for every buffer received, the request the connection handler
parses from the zeroed request has the empty `client_ip`; and for such a
request the page of `handle_info` is formatted with the text `unknown` as the
address. -/
theorem client_ip_is_never_set (server_fd : Int) (p : LoopPass) (ip : List Char)
    (rest : List LoopPass) (bytes : List Char) :
    listener_loop server_fd ({ p with client_ip := ip } :: rest)
        = listener_loop server_fd (p :: rest)
      ∧ ∃ r, parse_http_request (bytes ++ [NUL]) zero_request = some r
        ∧ r.client_ip = []
        ∧ handle_info r
          = { status_code := 200, content_type := "text/html; charset=utf-8".toList,
              body := some (info_html
                (if r.method = HttpMethod.HTTP_GET then "GET".toList else "POST".toList)
                r.path "unknown".toList),
              body_length := (info_html
                (if r.method = HttpMethod.HTTP_GET then "GET".toList else "POST".toList)
                r.path "unknown".toList).length } := by
  constructor
  · rw [listener_loop, listener_loop]
  · obtain ⟨st, hst⟩ := parse_http_request_eq_finish (bytes ++ [NUL]) zero_request
    have hip : (finish_request zero_request (request_line (bytes ++ [NUL])) st).client_ip = [] := by
      rw [finish_request_client_ip]
      rfl
    refine ⟨_, hst, hip, ?_⟩
    unfold handle_info
    rw [hip]
    rfl

/-- Instance of C30: `GET /info`, received from any peer, is answered by
`handle_info` on a request whose `client_ip` is empty. -/
theorem client_ip_is_never_set_example :
    parse_http_request ("GET /info HTTP/1.1\r\nHost: x\r\n\r\n".toList ++ [NUL]) zero_request
        = some (request_of HttpMethod.HTTP_GET "/info".toList)
      ∧ (request_of HttpMethod.HTTP_GET "/info".toList).client_ip = []
      ∧ serve_request sample_env "GET /info HTTP/1.1\r\nHost: x\r\n\r\n".toList
        = Except.ok (handle_info (request_of HttpMethod.HTTP_GET "/info".toList)) := by
  have h : parse_http_request ("GET /info HTTP/1.1\r\nHost: x\r\n\r\n".toList ++ [NUL])
      zero_request = some (request_of HttpMethod.HTTP_GET "/info".toList) := by
    decide
  refine ⟨h, rfl, ?_⟩
  unfold serve_request
  rw [h]
  rfl

/-! ## The health response -/

theorem decimal_int_length_of_in_long (v : Int) (h : in_long v) :
    (decimal_int v).length ≤ 20 := by
  unfold in_long at h
  have hb : v.natAbs < 10 ^ 19 := by omega
  have := decimal_length_le v.natAbs 19 (by omega) hb
  unfold decimal_int
  split
  · simp; omega
  · omega

theorem handle_api_health_text (timestamp : List Char) (now : Int) (request : HttpRequest)
    (ht : timestamp.length ≤ 63) (hn : in_long now) :
    handle_api_health timestamp now request
      = Except.ok (json_text_response 200 (health_text timestamp now)) := by
  have ln := decimal_int_length_of_in_long now hn
  unfold handle_api_health
  rw [json_response_ok, snprintf_of_fits 128 _ (by simp; omega),
    snprintf_of_fits 128 _ (by simp; omega)]
  simp [concat_all, health_text]

/-- C28: for any two calls of the health handler, at clock values that fit a
`long` and with time stamps that fit the 64-byte buffer of `strftime`, both
responses have status 200 and content type `application/json`, and both bodies
are the same text with the keys `status`, `service`, `version`, `timestamp`,
`uptime_seconds` in this order, apart from the time stamp and the clock value
printed in it. -/
theorem health_responses_alike (timestamp1 timestamp2 : List Char) (now1 now2 : Int)
    (request1 request2 : HttpRequest)
    (ht1 : timestamp1.length ≤ 63) (ht2 : timestamp2.length ≤ 63)
    (hn1 : in_long now1) (hn2 : in_long now2) :
    ∃ response1 response2,
      handle_api_health timestamp1 now1 request1 = Except.ok response1
      ∧ handle_api_health timestamp2 now2 request2 = Except.ok response2
      ∧ response1.status_code = 200 ∧ response2.status_code = 200
      ∧ response1.content_type = "application/json".toList
      ∧ response2.content_type = "application/json".toList
      ∧ response1.body = some (
          "\x7b\n  \"status\": \"healthy\",\n  \"service\": \"http-server\",\n  \"version\": \"1.0.0\",\n  \"timestamp\": \"".toList
            ++ timestamp1 ++ "\",\n  \"uptime_seconds\": ".toList ++ decimal_int now1
            ++ "\n\x7d".toList)
      ∧ response2.body = some (
          "\x7b\n  \"status\": \"healthy\",\n  \"service\": \"http-server\",\n  \"version\": \"1.0.0\",\n  \"timestamp\": \"".toList
            ++ timestamp2 ++ "\",\n  \"uptime_seconds\": ".toList ++ decimal_int now2
            ++ "\n\x7d".toList)
      ∧ response1.body_length = (health_text timestamp1 now1).length
      ∧ response2.body_length = (health_text timestamp2 now2).length :=
  ⟨_, _, handle_api_health_text timestamp1 now1 request1 ht1 hn1,
    handle_api_health_text timestamp2 now2 request2 ht2 hn2, rfl, rfl, rfl, rfl, rfl, rfl,
    rfl, rfl⟩

/-- Witness of C28: the health responses at the clock values 1700000000 and
1700000060. -/
theorem health_responses_alike_witness :
    ∃ response1 response2,
      handle_api_health "2023-11-14 22:13:20".toList 1700000000 zero_request
        = Except.ok response1
      ∧ handle_api_health "2023-11-14 22:14:20".toList 1700000060 zero_request
        = Except.ok response2
      ∧ response1.status_code = 200 ∧ response2.status_code = 200
      ∧ response1.content_type = "application/json".toList
      ∧ response2.content_type = "application/json".toList
      ∧ response1.body = some (
          "\x7b\n  \"status\": \"healthy\",\n  \"service\": \"http-server\",\n  \"version\": \"1.0.0\",\n  \"timestamp\": \"".toList
            ++ "2023-11-14 22:13:20".toList ++ "\",\n  \"uptime_seconds\": ".toList
            ++ decimal_int 1700000000 ++ "\n\x7d".toList)
      ∧ response2.body = some (
          "\x7b\n  \"status\": \"healthy\",\n  \"service\": \"http-server\",\n  \"version\": \"1.0.0\",\n  \"timestamp\": \"".toList
            ++ "2023-11-14 22:14:20".toList ++ "\",\n  \"uptime_seconds\": ".toList
            ++ decimal_int 1700000060 ++ "\n\x7d".toList)
      ∧ response1.body_length = (health_text "2023-11-14 22:13:20".toList 1700000000).length
      ∧ response2.body_length
        = (health_text "2023-11-14 22:14:20".toList 1700000060).length :=
  health_responses_alike "2023-11-14 22:13:20".toList "2023-11-14 22:14:20".toList
    1700000000 1700000060 zero_request zero_request (by decide) (by decide) (by decide)
    (by decide)

/-! ## The reason phrase of the GET routes -/

theorem send_http_response_status_line (sock : Socket) (r : HttpResponse)
    (h : in_int r.status_code) :
    ∃ rest, (send_http_response sock r).head?.map SendCall.buf
      = some ("HTTP/1.1 ".toList ++ decimal_int r.status_code ++ " ".toList
          ++ status_message r.status_code ++ CRLF ++ rest) := by
  have hl := decimal_int_length r.status_code h.1 h.2
  have hm := status_message_length r.status_code
  have hs : ("HTTP/1.1 ".toList ++ decimal_int r.status_code ++ " ".toList
      ++ status_message r.status_code ++ CRLF).length ≤ 1024 - 1 := by
    simp [CRLF]
    omega
  rw [send_http_response_head]
  refine ⟨List.take (1024 - 1 - ("HTTP/1.1 ".toList ++ decimal_int r.status_code ++ " ".toList
      ++ status_message r.status_code ++ CRLF).length)
      ("Content-Type: ".toList ++ r.content_type ++ CRLF
        ++ "Content-Length: ".toList ++ decimal r.body_length ++ CRLF
        ++ "Connection: close".toList ++ CRLF ++ CRLF), ?_⟩
  have e : header_text r.status_code (status_message r.status_code) r.content_type
      r.body_length
      = ("HTTP/1.1 ".toList ++ decimal_int r.status_code ++ " ".toList
          ++ status_message r.status_code ++ CRLF)
        ++ ("Content-Type: ".toList ++ r.content_type ++ CRLF
          ++ "Content-Length: ".toList ++ decimal r.body_length ++ CRLF
          ++ "Connection: close".toList ++ CRLF ++ CRLF) := by
    simp only [header_text, List.append_assoc]
  rw [e, snprintf, List.take_append_eq_append_take, List.take_of_length_le hs]

theorem json_handlers_status (env : Env) (request : HttpRequest) :
    (∃ r, handle_api_health env.timestamp env.now request = Except.ok r ∧ r.status_code = 200)
      ∧ (∃ r, handle_api_users_get request = Except.ok r ∧ r.status_code = 200)
      ∧ (∃ r, handle_api_stats request = Except.ok r ∧ r.status_code = 200)
      ∧ (∃ r, handle_api_time env.iso env.date env.time_str env.now request = Except.ok r
          ∧ r.status_code = 200)
      ∧ (∃ r, handle_api_exchange_rates request = Except.ok r ∧ r.status_code = 501)
      ∧ (∃ r, handle_api_quote request = Except.ok r ∧ r.status_code = 501)
      ∧ (∃ r, handle_api_proxy request = Except.ok r ∧ r.status_code = 501)
      ∧ (∃ r, handle_api_weather env.weather_response request = Except.ok r
          ∧ (r.status_code = 200 ∨ r.status_code = 502)) := by
  have key : ∀ (c : Int) (parts : List (List Char)),
      ∃ r, json_response c parts = Except.ok r ∧ r.status_code = c := by
    intro c parts
    obtain ⟨r, h1, h2, _⟩ := json_response_status c parts
    exact ⟨r, h1, h2⟩
  refine ⟨?_, ?_, ?_, ?_, ?_, ?_, ?_, ?_⟩
  · unfold handle_api_health
    exact key _ _
  · unfold handle_api_users_get
    exact key _ _
  · unfold handle_api_stats
    exact key _ _
  · unfold handle_api_time
    exact key _ _
  · unfold handle_api_exchange_rates
    exact key _ _
  · unfold handle_api_quote
    exact key _ _
  · unfold handle_api_proxy
    exact key _ _
  · unfold handle_api_weather
    split
    · obtain ⟨r, h1, h2⟩ := key 502 _
      exact ⟨r, h1, Or.inr h2⟩
    · split
      · obtain ⟨r, h1, h2⟩ := key 502 _
        exact ⟨r, h1, Or.inr h2⟩
      · obtain ⟨r, h1, h2⟩ := key 200 _
        exact ⟨r, h1, Or.inl h2⟩

theorem route_request_get (env : Env) (request : HttpRequest)
    (hm : request.method = HttpMethod.HTTP_GET) :
    (request.path = "/".toList → route_request env request = Except.ok (handle_root request))
      ∧ (request.path = "/info".toList →
          route_request env request = Except.ok (handle_info request))
      ∧ (request.path = "/image".toList →
          route_request env request = Except.ok (handle_image env.image_file request))
      ∧ (request.path = "/api/health".toList →
          route_request env request = handle_api_health env.timestamp env.now request)
      ∧ (request.path = "/api/users".toList →
          route_request env request = handle_api_users_get request)
      ∧ (request.path = "/api/stats".toList →
          route_request env request = handle_api_stats request)
      ∧ (request.path = "/api/time".toList →
          route_request env request
            = handle_api_time env.iso env.date env.time_str env.now request)
      ∧ (request.path = "/api/weather".toList →
          route_request env request = handle_api_weather env.weather_response request)
      ∧ (request.path = "/api/exchange".toList →
          route_request env request = handle_api_exchange_rates request)
      ∧ (request.path = "/api/quote".toList →
          route_request env request = handle_api_quote request)
      ∧ (request.path = "/api/proxy".toList →
          route_request env request = handle_api_proxy request) := by
  refine ⟨?_, ?_, ?_, ?_, ?_, ?_, ?_, ?_, ?_, ?_, ?_⟩
  all_goals
    intro hp
    unfold route_request
    rw [hm, hp]
    repeat (first | rw [if_pos rfl] | rw [if_neg (by decide)])

theorem get_route_status (env : Env) (request : HttpRequest)
    (hm : request.method = HttpMethod.HTTP_GET) (hp : request.path ∈ defined_get_paths) :
    ∃ r, route_request env request = Except.ok r
      ∧ (r.status_code = 200 ∨ r.status_code = 501 ∨ r.status_code = 502)
      ∧ (request.path ∈ ["/api/exchange".toList, "/api/quote".toList, "/api/proxy".toList] →
          r.status_code = 501)
      ∧ (request.path ∉ ["/api/weather".toList, "/api/exchange".toList, "/api/quote".toList,
            "/api/proxy".toList] → r.status_code = 200) := by
  have j := json_handlers_status env request
  have p := not_404_page_handlers env request
  have g := route_request_get env request hm
  simp only [defined_get_paths, List.mem_cons, List.mem_nil_iff, or_false] at hp
  rcases hp with hp | hp | hp | hp | hp | hp | hp | hp | hp | hp | hp
  · refine ⟨_, g.1 hp, Or.inl p.1, ?_, fun _ => p.1⟩
    intro h
    rw [hp] at h
    exact absurd h (by decide)
  · refine ⟨_, g.2.1 hp, Or.inl p.2.1, ?_, fun _ => p.2.1⟩
    intro h
    rw [hp] at h
    exact absurd h (by decide)
  · refine ⟨_, g.2.2.1 hp, Or.inl p.2.2.1, ?_, fun _ => p.2.2.1⟩
    intro h
    rw [hp] at h
    exact absurd h (by decide)
  · obtain ⟨r, h1, h2⟩ := j.1
    refine ⟨r, (g.2.2.2.1 hp).trans h1, Or.inl h2, ?_, fun _ => h2⟩
    intro h
    rw [hp] at h
    exact absurd h (by decide)
  · obtain ⟨r, h1, h2⟩ := j.2.1
    refine ⟨r, (g.2.2.2.2.1 hp).trans h1, Or.inl h2, ?_, fun _ => h2⟩
    intro h
    rw [hp] at h
    exact absurd h (by decide)
  · obtain ⟨r, h1, h2⟩ := j.2.2.1
    refine ⟨r, (g.2.2.2.2.2.1 hp).trans h1, Or.inl h2, ?_, fun _ => h2⟩
    intro h
    rw [hp] at h
    exact absurd h (by decide)
  · obtain ⟨r, h1, h2⟩ := j.2.2.2.1
    refine ⟨r, (g.2.2.2.2.2.2.1 hp).trans h1, Or.inl h2, ?_, fun _ => h2⟩
    intro h
    rw [hp] at h
    exact absurd h (by decide)
  · obtain ⟨r, h1, h2⟩ := j.2.2.2.2.2.2.2
    refine ⟨r, (g.2.2.2.2.2.2.2.1 hp).trans h1, ?_, ?_, ?_⟩
    · rcases h2 with h2 | h2
      · exact Or.inl h2
      · exact Or.inr (Or.inr h2)
    · intro h
      rw [hp] at h
      exact absurd h (by decide)
    · intro h
      rw [hp] at h
      exact absurd (by decide) h
  · obtain ⟨r, h1, h2⟩ := j.2.2.2.2.1
    refine ⟨r, (g.2.2.2.2.2.2.2.2.1 hp).trans h1, Or.inr (Or.inl h2), fun _ => h2, ?_⟩
    intro h
    rw [hp] at h
    exact absurd (by decide) h
  · obtain ⟨r, h1, h2⟩ := j.2.2.2.2.2.1
    refine ⟨r, (g.2.2.2.2.2.2.2.2.2.1 hp).trans h1, Or.inr (Or.inl h2), fun _ => h2, ?_⟩
    intro h
    rw [hp] at h
    exact absurd (by decide) h
  · obtain ⟨r, h1, h2⟩ := j.2.2.2.2.2.2.1
    refine ⟨r, (g.2.2.2.2.2.2.2.2.2.2 hp).trans h1, Or.inr (Or.inl h2), fun _ => h2, ?_⟩
    intro h
    rw [hp] at h
    exact absurd (by decide) h

/-- C29, as the claim reads: `GET /api/exchange` is answered with status 501,
and the status line `send_http_response` writes for it is
`HTTP/1.1 501 Unknown`, the fallback phrase. -/
theorem exchange_reason_phrase_is_fallback :
    ∃ r rest, route_request sample_env (request_of HttpMethod.HTTP_GET "/api/exchange".toList)
        = Except.ok r
      ∧ r.status_code = 501
      ∧ (send_http_response full_send r).head?.map SendCall.buf
        = some ("HTTP/1.1 501 Unknown\r\n".toList ++ rest) := by
  obtain ⟨r, h1, _, h3, _⟩ := get_route_status sample_env
    (request_of HttpMethod.HTTP_GET "/api/exchange".toList) rfl (by decide)
  have hc : r.status_code = 501 := h3 (by decide)
  obtain ⟨rest, h4⟩ := send_http_response_status_line full_send r (by rw [hc]; decide)
  refine ⟨r, rest, h1, hc, ?_⟩
  rw [h4, hc]
  rfl

/-- C29: for every GET request on a path whose handler the sources define, the
router answers with status 200, 501 or 502 (501 on `/api/exchange`,
`/api/quote` and `/api/proxy`; 200 or 502 on `/api/weather`; 200 on the
others), and the status line `send_http_response` writes holds the phrase `OK`
for 200 and the phrase `Unknown` for 501 and 502. -/
theorem get_route_reason_phrase (env : Env) (sock : Socket) (request : HttpRequest)
    (hm : request.method = HttpMethod.HTTP_GET) (hp : request.path ∈ defined_get_paths) :
    ∃ r rest, route_request env request = Except.ok r
      ∧ (r.status_code = 200 ∨ r.status_code = 501 ∨ r.status_code = 502)
      ∧ (request.path ∈ ["/api/exchange".toList, "/api/quote".toList, "/api/proxy".toList] →
          r.status_code = 501)
      ∧ (request.path ∉ ["/api/weather".toList, "/api/exchange".toList, "/api/quote".toList,
            "/api/proxy".toList] → r.status_code = 200)
      ∧ (send_http_response sock r).head?.map SendCall.buf
        = some ("HTTP/1.1 ".toList ++ decimal_int r.status_code ++ " ".toList
            ++ (if r.status_code = 200 then "OK".toList else "Unknown".toList)
            ++ CRLF ++ rest) := by
  obtain ⟨r, h1, h2, h3, h4⟩ := get_route_status env request hm hp
  have hin : in_int r.status_code := by
    rcases h2 with h | h | h <;> rw [h] <;> decide
  obtain ⟨rest, h5⟩ := send_http_response_status_line sock r hin
  refine ⟨r, rest, h1, h2, h3, h4, ?_⟩
  rw [h5]
  rcases h2 with h | h | h <;> rw [h] <;> rfl

/-- Witness of C29: `GET /api/health` gets a status line with `OK`, and
`GET /api/quote` one with `Unknown`. -/
theorem get_route_reason_phrase_witness :
    (∃ r rest, route_request sample_env (request_of HttpMethod.HTTP_GET "/api/health".toList)
        = Except.ok r
      ∧ (send_http_response full_send r).head?.map SendCall.buf
        = some ("HTTP/1.1 200 OK\r\n".toList ++ rest))
    ∧ (∃ r rest, route_request sample_env (request_of HttpMethod.HTTP_GET "/api/quote".toList)
        = Except.ok r
      ∧ (send_http_response full_send r).head?.map SendCall.buf
        = some ("HTTP/1.1 501 Unknown\r\n".toList ++ rest)) := by
  constructor
  · obtain ⟨r, rest, h1, _, _, h4, h5⟩ := get_route_reason_phrase sample_env full_send
      (request_of HttpMethod.HTTP_GET "/api/health".toList) rfl (by decide)
    refine ⟨r, rest, h1, ?_⟩
    rw [h5, h4 (by decide)]
    rfl
  · obtain ⟨r, rest, h1, _, h3, _, h5⟩ := get_route_reason_phrase sample_env full_send
      (request_of HttpMethod.HTTP_GET "/api/quote".toList) rfl (by decide)
    refine ⟨r, rest, h1, ?_⟩
    rw [h5, h3 (by decide)]
    rfl

/-! ## The escaped text and the builder invariant -/

theorem escape_char_length (c : Char) :
    (escape_char c).length = 1 ∨ (escape_char c).length = 2 := by
  unfold escape_char
  repeat' split
  all_goals simp

theorem escape_loop_length (str : List Char) (j : Nat) (hj : j ≤ 2047) :
    j + (escape_loop str j).length ≤ 2047 := by
  induction str generalizing j with
  | nil => simpa [escape_loop] using hj
  | cons c cs ih =>
    rw [escape_loop]
    split
    · rename_i h
      have hl := escape_char_length c
      have := ih (j + (escape_char c).length) (by omega)
      rw [List.length_append]
      omega
    · simpa using hj

theorem escape_loop_take (str : List Char) (j : Nat) :
    ∃ k, escape_loop str j = escape_all (str.take k) := by
  induction str generalizing j with
  | nil => exact ⟨0, rfl⟩
  | cons c cs ih =>
    rw [escape_loop]
    split
    · obtain ⟨k, hk⟩ := ih (j + (escape_char c).length)
      exact ⟨k + 1, by rw [hk]; rfl⟩
    · exact ⟨0, rfl⟩

theorem escape_loop_all (str : List Char) (j : Nat)
    (h : j + (escape_all str).length ≤ 2046) : escape_loop str j = escape_all str := by
  induction str generalizing j with
  | nil => rfl
  | cons c cs ih =>
    have hl := escape_char_length c
    rw [escape_all, List.length_append] at h
    rw [escape_loop, if_pos (by omega), ih _ (by omega)]
    rfl

theorem well_escaped_cons (c : Char) (t : List Char) (h1 : c ≠ '\\') (h2 : c ≠ '"')
    (ht : well_escaped t = true) : well_escaped (c :: t) = true := by
  cases t with
  | nil => simp [well_escaped, h1, h2]
  | cons d r =>
    rw [well_escaped, if_neg h1]
    simp [h2, ht]

theorem well_escaped_escape_all (str : List Char) : well_escaped (escape_all str) = true := by
  induction str with
  | nil => rfl
  | cons c cs ih =>
    rw [escape_all]
    unfold escape_char
    split
    · exact ih
    · split
      · exact ih
      · split
        · exact ih
        · split
          · exact ih
          · split
            · exact ih
            · rename_i h1 h2 _ _ _
              exact well_escaped_cons c _ h2 h1 ih

/-- C38: for every input string, the text `json_builder_append_escaped` builds
in its scratch buffer of 2048 bytes has at most 2047 bytes, so the text and its
NUL are written at the indices 0 to 2047; the text is the escaped form of a
beginning of the input, made of complete escapes only: each double quote stands
after its backslash and no backslash stands alone at the end; and an input
whose escaped form has at most 2046 bytes is escaped in full. -/
theorem escaped_text_in_buffer (str : List Char) :
    (escape_loop str 0).length ≤ 2047
      ∧ (∃ k, escape_loop str 0 = escape_all (str.take k))
      ∧ well_escaped (escape_loop str 0) = true
      ∧ ((escape_all str).length ≤ 2046 → escape_loop str 0 = escape_all str)
      ∧ ∀ jb, json_builder_append_escaped jb str = json_builder_append jb (escape_loop str 0) := by
  have h1 := escape_loop_length str 0 (by omega)
  obtain ⟨k, hk⟩ := escape_loop_take str 0
  refine ⟨by omega, ⟨k, hk⟩, ?_, ?_, fun jb => rfl⟩
  · rw [hk]
    exact well_escaped_escape_all _
  · intro h
    exact escape_loop_all str 0 (by omega)

/-- Instances of C38: the text `a"b\` is escaped as `a\"b\\`; with 2045 bytes
already written, a double quote is still escaped in full (bytes 2045 and 2046,
the NUL at 2047) and nothing is written after it; a text that ends in a
backslash alone, or that holds a bare double quote, is not well escaped. -/
theorem escaped_text_in_buffer_example :
    escape_loop "a\"b\\".toList 0 = "a\\\"b\\\\".toList
      ∧ escape_loop "\"x".toList 2045 = "\\\"".toList
      ∧ escape_loop "\"x".toList 2046 = []
      ∧ well_escaped "a\\\"b\\\\".toList = true
      ∧ well_escaped "ab\\".toList = false
      ∧ well_escaped "a\"b".toList = false := by
  decide

theorem grow_capacity_ge (fuel need capacity c : Nat)
    (h : grow_capacity fuel need capacity = some c) : need ≤ c ∧ capacity ≤ c := by
  induction fuel generalizing capacity with
  | zero =>
    rw [grow_capacity] at h
    split at h
    · cases h
    · cases h
      exact ⟨by omega, le_refl _⟩
  | succ fuel ih =>
    rw [grow_capacity] at h
    split at h
    · have := ih (capacity * 2) h
      exact ⟨this.1, by omega⟩
    · cases h
      exact ⟨by omega, le_refl _⟩

theorem json_builder_append_invariant (jb : JSONBuilder) (str : List Char)
    (h : builder_invariant jb) :
    ∃ jb1, json_builder_append jb str = Except.ok jb1 ∧ builder_invariant jb1
      ∧ jb1.buffer = jb.buffer ++ str ∧ jb1.size = jb.size + str.length
      ∧ jb.capacity ≤ jb1.capacity := by
  obtain ⟨c, hc, _⟩ := grow_capacity_some (jb.size + str.length + 1)
    (jb.size + str.length + 1) jb.capacity (by have := h.2; omega) (by omega)
  have hge := grow_capacity_ge _ _ _ _ hc
  refine ⟨{ buffer := jb.buffer ++ str, size := jb.size + str.length, capacity := c },
    by simp only [json_builder_append, hc], ?_, rfl, rfl, hge.2⟩
  refine ⟨?_, hge.1⟩
  show jb.size + str.length = (jb.buffer ++ str).length
  rw [List.length_append, h.1]

theorem json_builder_append_all_invariant (jb : JSONBuilder) (parts : List (List Char))
    (h : builder_invariant jb) :
    ∃ jb1, json_builder_append_all jb parts = Except.ok jb1 ∧ builder_invariant jb1
      ∧ jb1.buffer = jb.buffer ++ concat_all parts := by
  induction parts generalizing jb with
  | nil => exact ⟨jb, rfl, h, by simp [concat_all]⟩
  | cons s rest ih =>
    obtain ⟨jb1, h1, h2, h3, _⟩ := json_builder_append_invariant jb s h
    obtain ⟨jb2, h4, h5, h6⟩ := ih jb1 h2
    refine ⟨jb2, ?_, h5, ?_⟩
    · simp only [json_builder_append_all, h1, h4]
    · rw [h6, h3]
      simp [concat_all]

/-- C39: the builder `json_builder_create` returns satisfies the invariant
(`size` is the length of the buffer text and `size + 1 ≤ capacity`); for every
builder that satisfies it and every string, `json_builder_append` returns, the
new builder satisfies it, its text is the old text followed by the string and
its capacity has not shrunk; and for every list of strings appended in order to
a new builder, `json_builder_finalize` returns their concatenation. -/
theorem builder_invariant_kept (jb : JSONBuilder) (str : List Char)
    (parts : List (List Char)) :
    builder_invariant json_builder_create
      ∧ (builder_invariant jb →
          ∃ jb1, json_builder_append jb str = Except.ok jb1 ∧ builder_invariant jb1
            ∧ jb1.buffer = jb.buffer ++ str ∧ jb1.size = jb.size + str.length
            ∧ jb.capacity ≤ jb1.capacity)
      ∧ ∃ jb2, json_builder_append_all json_builder_create parts = Except.ok jb2
          ∧ builder_invariant jb2
          ∧ json_builder_finalize jb2 = concat_all parts := by
  have h0 : builder_invariant json_builder_create := by decide
  refine ⟨h0, json_builder_append_invariant jb str, ?_⟩
  obtain ⟨jb2, h1, h2, h3⟩ := json_builder_append_all_invariant json_builder_create parts h0
  refine ⟨jb2, h1, h2, ?_⟩
  rw [json_builder_finalize, h3]
  rfl

/-- Instances of C39: appending six bytes to a builder that holds two bytes in
a buffer of four doubles the capacity twice, to 16; three strings appended in
order to a new builder are returned as one text. -/
theorem builder_invariant_kept_example :
    json_builder_append { buffer := "ab".toList, size := 2, capacity := 4 } "cdefgh".toList
        = Except.ok { buffer := "abcdefgh".toList, size := 8, capacity := 16 }
      ∧ (json_builder_append_all json_builder_create
          ["\x7b".toList, "\"a\": 1".toList, "\x7d".toList]).map json_builder_finalize
        = Except.ok "\x7b\"a\": 1\x7d".toList :=
  ⟨rfl, rfl⟩

/-! ## The size of the header block -/

/-- C32: for every response with an `int` status code, a content type of at
most 127 bytes and a 64-bit `body_length`, the header block `send_http_response`
formats has at most 246 bytes, fewer than the 1024 bytes of its buffer: the
buffer holds the whole block, and the length passed to the first `send` is the
number of bytes in the buffer. -/
theorem headers_fit_buffer (sock : Socket) (r : HttpResponse) (h : fits_c_types r) :
    (header_text r.status_code (status_message r.status_code) r.content_type
        r.body_length).length ≤ 246
      ∧ snprintf 1024 (header_text r.status_code (status_message r.status_code)
          r.content_type r.body_length)
        = header_text r.status_code (status_message r.status_code) r.content_type
          r.body_length
      ∧ ∃ first rest, send_http_response sock r = first :: rest
          ∧ first.buf = header_text r.status_code (status_message r.status_code)
              r.content_type r.body_length
          ∧ first.len = first.buf.length
          ∧ first.len < 1024 := by
  obtain ⟨h1, h2, h3, h4⟩ := h
  have a := status_message_length r.status_code
  have b := decimal_int_length r.status_code h1 h2
  have c := decimal_length_le r.body_length 20 (by omega) (by omega)
  have hlen : (header_text r.status_code (status_message r.status_code) r.content_type
      r.body_length).length ≤ 246 := by
    rw [header_text_length]
    omega
  have hs := snprintf_of_fits 1024 (header_text r.status_code (status_message r.status_code)
    r.content_type r.body_length) (by omega)
  refine ⟨hlen, hs, _, _, send_http_response_calls sock r, hs, ?_, ?_⟩
  · show _ = (snprintf 1024 _).length
    rw [hs]
  · show (header_text r.status_code (status_message r.status_code) r.content_type
      r.body_length).length < 1024
    omega

set_option maxRecDepth 100000 in
/-- Witness of C32: the response with the longest decimal texts, status
-2147483648 and `body_length` 2^64 - 1, and a content type of 127 bytes. -/
theorem headers_fit_buffer_witness :
    (header_text (-2147483648) (status_message (-2147483648)) (List.replicate 127 'x')
        18446744073709551615).length ≤ 246
      ∧ snprintf 1024 (header_text (-2147483648) (status_message (-2147483648))
          (List.replicate 127 'x') 18446744073709551615)
        = header_text (-2147483648) (status_message (-2147483648)) (List.replicate 127 'x')
          18446744073709551615
      ∧ ∃ first rest, send_http_response full_send
            { status_code := -2147483648, content_type := List.replicate 127 'x',
              body := none, body_length := 18446744073709551615 } = first :: rest
          ∧ first.buf = header_text (-2147483648) (status_message (-2147483648))
              (List.replicate 127 'x') 18446744073709551615
          ∧ first.len = first.buf.length
          ∧ first.len < 1024 :=
  headers_fit_buffer full_send
    { status_code := -2147483648, content_type := List.replicate 127 'x',
      body := none, body_length := 18446744073709551615 } (by decide)

/-! ## Bounds on the parsed fields and on the body buffer -/

theorem header_loop_invariant (P : List Char → Nat → Prop)
    (hstep : ∀ cur st next, P st.content_type st.content_length →
      P (header_step cur st next).content_type (header_step cur st next).content_length)
    (fuel : Nat) (st st1 : HeaderState) (h : header_loop fuel st = some st1)
    (h0 : P st.content_type st.content_length) :
    P st1.content_type st1.content_length := by
  induction fuel generalizing st with
  | zero =>
    match hl : st.line with
    | none =>
      rw [header_loop_none 0 st hl] at h
      cases h
      exact h0
    | some [] =>
      rw [header_loop_nil 0 st hl] at h
      cases h
      exact h0
    | some (c :: cs) =>
      rw [header_loop] at h
      simp [hl] at h
  | succ fuel ih =>
    match hl : st.line with
    | none =>
      rw [header_loop_none _ st hl] at h
      cases h
      exact h0
    | some [] =>
      rw [header_loop_nil _ st hl] at h
      cases h
      exact h0
    | some (c :: cs) =>
      rw [header_loop_succ fuel st c cs hl] at h
      split at h
      · cases h
        exact h0
      · exact ih _ h (hstep _ _ _ h0)

theorem header_step_content_type_length (cur : List Char) (st : HeaderState)
    (next : Option (List Char)) (h : st.content_type.length ≤ 127) :
    (header_step cur st next).content_type.length ≤ 127 := by
  unfold header_step
  dsimp only
  split
  · unfold content_type_value
    rw [List.length_take]
    omega
  · exact h

theorem size_t_of_int_lt (v : Int) : size_t_of_int v < 2 ^ 64 := by
  unfold size_t_of_int
  omega

theorem header_step_content_length_lt (cur : List Char) (st : HeaderState)
    (next : Option (List Char)) (h : st.content_length < 2 ^ 64) :
    (header_step cur st next).content_length < 2 ^ 64 := by
  unfold header_step
  dsimp only
  split
  · exact size_t_of_int_lt _
  · exact h

theorem parse_path_length (line path : List Char) (h : path.length ≤ 255) :
    (parse_path line path).length ≤ 255 := by
  unfold parse_path
  split
  · exact h
  · dsimp only
    split
    · exact h
    · split
      · rw [List.length_take]
        omega
      · exact h

theorem parse_http_request_loop (raw : List Char) (request : HttpRequest) :
    ∃ st, header_loop ((cstr raw).length + 1)
        { line := (cut_line (cstr raw)).2, content_type := request.content_type,
          content_length := 0 } = some st
      ∧ parse_http_request raw request
        = some (finish_request request (request_line raw) st) := by
  obtain ⟨st, hst⟩ := header_loop_total ((cstr raw).length + 1)
    { line := (cut_line (cstr raw)).2, content_type := request.content_type, content_length := 0 }
    (by
      intro l hl
      have := cut_line_snd_lt (cstr raw) l hl
      omega)
  exact ⟨st, hst, parse_http_request_finish raw request st hst⟩

/-- C33: for every raw request, the parser returns and, called on a request
whose path has at most 255 bytes and whose content type has at most 127 bytes
(the zeroed request in particular), leaves a path of at most 255 bytes and a
content type of at most 127 bytes, whatever the lengths of the path token and
of the Content-Type value. -/
theorem parsed_fields_fit (raw : List Char) (request : HttpRequest)
    (hp : request.path.length ≤ 255) (hc : request.content_type.length ≤ 127) :
    (∃ r, parse_http_request raw request = some r
        ∧ r.path.length ≤ 255 ∧ r.content_type.length ≤ 127)
      ∧ ∃ r, parse_http_request raw zero_request = some r
        ∧ r.path.length ≤ 255 ∧ r.content_type.length ≤ 127 := by
  have key : ∀ q : HttpRequest, q.path.length ≤ 255 → q.content_type.length ≤ 127 →
      ∃ r, parse_http_request raw q = some r
        ∧ r.path.length ≤ 255 ∧ r.content_type.length ≤ 127 := by
    intro q hqp hqc
    obtain ⟨st, hst, hr⟩ := parse_http_request_loop raw q
    refine ⟨_, hr, ?_, ?_⟩
    · rw [finish_request_path]
      exact parse_path_length _ _ hqp
    · rw [finish_request_content_type]
      exact header_loop_invariant (fun ct _ => ct.length ≤ 127)
        (fun cur s next h => header_step_content_type_length cur s next h) _ _ st hst hqc
  exact ⟨key request hp hc, key zero_request (by decide) (by decide)⟩

set_option maxRecDepth 100000 in
/-- Witness of C33: a Content-Type value of 130 bytes is stored as its first
127 bytes, on a request that held a path and a content type before. -/
theorem parsed_fields_fit_witness :
    (∃ r, parse_http_request
          ("GET /a HTTP/1.1\r\nContent-Type: ".toList ++ List.replicate 130 'x'
            ++ "\r\n\r\n".toList)
          { zero_request with path := "/old".toList, content_type := "text/plain".toList }
          = some r
        ∧ r.path.length ≤ 255 ∧ r.content_type.length ≤ 127)
      ∧ ∃ r, parse_http_request
          ("GET /a HTTP/1.1\r\nContent-Type: ".toList ++ List.replicate 130 'x'
            ++ "\r\n\r\n".toList) zero_request = some r
        ∧ r.path.length ≤ 255 ∧ r.content_type.length ≤ 127 :=
  parsed_fields_fit
    ("GET /a HTTP/1.1\r\nContent-Type: ".toList ++ List.replicate 130 'x' ++ "\r\n\r\n".toList)
    { zero_request with path := "/old".toList, content_type := "text/plain".toList }
    (by decide) (by decide)

set_option maxRecDepth 100000 in
/-- Instance of C33: the content type parsed from a value of 130 bytes `x` is
127 bytes `x`. -/
theorem parsed_fields_fit_example :
    (parse_http_request
        ("GET /a HTTP/1.1\r\nContent-Type: ".toList ++ List.replicate 130 'x'
          ++ "\r\n\r\n".toList) zero_request).map (fun r => (r.path, r.content_type))
      = some ("/a".toList, List.replicate 127 'x') := by
  decide

theorem body_buffer_spec (request : HttpRequest) (line : List Char) (st : HeaderState)
    (b : BodyBuffer) (hcl : st.content_length < 2 ^ 64) (h : body_buffer line st = some b) :
    b.content_length < 2 ^ 64
      ∧ b.allocated = (b.content_length + 1) % 2 ^ 64
      ∧ (b.content_length + 1 < 2 ^ 64 → b.written ≤ b.allocated)
      ∧ (b.content_length + 1 = 2 ^ 64 → b.allocated = 0 ∧ 0 < b.written)
      ∧ ∃ body, (finish_request request line st).body = some body
          ∧ body.length + 1 = b.written
          ∧ (finish_request request line st).body_length = b.content_length := by
  unfold body_buffer at h
  cases hl : st.line with
  | none =>
    rw [hl] at h
    cases h
  | some rest =>
    rw [hl] at h
    dsimp only at h
    split at h
    · rename_i hc
      split at h
      · rename_i ha
        cases h
        dsimp only
        have fb := finish_request_body request line st rest hl hc.1 hc.2 ha
        refine ⟨hcl, rfl, ?_, ?_, _, fb.1, ?_, fb.2⟩
        · intro hlt
          rw [Nat.mod_eq_of_lt hlt]
          omega
        · intro he
          rw [he]
          exact ⟨by norm_num, by omega⟩
        · rw [List.length_take]
          omega
      · cases h
    · cases h

/-- C31: the request `POST /echo` with the header `Content-Length: -1` and the
body `hello` makes `parse_http_request` allocate `malloc(0)` (`content_length`
is 2^64 - 1, and `content_length + 1` wraps to 0) and write 6 bytes into that
buffer.  For every raw request the parser returns, and whenever it allocates a
body buffer the bytes written fit the size allocated if `content_length + 1`
does not wrap, while for `content_length = 2^64 - 1` the size allocated is 0
and at least one byte is written; the bytes written are the body of the parsed
request and its NUL. -/
theorem body_buffer_overflow (raw : List Char) :
    parse_body_buffer "POST /echo HTTP/1.1\r\nContent-Length: -1\r\n\r\nhello".toList
        = some (some { content_length := 18446744073709551615, allocated := 0, written := 6 })
      ∧ ∃ res r, parse_body_buffer raw = some res
        ∧ parse_http_request raw zero_request = some r
        ∧ ∀ b, res = some b →
            b.content_length < 2 ^ 64
            ∧ b.allocated = (b.content_length + 1) % 2 ^ 64
            ∧ (b.content_length + 1 < 2 ^ 64 → b.written ≤ b.allocated)
            ∧ (b.content_length + 1 = 2 ^ 64 → b.allocated = 0 ∧ 0 < b.written)
            ∧ ∃ body, r.body = some body ∧ body.length + 1 = b.written
                ∧ r.body_length = b.content_length := by
  refine ⟨by decide, ?_⟩
  obtain ⟨st, hst, hr⟩ := parse_http_request_loop raw zero_request
  have hcl : st.content_length < 2 ^ 64 :=
    header_loop_invariant (fun _ cl => cl < 2 ^ 64)
      (fun cur s next h => header_step_content_length_lt cur s next h) _ _ st hst
      (by norm_num)
  have hst2 : header_loop ((cstr raw).length + 1)
      { line := (cut_line (cstr raw)).2, content_type := [], content_length := 0 }
      = some st := hst
  refine ⟨body_buffer (cut_line (cstr raw)).1 st, _, ?_, hr, ?_⟩
  · unfold parse_body_buffer
    rw [hst2]
    rfl
  · intro b hb
    exact body_buffer_spec zero_request (cut_line (cstr raw)).1 st b hcl hb

/-- Instances of C31: with `Content-Length: 5` and the body `hello` six bytes
are allocated and six written; with `Content-Length: 10` eleven are allocated
and six written; a GET request allocates no body buffer. -/
theorem body_buffer_overflow_example :
    parse_body_buffer "POST /echo HTTP/1.1\r\nContent-Length: 5\r\n\r\nhello".toList
        = some (some { content_length := 5, allocated := 6, written := 6 })
      ∧ parse_body_buffer "POST /echo HTTP/1.1\r\nContent-Length: 10\r\n\r\nhello".toList
        = some (some { content_length := 10, allocated := 11, written := 6 })
      ∧ parse_body_buffer "GET /echo HTTP/1.1\r\nContent-Length: 5\r\n\r\nhello".toList
        = some none := by
  decide

/-! ## Repeated header lines -/

/-- C34: for every request made of a request line, header lines, the empty
line and the bytes `rest` after it: (1) when a header line declares the `int`
content length `d` and no later header line is a Content-Length line, a POST
request with `0 < d` gets `body_length = d` and the first `d` bytes of `rest`
as its body, whatever Content-Length lines stand before; (2) when a header line
holds the content type `v` and no later header line is a Content-Type line, the
parsed content type is the first 127 bytes of `v`; (3) method, path, content
type and `body_length` of the parsed request do not depend on `rest`, so lines
of that form after the empty line have no effect. -/
theorem last_header_line_counts (line rest rest2 : List Char) (hs : List (List Char))
    (request : HttpRequest) (hline : is_line line) (hhs : ∀ x ∈ hs, x ≠ [] ∧ is_line x) :
    (∀ hs1 h hs2 d, hs = hs1 ++ h :: hs2 → declares_content_length h d → in_int d →
        (∀ x ∈ hs2, strncasecmp_eq x "Content-Length:".toList 15 = false) →
        ∃ r, parse_http_request (request_text line hs (HeaderEnd.blank rest)) request = some r
          ∧ (parse_method line = HttpMethod.HTTP_POST → 0 < d →
              (r.body_length : Int) = d ∧ r.body = some ((cstr rest).take r.body_length)))
      ∧ (∀ hs1 h hs2 v, hs = hs1 ++ h :: hs2 → declares_content_type h v →
          (∀ x ∈ hs2, strncasecmp_eq x "Content-Type:".toList 13 = false) →
          ∃ r, parse_http_request (request_text line hs (HeaderEnd.blank rest)) request = some r
            ∧ r.content_type = v.take 127)
      ∧ ∃ r r2,
          parse_http_request (request_text line hs (HeaderEnd.blank rest)) request = some r
          ∧ parse_http_request (request_text line hs (HeaderEnd.blank rest2)) request = some r2
          ∧ r.method = r2.method ∧ r.path = r2.path ∧ r.content_type = r2.content_type
          ∧ r.body_length = r2.body_length := by
  have hp := parse_request_text line hs (HeaderEnd.blank rest) request hline hhs trivial
  have hp2 := parse_request_text line hs (HeaderEnd.blank rest2) request hline hhs trivial
  refine ⟨?_, ?_, ?_⟩
  · intro hs1 h hs2 d e hd hin hlast
    refine ⟨_, hp, ?_⟩
    intro hpost h0
    have hcl : (final_state request hs (HeaderEnd.blank rest)).content_length
        = size_t_of_int d := by
      rw [e]
      exact final_state_content_length request hs1 hs2 h _ d hd hin (by simpa [HeaderEnd.lines] using hlast)
    have hnn := size_t_of_int_nonneg d (by omega) hin.2
    have hpos : 0 < (final_state request hs (HeaderEnd.blank rest)).content_length := by
      rw [hcl]
      omega
    have hlt := hin.2
    have ha := malloc_succeeds_small
      (final_state request hs (HeaderEnd.blank rest)).content_length (by rw [hcl]; omega)
    have fb := finish_request_body request line _ (cstr rest) rfl hpost hpos ha
    rw [fb.2, fb.1, hcl]
    exact ⟨hnn, rfl⟩
  · intro hs1 h hs2 v e hd hlast
    refine ⟨_, hp, ?_⟩
    rw [finish_request_content_type, e]
    exact final_state_content_type request hs1 hs2 h v _ hd (by simpa [HeaderEnd.lines] using hlast)
  · refine ⟨_, _, hp, hp2, ?_, ?_, ?_, ?_⟩
    · rw [finish_request_method, finish_request_method]
    · rw [finish_request_path, finish_request_path]
    · rw [finish_request_content_type, finish_request_content_type]
      rfl
    · rw [finish_request_some_line request line _ (cstr rest) rfl,
        finish_request_some_line request line _ (cstr rest2) rfl]
      rfl

/-- Witness of C34: with the header lines `Content-Length: 3`,
`Content-Type: a/b`, `Content-Length: 5`, `content-type: c/d` and a body that
holds a line `Content-Length: 9`, the parsed request has `body_length` 5 and
the content type `c/d`. -/
theorem last_header_line_counts_witness :
    (∃ r, parse_http_request (request_text "POST /echo HTTP/1.1".toList
          ["Content-Length: 3".toList, "Content-Type: a/b".toList, "Content-Length: 5".toList,
            "content-type: c/d".toList]
          (HeaderEnd.blank "Content-Length: 9\r\n\r\nxy".toList)) zero_request = some r
        ∧ (r.body_length : Int) = 5 ∧ r.content_type = "c/d".toList.take 127) := by
  obtain ⟨h1, h2, _⟩ := last_header_line_counts "POST /echo HTTP/1.1".toList
    "Content-Length: 9\r\n\r\nxy".toList [] ["Content-Length: 3".toList,
      "Content-Type: a/b".toList, "Content-Length: 5".toList, "content-type: c/d".toList]
    zero_request (by decide) (by decide)
  obtain ⟨r, hr, hb⟩ := h1 ["Content-Length: 3".toList, "Content-Type: a/b".toList]
    "Content-Length: 5".toList ["content-type: c/d".toList] 5 rfl
    ⟨"Content-Length:".toList, " ".toList, [], by decide, by decide, by decide, by decide⟩
    (by decide) (by decide)
  obtain ⟨r2, hr2, hc⟩ := h2 ["Content-Length: 3".toList, "Content-Type: a/b".toList,
      "Content-Length: 5".toList] "content-type: c/d".toList [] "c/d".toList rfl
    ⟨"content-type:".toList, 1, by decide, by decide, by decide⟩ (by decide)
  rw [hr] at hr2
  cases hr2
  exact ⟨r, hr, (hb (by decide) (by decide)).1, hc⟩

/-- Instance of C34 on raw text: the last Content-Length line before the empty
line gives `body_length`, the one in the body does not. -/
theorem last_header_line_counts_example :
    (parse_http_request
        "POST /echo HTTP/1.1\r\nContent-Length: 3\r\nContent-Length: 5\r\n\r\nContent-Length: 9\r\n\r\nxy".toList
        zero_request).map (fun r => (r.body, r.body_length))
      = some (some "Conte".toList, 5) := by
  decide

/-! ## The in-place loop of `url_decode` -/

theorem getD_append_add (pre l : List Char) (i : Nat) (d : Char) :
    (pre ++ l).getD (pre.length + i) d = l.getD i d := by
  induction pre with
  | nil => simp
  | cons x pre ih =>
    have e : (x :: pre).length + i = (pre.length + i) + 1 := by
      simp only [List.length_cons]
      omega
    rw [e, List.cons_append, List.getD_cons_succ]
    exact ih

theorem set_append_cons (done tl : List Char) (x v : Char) :
    (done ++ x :: tl).set done.length v = done ++ v :: tl := by
  induction done with
  | nil => rfl
  | cons y done ih =>
    simp only [List.cons_append, List.length_cons, List.set_cons_succ, ih]

theorem set_gap (done gap chunk tail : List Char) (v : Char) (hc : chunk ≠ []) :
    ∃ gap1, (done ++ gap ++ chunk ++ tail).set done.length v = (done ++ [v]) ++ gap1 ++ tail
      ∧ gap1.length + 1 = gap.length + chunk.length := by
  cases gap with
  | nil =>
    cases chunk with
    | nil => exact absurd rfl hc
    | cons x xs =>
      refine ⟨xs, ?_, by simp⟩
      have e : done ++ [] ++ (x :: xs) ++ tail = done ++ x :: (xs ++ tail) := by simp
      rw [e, set_append_cons]
      simp
  | cons g gs =>
    refine ⟨gs ++ chunk, ?_, by simp; omega⟩
    have e : done ++ (g :: gs) ++ chunk ++ tail = done ++ g :: (gs ++ chunk ++ tail) := by simp
    rw [e, set_append_cons]
    simp

theorem cstr_append_nul (a b : List Char) : cstr (a ++ NUL :: b) = cstr a := by
  induction a with
  | nil => simp [cstr]
  | cons c a ih =>
    by_cases hc : c = NUL
    · simp [cstr, hc]
    · simp [cstr, hc, ih]

theorem nul_not_mem_cstr (s : List Char) : NUL ∉ cstr s := by
  induction s with
  | nil => simp [cstr]
  | cons c s ih =>
    by_cases hc : c = NUL
    · simp [cstr, hc]
    · simp only [cstr, hc, if_false, List.mem_cons, not_or]
      exact ⟨fun e => hc e.symm, ih⟩

theorem isxdigit_nul : isxdigit NUL = false := by decide

theorem url_decode_text_percent (r : List Char)
    (h : ¬ ∃ a b r2, r = a :: b :: r2 ∧ isxdigit a = true ∧ isxdigit b = true) :
    url_decode_text ('%' :: r) = '%' :: url_decode_text r := by
  match r with
  | [] => simp [url_decode_text]
  | [a] => simp [url_decode_text]
  | a :: b :: r2 =>
    have hn : ¬ (isxdigit a = true ∧ isxdigit b = true) := fun hx => h ⟨a, b, r2, rfl, hx.1, hx.2⟩
    rw [url_decode_text]
    simp only [if_true, if_neg hn]

theorem url_decode_text_hex (a b : Char) (r2 : List Char)
    (ha : isxdigit a = true) (hb : isxdigit b = true) :
    url_decode_text ('%' :: a :: b :: r2) = hex_byte a b :: url_decode_text r2 := by
  rw [url_decode_text]
  simp only [if_true, if_pos (And.intro ha hb)]

theorem url_decode_text_plus (r : List Char) :
    url_decode_text ('+' :: r) = ' ' :: url_decode_text r := by
  rw [url_decode_text.eq_def]
  simp

theorem url_decode_text_other (c : Char) (r : List Char) (h1 : c ≠ '%') (h2 : c ≠ '+') :
    url_decode_text (c :: r) = c :: url_decode_text r := by
  rw [url_decode_text.eq_def]
  simp only []
  rw [if_neg h1, if_neg h2]

theorem url_decode_step_nil (done gap : List Char) :
    url_decode_step { str := done ++ gap ++ [] ++ [NUL], read := done.length + gap.length,
                      write := done.length } = none := by
  have h : (done ++ gap ++ [] ++ [NUL]).getD (done.length + gap.length) NUL = NUL := by
    have := getD_append_add (done ++ gap) [NUL] 0 NUL
    simpa using this
  unfold url_decode_step
  dsimp only
  rw [if_pos h]

theorem url_decode_step_cons (done gap r : List Char) (c : Char) (hc : c ≠ NUL) :
    ∃ v gap1 r1,
      url_decode_step { str := done ++ gap ++ (c :: r) ++ [NUL],
                        read := done.length + gap.length, write := done.length }
        = some { str := (done ++ [v]) ++ gap1 ++ r1 ++ [NUL],
                 read := (done ++ [v]).length + gap1.length, write := (done ++ [v]).length }
      ∧ url_decode_text (c :: r) = v :: url_decode_text r1
      ∧ (done ++ [v]).length + gap1.length + r1.length
        = done.length + gap.length + (c :: r).length
      ∧ r1.length < (c :: r).length
      ∧ (NUL ∉ r → NUL ∉ r1) := by
  have hget : ∀ i, (done ++ gap ++ (c :: r) ++ [NUL]).getD (done.length + gap.length + i) NUL
      = (c :: (r ++ [NUL])).getD i NUL := by
    intro i
    have := getD_append_add (done ++ gap) (c :: (r ++ [NUL])) i NUL
    simpa using this
  have h0 : (done ++ gap ++ (c :: r) ++ [NUL]).getD (done.length + gap.length) NUL = c := by
    have := hget 0
    simpa using this
  have h1 : (done ++ gap ++ (c :: r) ++ [NUL]).getD (done.length + gap.length + 1) NUL
      = (r ++ [NUL]).getD 0 NUL := by
    rw [hget 1]
    rfl
  have h2 : (done ++ gap ++ (c :: r) ++ [NUL]).getD (done.length + gap.length + 2) NUL
      = (r ++ [NUL]).getD 1 NUL := by
    rw [hget 2]
    rfl
  unfold url_decode_step
  dsimp only
  rw [h0, h1, h2, if_neg hc]
  by_cases hx : ∃ a b r2, r = a :: b :: r2 ∧ isxdigit a = true ∧ isxdigit b = true
  · obtain ⟨a, b, r2, hr, ha, hb⟩ := hx
    by_cases hp : c = '%'
    · have e0 : (r ++ [NUL]).getD 0 NUL = a := by rw [hr]; rfl
      have e1 : (r ++ [NUL]).getD 1 NUL = b := by rw [hr]; rfl
      rw [e0, e1, if_pos ⟨hp, ha, hb⟩]
      obtain ⟨gap1, hg, hl⟩ := set_gap done gap ['%', a, b] (r2 ++ [NUL]) (hex_byte a b)
        (by simp)
      refine ⟨hex_byte a b, gap1, r2, ?_, ?_, ?_, ?_, ?_⟩
      · have e : done ++ gap ++ (c :: r) ++ [NUL]
            = done ++ gap ++ ['%', a, b] ++ (r2 ++ [NUL]) := by
          rw [hp, hr]
          simp
        rw [e, hg]
        simp only [List.length_append, List.length_singleton, List.append_assoc]
        have el : done.length + gap.length + 3 = done.length + 1 + gap1.length := by
          simp only [List.length_cons, List.length_nil] at hl
          omega
        rw [el]
      · rw [hp, hr]
        exact url_decode_text_hex a b r2 ha hb
      · simp only [List.length_append, List.length_cons, List.length_nil] at hl ⊢
        rw [hr]
        simp only [List.length_cons]
        omega
      · rw [hr]
        simp only [List.length_cons]
        omega
      · intro hn
        rw [hr] at hn
        simp only [List.mem_cons, not_or] at hn
        exact hn.2.2
    · have hcond : ¬ (c = '%' ∧ isxdigit ((r ++ [NUL]).getD 0 NUL) = true
          ∧ isxdigit ((r ++ [NUL]).getD 1 NUL) = true) := fun h => hp h.1
      rw [if_neg hcond]
      obtain ⟨gap1, hg, hl⟩ := set_gap done gap [c] (r ++ [NUL])
        (if c = '+' then ' ' else c) (by simp)
      have e : done ++ gap ++ (c :: r) ++ [NUL] = done ++ gap ++ [c] ++ (r ++ [NUL]) := by
        simp
      refine ⟨if c = '+' then ' ' else c, gap1, r, ?_, ?_, ?_, ?_, fun hn => hn⟩
      · rw [e]
        by_cases hplus : c = '+'
        · rw [if_pos hplus, if_pos hplus] at *
          rw [hg]
          simp only [List.length_append, List.length_singleton, List.append_assoc]
          have el : done.length + gap.length + 1 = done.length + 1 + gap1.length := by
            simp only [List.length_cons, List.length_nil] at hl
            omega
          rw [el]
        · rw [if_neg hplus] at hg ⊢
          rw [if_neg hplus, hg]
          simp only [List.length_append, List.length_singleton, List.append_assoc]
          have el : done.length + gap.length + 1 = done.length + 1 + gap1.length := by
            simp only [List.length_cons, List.length_nil] at hl
            omega
          rw [el]
      · by_cases hplus : c = '+'
        · rw [if_pos hplus, hplus]
          exact url_decode_text_plus r
        · rw [if_neg hplus]
          exact url_decode_text_other c r hp hplus
      · simp only [List.length_append, List.length_cons, List.length_nil] at hl ⊢
        omega
      · simp
  · have hcond : ¬ (c = '%' ∧ isxdigit ((r ++ [NUL]).getD 0 NUL) = true
        ∧ isxdigit ((r ++ [NUL]).getD 1 NUL) = true) := by
      rintro ⟨_, ha, hb⟩
      apply hx
      match r, ha, hb with
      | [], ha, _ =>
        exact absurd (show isxdigit NUL = true from ha) (by decide)
      | [a], _, hb =>
        exact absurd (show isxdigit NUL = true from hb) (by decide)
      | a :: b :: r2, ha, hb => exact ⟨a, b, r2, rfl, ha, hb⟩
    rw [if_neg hcond]
    obtain ⟨gap1, hg, hl⟩ := set_gap done gap [c] (r ++ [NUL])
      (if c = '+' then ' ' else c) (by simp)
    have e : done ++ gap ++ (c :: r) ++ [NUL] = done ++ gap ++ [c] ++ (r ++ [NUL]) := by
      simp
    refine ⟨if c = '+' then ' ' else c, gap1, r, ?_, ?_, ?_, ?_, fun hn => hn⟩
    · rw [e]
      by_cases hplus : c = '+'
      · rw [if_pos hplus, if_pos hplus] at *
        rw [hg]
        simp only [List.length_append, List.length_singleton, List.append_assoc]
        have el : done.length + gap.length + 1 = done.length + 1 + gap1.length := by
          simp only [List.length_cons, List.length_nil] at hl
          omega
        rw [el]
      · rw [if_neg hplus] at hg ⊢
        rw [if_neg hplus, hg]
        simp only [List.length_append, List.length_singleton, List.append_assoc]
        have el : done.length + gap.length + 1 = done.length + 1 + gap1.length := by
          simp only [List.length_cons, List.length_nil] at hl
          omega
        rw [el]
    · by_cases hplus : c = '+'
      · rw [if_pos hplus, hplus]
        exact url_decode_text_plus r
      · rw [if_neg hplus]
        by_cases hp : c = '%'
        · rw [hp]
          exact url_decode_text_percent r hx
        · exact url_decode_text_other c r hp hplus
    · simp only [List.length_append, List.length_cons, List.length_nil] at hl ⊢
      omega
    · simp

theorem url_decode_loop_spec (fuel : Nat) (done gap rest : List Char) (hr : NUL ∉ rest)
    (hf : rest.length < fuel) :
    ∃ gap1, url_decode_loop fuel { str := done ++ gap ++ rest ++ [NUL],
                                   read := done.length + gap.length, write := done.length }
      = some { str := (done ++ url_decode_text rest) ++ gap1 ++ [NUL],
               read := (done ++ url_decode_text rest).length + gap1.length,
               write := (done ++ url_decode_text rest).length } := by
  induction fuel generalizing done gap rest with
  | zero => omega
  | succ fuel ih =>
    cases rest with
    | nil =>
      refine ⟨gap, ?_⟩
      rw [url_decode_loop, url_decode_step_nil]
      simp [url_decode_text]
    | cons c r =>
      simp only [List.mem_cons, not_or] at hr
      obtain ⟨v, gap1, r1, hs, ht, _, hlt, hn⟩ :=
        url_decode_step_cons done gap r c (fun e => hr.1 e.symm)
      obtain ⟨gap2, h2⟩ := ih (done ++ [v]) gap1 r1 (hn hr.2) (by
        simp only [List.length_cons] at hlt hf
        omega)
      refine ⟨gap2, ?_⟩
      rw [url_decode_loop, hs]
      dsimp only
      rw [h2, ht]
      simp

theorem url_decode_eq (s : List Char) :
    url_decode s = some (cstr (url_decode_text (cstr s))) := by
  obtain ⟨gap1, h⟩ := url_decode_loop_spec ((cstr s).length + 1) [] [] (cstr s)
    (nul_not_mem_cstr s) (by omega)
  have e : ([] : List Char) ++ [] ++ cstr s ++ [NUL] = cstr s ++ [NUL] := by simp
  simp only [e, List.length_nil, Nat.add_zero, List.nil_append] at h
  unfold url_decode
  rw [h]
  simp only [Option.map_some']
  have e2 : (url_decode_text (cstr s) ++ gap1 ++ [NUL]).set (url_decode_text (cstr s)).length NUL
      = url_decode_text (cstr s) ++ NUL :: (gap1 ++ [NUL]).tail := by
    cases gap1 with
    | nil => simp
    | cons g gs => simp
  rw [e2, cstr_append_nul]

theorem url_decode_passes_spec (n : Nat) (done gap rest : List Char) (st : UrlState)
    (h : url_decode_passes n { str := done ++ gap ++ rest ++ [NUL],
                               read := done.length + gap.length, write := done.length }
      = some st) :
    ∃ done1 gap1 rest1, st = { str := done1 ++ gap1 ++ rest1 ++ [NUL],
                               read := done1.length + gap1.length, write := done1.length }
      ∧ done1.length + gap1.length + rest1.length = done.length + gap.length + rest.length := by
  induction n generalizing done gap rest with
  | zero =>
    rw [url_decode_passes] at h
    cases h
    exact ⟨done, gap, rest, rfl, rfl⟩
  | succ n ih =>
    rw [url_decode_passes] at h
    cases rest with
    | nil =>
      rw [url_decode_step_nil] at h
      cases h
    | cons c r =>
      by_cases hc : c = NUL
      · have hz : url_decode_step
            { str := done ++ gap ++ (c :: r) ++ [NUL],
              read := done.length + gap.length, write := done.length } = none := by
          have hg := getD_append_add (done ++ gap) (c :: (r ++ [NUL])) 0 NUL
          have h0 : (done ++ gap ++ (c :: r) ++ [NUL]).getD (done.length + gap.length) NUL
              = NUL := by
            simpa [hc] using hg
          unfold url_decode_step
          dsimp only
          rw [if_pos h0]
        rw [hz] at h
        cases h
      · obtain ⟨v, gap1, r1, hs, _, hlen, _, _⟩ := url_decode_step_cons done gap r c hc
        rw [hs] at h
        dsimp only at h
        obtain ⟨done2, gap2, rest2, e, hl⟩ := ih (done ++ [v]) gap1 r1 h
        exact ⟨done2, gap2, rest2, e, by omega⟩

theorem url_decode_text_length_aux (n : Nat) :
    ∀ l : List Char, l.length = n → (url_decode_text l).length ≤ l.length := by
  induction n using Nat.strong_induction_on with
  | _ n ih =>
    intro l h
    cases l with
    | nil => simp [url_decode_text]
    | cons c r =>
      by_cases hx : ∃ a b r2, r = a :: b :: r2 ∧ isxdigit a = true ∧ isxdigit b = true
      · obtain ⟨a, b, r2, hr, ha, hb⟩ := hx
        by_cases hp : c = '%'
        · rw [hp, hr, url_decode_text_hex a b r2 ha hb]
          have := ih r2.length (by rw [← h, hr]; simp; omega) r2 rfl
          simp only [List.length_cons]
          omega
        · have hr2 := ih r.length (by rw [← h]; simp) r rfl
          by_cases hplus : c = '+'
          · rw [hplus, url_decode_text_plus]
            simp only [List.length_cons]
            omega
          · rw [url_decode_text_other c r hp hplus]
            simp only [List.length_cons]
            omega
      · have hr2 := ih r.length (by rw [← h]; simp) r rfl
        by_cases hplus : c = '+'
        · rw [hplus, url_decode_text_plus]
          simp only [List.length_cons]
          omega
        · by_cases hp : c = '%'
          · rw [hp, url_decode_text_percent r hx]
            simp only [List.length_cons]
            omega
          · rw [url_decode_text_other c r hp hplus]
            simp only [List.length_cons]
            omega

theorem url_decode_text_length (l : List Char) : (url_decode_text l).length ≤ l.length :=
  url_decode_text_length_aux l.length l rfl

/-- C36: for every string, `url_decode` returns; after any number of passes of
its loop the write offset is at most the read offset and the read offset is at
most the length of the string, the buffer keeping its size; the result is the
text decoded from the original string from left to right, cut at a decoded NUL
byte, and it is no longer than the string. -/
theorem url_decode_in_place (s : List Char) :
    (∃ r, url_decode s = some r
        ∧ r = cstr (url_decode_text (cstr s))
        ∧ r.length ≤ (cstr s).length)
      ∧ ∀ n st, url_decode_passes n { str := cstr s ++ [NUL], read := 0, write := 0 } = some st →
          st.write ≤ st.read ∧ st.read ≤ (cstr s).length
            ∧ st.str.length = (cstr s).length + 1 := by
  constructor
  · refine ⟨_, url_decode_eq s, rfl, ?_⟩
    exact le_trans (cstr_length_le _) (url_decode_text_length _)
  · intro n st h
    have e : cstr s ++ [NUL] = ([] : List Char) ++ [] ++ cstr s ++ [NUL] := by simp
    rw [e] at h
    obtain ⟨done1, gap1, rest1, hst, hl⟩ := url_decode_passes_spec n [] [] (cstr s) st h
    rw [hst]
    simp only [List.length_nil, Nat.zero_add] at hl
    simp only [List.length_append, List.length_singleton]
    omega

/-- Instances of C36: `a%41+b%zz%4` is decoded to `aA b%zz%4`; after two
passes on it the read offset is 4 and the write offset 2; a decoded `%00` cuts
the result. -/
theorem url_decode_in_place_example :
    url_decode "a%41+b%zz%4".toList = some "aA b%zz%4".toList
      ∧ (url_decode_passes 2 { str := "a%41+b%zz%4".toList ++ [NUL], read := 0, write := 0 }).map
          (fun st => (st.read, st.write, st.str))
        = some (4, 2, "aA41+b%zz%4".toList ++ [NUL])
      ∧ url_decode "a%00b".toList = some "a".toList := by
  decide

/-! ## Decoding a percent-encoding -/

theorem isxdigit_ne_nul (a : Char) (h : isxdigit a = true) : a ≠ NUL := by
  rintro rfl
  exact absurd h (by decide)

theorem percent_encoding_decodes (s t : List Char) (h : is_percent_encoding s t = true) :
    url_decode_text t = s ∧ NUL ∉ t := by
  induction s generalizing t with
  | nil =>
    match t, h with
    | [], _ => exact ⟨rfl, by simp⟩
    | _ :: _, h => simp [is_percent_encoding] at h
  | cons c s ih =>
    match t, h with
    | [], h => simp [is_percent_encoding] at h
    | [_], h => simp [is_percent_encoding] at h
    | [_, _], h => simp [is_percent_encoding] at h
    | p :: a :: b :: t1, h =>
      by_cases hp : p = '%'
      · subst hp
        rw [is_percent_encoding] at h
        simp only [Bool.and_eq_true, beq_iff_eq] at h
        obtain ⟨⟨⟨ha, hb⟩, hv⟩, hrest⟩ := h
        obtain ⟨h1, h2⟩ := ih t1 hrest
        constructor
        · rw [url_decode_text_hex a b t1 ha hb, h1]
          unfold hex_byte
          rw [hv]
          simp
        · simp only [List.mem_cons, not_or]
          exact ⟨by decide, fun e => isxdigit_ne_nul a ha e.symm,
            fun e => isxdigit_ne_nul b hb e.symm, h2⟩
      · rw [is_percent_encoding] at h
        · cases h
        · intro e1 _
          cases e1
        · intro c1 s1 a1 b1 t2 _ e2
          simp only [List.cons.injEq] at e2
          exact hp e2.1

theorem url_decode_text_plain (l : List Char) (h1 : '%' ∉ l) (h2 : '+' ∉ l) :
    url_decode_text l = l := by
  induction l with
  | nil => simp [url_decode_text]
  | cons c r ih =>
    simp only [List.mem_cons, not_or] at h1 h2
    rw [url_decode_text_other c r (fun e => h1.1 e.symm) (fun e => h2.1 e.symm),
      ih h1.2 h2.2]

theorem hex_digit_spec (upper : Bool) (n : Nat) (h : n < 16) :
    isxdigit (hex_digit upper n) = true ∧ hex_value (hex_digit upper n) = n := by
  cases upper <;> interval_cases n <;> decide

theorem percent_encode_is_encoding (upper : Bool) (s : List Char)
    (h : ∀ c ∈ s, c.toNat < 256) : is_percent_encoding s (percent_encode upper s) = true := by
  induction s with
  | nil => rfl
  | cons c s ih =>
    have hc := h c (by simp)
    have d1 := hex_digit_spec upper (c.toNat / 16) (by omega)
    have d2 := hex_digit_spec upper (c.toNat % 16) (Nat.mod_lt _ (by omega))
    rw [percent_encode, is_percent_encoding]
    simp only [Bool.and_eq_true, beq_iff_eq]
    refine ⟨⟨⟨d1.1, d2.1⟩, ?_⟩, ih (fun x hx => h x (by simp [hx]))⟩
    rw [d1.2, d2.2]
    omega

/-- C37: for every byte string `s` without a NUL byte, `url_decode` applied to
a percent-encoding of `s` (each byte as `%` and two hexadecimal digits of its
value, in upper or lower case) returns `s`, in particular applied to the
encoding with upper-case digits and to the one with lower-case digits; and
`url_decode` returns every string without `%`, `+` and NUL unchanged. -/
theorem url_decode_inverts_encoding (s t : List Char) (upper : Bool) (hn : NUL ∉ s) :
    (is_percent_encoding s t = true → url_decode t = some s)
      ∧ ((∀ c ∈ s, c.toNat < 256) → url_decode (percent_encode upper s) = some s)
      ∧ ('%' ∉ s → '+' ∉ s → url_decode s = some s) := by
  have key : ∀ u, is_percent_encoding s u = true → url_decode u = some s := by
    intro u hu
    obtain ⟨h1, h2⟩ := percent_encoding_decodes s u hu
    rw [url_decode_eq, cstr_of_not_mem u h2, h1, cstr_of_not_mem s hn]
  refine ⟨key t, fun hb => key _ (percent_encode_is_encoding upper s hb), ?_⟩
  intro h1 h2
  rw [url_decode_eq, cstr_of_not_mem s hn, url_decode_text_plain s h1 h2, cstr_of_not_mem s hn]

/-- Witness of C37: `%48%65%6c%6C%6f` is a percent-encoding of `Hello` with
digits of both letter cases, `a b/c` is encoded as `%61%20%62%2F%63`, and
`/index.html` holds neither `%` nor `+`. -/
theorem url_decode_inverts_encoding_witness :
    (is_percent_encoding "Hello".toList "%48%65%6c%6C%6f".toList = true →
        url_decode "%48%65%6c%6C%6f".toList = some "Hello".toList)
      ∧ ((∀ c ∈ "Hello".toList, c.toNat < 256) →
          url_decode (percent_encode true "Hello".toList) = some "Hello".toList)
      ∧ ('%' ∉ "Hello".toList → '+' ∉ "Hello".toList →
          url_decode "Hello".toList = some "Hello".toList) :=
  url_decode_inverts_encoding "Hello".toList "%48%65%6c%6C%6f".toList true (by decide)

/-- Instances of C37, evaluated: the encodings and their decodings. -/
theorem url_decode_inverts_encoding_example :
    is_percent_encoding "Hello".toList "%48%65%6c%6C%6f".toList = true
      ∧ url_decode "%48%65%6c%6C%6f".toList = some "Hello".toList
      ∧ percent_encode true "a b/c".toList = "%61%20%62%2F%63".toList
      ∧ percent_encode false "a b/c".toList = "%61%20%62%2f%63".toList
      ∧ url_decode "%61%20%62%2f%63".toList = some "a b/c".toList
      ∧ url_decode "/index.html".toList = some "/index.html".toList
      ∧ url_decode "a+b".toList = some "a b".toList := by
  decide

/-! ## The strings `handle_api_users_post` echoes -/

theorem escape_char_cases (c : Char) :
    (needs_escape c = true ∧ ∃ x, escape_char c = ['\\', x]
        ∧ (if x = 'n' then '\n' else if x = 'r' then '\r' else if x = 't' then '\t' else x) = c)
      ∨ (needs_escape c = false ∧ c ≠ '"' ∧ c ≠ '\\' ∧ escape_char c = [c]) := by
  unfold escape_char needs_escape
  by_cases h1 : c = '"'
  · subst h1; exact Or.inl ⟨by decide, '"', by decide, by decide⟩
  by_cases h2 : c = '\\'
  · subst h2; exact Or.inl ⟨by decide, '\\', by decide, by decide⟩
  by_cases h3 : c = '\n'
  · subst h3; exact Or.inl ⟨by decide, 'n', by decide, by decide⟩
  by_cases h4 : c = '\r'
  · subst h4; exact Or.inl ⟨by decide, 'r', by decide, by decide⟩
  by_cases h5 : c = '\t'
  · subst h5; exact Or.inl ⟨by decide, 't', by decide, by decide⟩
  refine Or.inr ⟨by simp [h1, h2, h3, h4, h5], h1, h2, by simp [h1, h2, h3, h4, h5]⟩

theorem json_unescape_cons (c : Char) (t : List Char) (h : c ≠ '\\') :
    json_unescape (c :: t) = c :: json_unescape t := by
  cases t with
  | nil => rfl
  | cons d ds => rw [json_unescape, if_neg h]

theorem json_unescape_escape_all (n : List Char) : json_unescape (escape_all n) = n := by
  induction n with
  | nil => rfl
  | cons c n ih =>
    rw [escape_all]
    rcases escape_char_cases c with ⟨_, x, hx, hd⟩ | ⟨_, _, hb, hx⟩
    · rw [hx]
      show json_unescape ('\\' :: x :: escape_all n) = c :: n
      rw [json_unescape, if_pos rfl, ih, hd]
    · rw [hx]
      show json_unescape (c :: escape_all n) = c :: n
      rw [json_unescape_cons c _ hb, ih]

theorem scan_string_cons (c : Char) (t : List Char) (hq : c ≠ '"') (hb : c ≠ '\\')
    (ht : t ≠ []) : scan_string (c :: t) = (scan_string t).map (fun v => c :: v) := by
  cases t with
  | nil => exact absurd rfl ht
  | cons d ds => rw [scan_string, if_neg hq, if_neg hb]

theorem scan_string_escape_all (n t : List Char) :
    scan_string (escape_all n ++ '"' :: t) = some (escape_all n) := by
  induction n with
  | nil =>
    show scan_string ('"' :: t) = some []
    cases t <;> simp [scan_string]
  | cons c n ih =>
    rw [escape_all]
    rcases escape_char_cases c with ⟨_, x, hx, _⟩ | ⟨_, hq, hb, hx⟩
    · rw [hx]
      show scan_string ('\\' :: x :: (escape_all n ++ '"' :: t)) = some ('\\' :: x :: escape_all n)
      rw [scan_string, if_neg (by decide), if_pos rfl, ih]
      rfl
    · rw [hx]
      show scan_string (c :: (escape_all n ++ '"' :: t)) = some (c :: escape_all n)
      rw [scan_string_cons c _ hq hb (by simp), ih]
      rfl

theorem escape_all_length (n : List Char) : n.length ≤ (escape_all n).length := by
  induction n with
  | nil => exact Nat.le_refl _
  | cons c n ih =>
    rw [escape_all, List.length_append, List.length_cons]
    have := escape_char_length c
    omega

theorem escape_all_longer (n : List Char) (h : ∃ c ∈ n, needs_escape c = true) :
    n.length < (escape_all n).length := by
  induction n with
  | nil =>
    obtain ⟨c, hc, _⟩ := h
    cases hc
  | cons d n ih =>
    rw [escape_all, List.length_append, List.length_cons]
    obtain ⟨c, hc, hn⟩ := h
    rcases escape_char_cases d with ⟨_, x, hx, _⟩ | ⟨hd, _, _, hx⟩
    · rw [hx]
      have := escape_all_length n
      simp only [List.length_cons, List.length_nil]
      omega
    · rw [hx]
      rcases List.mem_cons.mp hc with e | hm
      · rw [e, hd] at hn
        cases hn
      · have := ih ⟨c, hm, hn⟩
        simp only [List.length_cons, List.length_nil]
        omega

theorem find_string_users_name (n e : List Char) :
    find_string (users_body n e) "name".toList = some (escape_all n) := by
  apply find_string_of_rest _ _
    (escape_all n ++ '"' :: (",\"email\":\"".toList ++ (escape_all e ++ "\"\x7d".toList)))
  · rw [strstr_rest_skip 1 (users_body n e) _ (by
      intro k hk
      interval_cases k
      rfl)]
    exact strstr_rest_here (search_key "name".toList) _ (by decide)
  · exact scan_string_escape_all n _

theorem users_post_created (rand : Nat) (request : HttpRequest) (body name email : List Char)
    (hb : request.body = some body)
    (hn : find_string body "name".toList = some name)
    (he : find_string body "email".toList = some email) :
    handle_api_users_post rand request
      = Except.ok (json_text_response 201
          (user_created_text rand (escape_loop name 0) (escape_loop email 0)
            (escape_loop ((find_string body "role".toList).getD "user".toList) 0))) := by
  unfold handle_api_users_post
  simp only [hb, json_get_string_value_some, hn, he]
  rw [json_response_ok]
  cases find_string body "role".toList <;> rfl

/-- C35: `handle_api_users_post` does not echo the submitted strings. On the
body `{"name":"a\"b","email":"x@y"}`, whose name literal encodes the three
characters a, double quote, b, the 201 answer holds the name literal `a\\\"b`,
which decodes to the four characters a, backslash, double quote, b. In general,
for the body `{"name":N,"email":E}` with the literals of `n` and `e`:
`json_get_string_value` returns for the key `name` the text of the literal `N`
with its escapes, not `n`; when the key `email` yields a text, the answer is 201
and its name field is that literal text escaped once more by
`json_builder_append_escaped`; this field decodes (when the scratch buffer does
not cut it) to the text of the literal `N`, which differs from `n` as soon as
`n` holds a double quote, a backslash, a newline, a carriage return or a tab. -/
theorem users_post_escapes_twice (rand : Nat) (n e : List Char) :
    handle_api_users_post 42
        (post_request "/api/users".toList "\x7b\"name\":\"a\\\"b\",\"email\":\"x@y\"\x7d".toList)
      = Except.ok (json_text_response 201
          ("\x7b\n  \"success\": true,\n  \"message\": \"User created successfully\",\n"
            ++ "  \"data\": \x7b\n    \"id\": 142,\n    \"name\": \"a\\\\\\\"b\",\n"
            ++ "    \"email\": \"x@y\",\n    \"role\": \"user\"\n  \x7d\n\x7d").toList)
      ∧ json_unescape "a\\\\\\\"b".toList = "a\\\"b".toList
      ∧ json_unescape "a\\\"b".toList = "a\"b".toList
      ∧ find_string (users_body n e) "name".toList = some (escape_all n)
      ∧ (∀ email, find_string (users_body n e) "email".toList = some email →
          ∃ role, handle_api_users_post rand (post_request "/api/users".toList (users_body n e))
            = Except.ok (json_text_response 201
                (user_created_text rand (escape_loop (escape_all n) 0) (escape_loop email 0)
                  (escape_loop role 0))))
      ∧ json_unescape (escape_all n) = n
      ∧ ((escape_all (escape_all n)).length ≤ 2046 →
          json_unescape (escape_loop (escape_all n) 0) = escape_all n)
      ∧ ((∃ c ∈ n, needs_escape c = true) → escape_all n ≠ n) := by
  refine ⟨?_, by decide, by decide, find_string_users_name n e, ?_,
    json_unescape_escape_all n, ?_, ?_⟩
  · rw [users_post_created 42 _ "\x7b\"name\":\"a\\\"b\",\"email\":\"x@y\"\x7d".toList
      "a\\\"b".toList "x@y".toList rfl (by rfl) (by rfl)]
    have hr : find_string "\x7b\"name\":\"a\\\"b\",\"email\":\"x@y\"\x7d".toList "role".toList
        = none := by rfl
    rw [hr]
    have ht : user_created_text 42 (escape_loop "a\\\"b".toList 0) (escape_loop "x@y".toList 0)
        (escape_loop ((none : Option (List Char)).getD "user".toList) 0)
      = ("\x7b\n  \"success\": true,\n  \"message\": \"User created successfully\",\n"
            ++ "  \"data\": \x7b\n    \"id\": 142,\n    \"name\": \"a\\\\\\\"b\",\n"
            ++ "    \"email\": \"x@y\",\n    \"role\": \"user\"\n  \x7d\n\x7d").toList := by
      decide
    rw [ht]
  · intro email he
    exact ⟨_, users_post_created rand _ (users_body n e) (escape_all n) email rfl
      (find_string_users_name n e) he⟩
  · intro h
    rw [escape_loop_all _ 0 (by omega)]
    exact json_unescape_escape_all (escape_all n)
  · intro h e1
    have := escape_all_longer n h
    rw [e1] at this
    exact Nat.lt_irrefl _ this

/-- C35, example: for the name a, double quote, b and the email `x@y` the name
field of the 201 answer decodes to a, backslash, double quote, b. -/
theorem users_post_escapes_twice_example :
    (∃ role, handle_api_users_post 7
        (post_request "/api/users".toList (users_body "a\"b".toList "x@y".toList))
      = Except.ok (json_text_response 201
          (user_created_text 7 (escape_loop (escape_all "a\"b".toList) 0)
            (escape_loop "x@y".toList 0) (escape_loop role 0))))
      ∧ json_unescape (escape_loop (escape_all "a\"b".toList) 0) = "a\\\"b".toList
      ∧ "a\\\"b".toList ≠ "a\"b".toList :=
  ⟨(users_post_escapes_twice 7 "a\"b".toList "x@y".toList).2.2.2.2.1 "x@y".toList (by rfl),
    by decide, by decide⟩

/-! ## The value of the last Content-Length line, for every request -/

theorem atoi_in_int (s : List Char) : in_int (atoi s) := by
  unfold in_int atoi wrap32
  dsimp only
  omega

theorem strstr_crlf_split (t : List Char) (i : Nat) (h : strstr t CRLF = some i) :
    t = t.take i ++ CRLF ++ t.drop (i + 2) ∧ strstr (t.take i) CRLF = none := by
  induction t generalizing i with
  | nil =>
    rw [strstr_nil_crlf] at h
    cases h
  | cons c t ih =>
    rw [strstr_cons] at h
    by_cases hp : CRLF.isPrefixOf (c :: t) = true
    · rw [if_pos hp] at h
      cases h
      obtain ⟨u, hu⟩ := (crlf_isPrefixOf (c :: t)).mp hp
      rw [hu]
      exact ⟨rfl, strstr_nil_crlf⟩
    · rw [if_neg hp] at h
      cases hs : strstr t CRLF with
      | none =>
        rw [hs] at h
        cases h
      | some j =>
        rw [hs] at h
        simp only [Option.map_some', Option.some.injEq] at h
        subst h
        obtain ⟨h1, h2⟩ := ih j hs
        constructor
        · simp only [List.take_succ_cons, List.drop_succ_cons, List.cons_append]
          congr 1
        · rw [List.take_succ_cons, strstr_cons, h2]
          have hq : ¬ CRLF.isPrefixOf (c :: List.take j t) = true := by
            intro hq
            obtain ⟨u, hu⟩ := (crlf_isPrefixOf _).mp hq
            apply hp
            simp only [List.cons.injEq] at hu
            rw [(crlf_isPrefixOf _)]
            have ht := List.take_append_drop j t
            rw [hu.2] at ht
            refine ⟨u ++ List.drop j t, ?_⟩
            rw [hu.1]
            exact congrArg (List.cons '\r') ht.symm
          rw [if_neg hq]
          rfl

theorem header_section_split (n : Nat) :
    ∀ t : List Char, t.length ≤ n → NUL ∉ t →
      ∃ hs e, t = header_block hs ++ HeaderEnd.text e
        ∧ (∀ x ∈ hs, x ≠ [] ∧ is_line x) ∧ e.well_formed := by
  induction n with
  | zero =>
    intro t ht _
    have : t = [] := List.length_eq_zero.mp (by omega)
    subst this
    exact ⟨[], HeaderEnd.stop, rfl, by simp, trivial⟩
  | succ n ih =>
    intro t ht hn
    cases hs : strstr t CRLF with
    | none =>
      by_cases h0 : t = []
      · subst h0
        exact ⟨[], HeaderEnd.stop, rfl, by simp, trivial⟩
      · exact ⟨[], HeaderEnd.unterminated t, rfl, by simp, ⟨h0, hn, hs⟩⟩
    | some i =>
      obtain ⟨h1, h2⟩ := strstr_crlf_split t i hs
      have hlt := strstr_lt_length t CRLF i (by decide) hs
      cases i with
      | zero =>
        refine ⟨[], HeaderEnd.blank (t.drop 2), ?_, by simp, trivial⟩
        simpa using h1
      | succ i =>
        have hdn : NUL ∉ t.drop (i + 1 + 2) := fun hm => hn (List.mem_of_mem_drop hm)
        have hdl : (t.drop (i + 1 + 2)).length ≤ n := by
          rw [List.length_drop]
          omega
        obtain ⟨hs1, e, he, hw, hwf⟩ := ih _ hdl hdn
        refine ⟨t.take (i + 1) :: hs1, e, ?_, ?_, hwf⟩
        · rw [he] at h1
          rw [header_block]
          simp only [List.append_assoc] at h1 ⊢
          exact h1
        · intro x hx
          rcases List.mem_cons.mp hx with hx | hx
          · subst hx
            refine ⟨?_, fun hm => hn (List.mem_of_mem_take hm), h2⟩
            intro e0
            have := congrArg List.length e0
            rw [List.length_take] at this
            simp only [List.length_nil] at this
            omega
          · exact hw x hx

/-- A buffer without NUL either holds no CRLF, or it is a request line, header
lines and an end of the header section. -/
theorem request_split (t : List Char) (hn : NUL ∉ t) :
    strstr t CRLF = none
      ∨ ∃ line hs e, t = request_text line hs e ∧ is_line line
          ∧ (∀ x ∈ hs, x ≠ [] ∧ is_line x) ∧ e.well_formed := by
  cases hs : strstr t CRLF with
  | none => exact Or.inl rfl
  | some i =>
    right
    obtain ⟨h1, h2⟩ := strstr_crlf_split t i hs
    obtain ⟨hs1, e, he, hw, hwf⟩ := header_section_split (t.drop (i + 2)).length
      (t.drop (i + 2)) (Nat.le_refl _) (fun hm => hn (List.mem_of_mem_drop hm))
    refine ⟨t.take i, hs1, e, ?_, ⟨fun hm => hn (List.mem_of_mem_take hm), h2⟩, hw, hwf⟩
    unfold request_text
    rw [List.append_assoc, ← he]
    exact h1

theorem cstr_idem (raw : List Char) : cstr (cstr raw) = cstr raw :=
  cstr_of_not_mem _ (nul_not_mem_cstr raw)

theorem parse_http_request_cstr (raw : List Char) (request : HttpRequest) :
    parse_http_request (cstr raw) request = parse_http_request raw request := by
  unfold parse_http_request
  rw [cstr_idem]

/-- A list of header lines holds no Content-Length line, or it has a last one. -/
theorem last_content_length_line (hs : List (List Char)) :
    (∀ x ∈ hs, strncasecmp_eq x "Content-Length:".toList 15 = false)
      ∨ ∃ hs1 h hs2, hs = hs1 ++ h :: hs2
          ∧ strncasecmp_eq h "Content-Length:".toList 15 = true
          ∧ ∀ x ∈ hs2, strncasecmp_eq x "Content-Length:".toList 15 = false := by
  induction hs with
  | nil => exact Or.inl (by simp)
  | cons a hs ih =>
    rcases ih with ih | ⟨hs1, h, hs2, e, hh, hl⟩
    · cases ha : strncasecmp_eq a "Content-Length:".toList 15 with
      | true => exact Or.inr ⟨[], a, hs, rfl, ha, ih⟩
      | false =>
        left
        intro x hx
        rcases List.mem_cons.mp hx with hx | hx
        · rw [hx]; exact ha
        · exact ih x hx
    · exact Or.inr ⟨a :: hs1, h, hs2, by rw [e]; rfl, hh, hl⟩

theorem apply_headers_last_content_length (hs1 hs2 : List (List Char)) (h : List Char)
    (st : HeaderState) (hh : strncasecmp_eq h "Content-Length:".toList 15 = true)
    (hl : ∀ x ∈ hs2, strncasecmp_eq x "Content-Length:".toList 15 = false) :
    (apply_headers (hs1 ++ h :: hs2) st).content_length = size_t_of_int (atoi (h.drop 15)) := by
  rw [apply_headers_append]
  show (apply_headers hs2 (header_step h (apply_headers hs1 st) none)).content_length = _
  rw [apply_headers_content_length hs2 _ hl]
  simp only [header_step, hh, if_true]

theorem decimal_int_nat (n : Nat) : decimal_int (n : Int) = decimal n := by
  unfold decimal_int
  rw [if_neg (by omega)]
  rfl

/-- The body step with the value an `int` converts to: when the buffer is
allocated, the value is positive or -1. -/
theorem malloc_succeeds_of_int (v : Int) (hv : in_int v) (h0 : 0 < size_t_of_int v)
    (ha : malloc_succeeds ((size_t_of_int v + 1) % 2 ^ 64) = true) :
    (0 < v ∧ ((size_t_of_int v : Nat) : Int) = v) ∨ (v = -1 ∧ size_t_of_int v = 2 ^ 64 - 1) := by
  unfold malloc_succeeds at ha
  have ha2 := of_decide_eq_true ha
  unfold in_int at hv
  unfold size_t_of_int at h0 ha2 ⊢
  omega

/-- C13: for every raw request parsed into a request that holds no body (as
the zeroed request of the connection handler), the parser returns, and when the
parsed request has a body then the text of the request is a request line, header
lines and the end of the header section, among the header lines there is a last
one `h` whose first 15 bytes are `Content-Length:` in some letter case, and
`body_length` is the value `atoi` reads from the text of `h` after these 15
bytes, converted from `int` to `size_t`. That value is positive, and then
`body_length` is the value itself, or it is -1, and then `body_length` is
2^64 - 1. When the text after the name is white space, the decimal digits of a
number `N` with `0 < N < 2^31` and no further digit, `body_length` is `N`. -/
theorem body_length_is_atoi_value (raw : List Char) (request : HttpRequest)
    (hb : request.body = none) :
    ∃ r, parse_http_request raw request = some r
      ∧ (r.body ≠ none →
          ∃ line hs1 h hs2 e,
            cstr raw = request_text line (hs1 ++ h :: hs2) e
            ∧ is_line line ∧ (∀ x ∈ hs1 ++ h :: hs2, x ≠ [] ∧ is_line x)
            ∧ e.well_formed ∧ HeaderEnd.lines e = []
            ∧ strncasecmp_eq h "Content-Length:".toList 15 = true
            ∧ (∀ x ∈ hs2, strncasecmp_eq x "Content-Length:".toList 15 = false)
            ∧ r.method = HttpMethod.HTTP_POST
            ∧ r.body_length = size_t_of_int (atoi (h.drop 15))
            ∧ ((0 < atoi (h.drop 15) ∧ (r.body_length : Int) = atoi (h.drop 15))
                ∨ (atoi (h.drop 15) = -1 ∧ r.body_length = 2 ^ 64 - 1))
            ∧ ∀ (ws junk : List Char) (N : Nat),
                h.drop 15 = ws ++ (decimal N ++ junk) → ws.all isspace = true →
                junk.takeWhile isdigit = [] → 0 < N → N < 2 ^ 31 → r.body_length = N) := by
  rcases request_split (cstr raw) (nul_not_mem_cstr raw) with hno | ⟨line, hs, e, ht, hline, hhs, hwf⟩
  · -- no CRLF: the header loop does not run
    have hc : (cut_line (cstr raw)).2 = none := by
      rw [cut_line_of_no_crlf _ hno]
    have hloop : header_loop ((cstr raw).length + 1)
        { line := (cut_line (cstr raw)).2, content_type := request.content_type,
          content_length := 0 }
        = some { line := (cut_line (cstr raw)).2, content_type := request.content_type,
                 content_length := 0 } := header_loop_none _ _ hc
    refine ⟨_, parse_http_request_finish raw request _ hloop, ?_⟩
    intro hne
    exfalso
    apply hne
    rw [(finish_request_no_body request _ _ (fun c => c.2.2 hc)).1]
    exact hb
  · have hp := parse_request_text line hs e request hline hhs hwf
    rw [← ht, parse_http_request_cstr] at hp
    refine ⟨_, hp, ?_⟩
    intro hne
    by_cases c : parse_method line = HttpMethod.HTTP_POST
        ∧ 0 < (final_state request hs e).content_length
        ∧ (final_state request hs e).line ≠ none
    · obtain ⟨hpost, hpos, hl⟩ := c
      have hel : HeaderEnd.lines e = [] := by
        cases e with
        | blank rest => rfl
        | stop => rfl
        | unterminated last => exact absurd rfl hl
      obtain ⟨rest, hrest⟩ : ∃ rest, (final_state request hs e).line = some rest := by
        cases hq : (final_state request hs e).line with
        | none => exact absurd hq hl
        | some rest => exact ⟨rest, rfl⟩
      have hcl0 : (final_state request hs e).content_length
          = (apply_headers hs (initial_state request)).content_length := by
        show (apply_headers (hs ++ HeaderEnd.lines e) (initial_state request)).content_length = _
        rw [hel, List.append_nil]
      rcases last_content_length_line hs with hnone | ⟨hs1, h, hs2, ehs, hh, hlast⟩
      · rw [hcl0, apply_headers_content_length hs _ hnone] at hpos
        exact absurd hpos (Nat.lt_irrefl 0)
      · have hcl : (final_state request hs e).content_length
            = size_t_of_int (atoi (h.drop 15)) := by
          rw [hcl0, ehs]
          exact apply_headers_last_content_length hs1 hs2 h _ hh hlast
        have hbl := finish_request_some_line request line _ rest hrest
        rw [if_pos ⟨hpost, hpos⟩, hcl] at hbl
        have ha : malloc_succeeds (((final_state request hs e).content_length + 1) % 2 ^ 64)
            = true := by
          cases hm : malloc_succeeds (((final_state request hs e).content_length + 1) % 2 ^ 64) with
          | true => rfl
          | false =>
            exact absurd (finish_request_malloc_fails request line _ rest hrest hpost hpos hm).1 hne
        rw [hcl] at ha hpos
        have hv := malloc_succeeds_of_int _ (atoi_in_int (h.drop 15)) hpos ha
        refine ⟨line, hs1, h, hs2, e, by rw [ht, ehs], hline, by rw [← ehs]; exact hhs, hwf, hel,
          hh, hlast, by rw [finish_request_method]; exact hpost, hbl, ?_, ?_⟩
        · rw [hbl]
          exact hv
        · intro ws junk N hd hws hj h0 h1
          have hat : atoi (h.drop 15) = (N : Int) := by
            rw [hd, ← decimal_int_nat N]
            exact atoi_decimal_int ws junk N hws hj (by unfold in_int; omega)
          rw [hbl, hat]
          exact size_t_of_int_nat N (by omega)
    · exfalso
      apply hne
      rw [(finish_request_no_body request line _ c).1]
      exact hb

/-- Witness of C13: the request with the lines `Content-Length: 3` and
`content-length: +0012x` gets the body of 12 bytes; `atoi` reads 12 from the
text `+0012x`. -/
theorem body_length_is_atoi_value_witness :
    ∃ r, parse_http_request
        "POST /echo HTTP/1.1\r\nContent-Length: 3\r\ncontent-length: +0012x\r\n\r\nhello, world!".toList
        zero_request = some r
      ∧ (r.body ≠ none →
          ∃ line hs1 h hs2 e,
            cstr "POST /echo HTTP/1.1\r\nContent-Length: 3\r\ncontent-length: +0012x\r\n\r\nhello, world!".toList
              = request_text line (hs1 ++ h :: hs2) e
            ∧ is_line line ∧ (∀ x ∈ hs1 ++ h :: hs2, x ≠ [] ∧ is_line x)
            ∧ e.well_formed ∧ HeaderEnd.lines e = []
            ∧ strncasecmp_eq h "Content-Length:".toList 15 = true
            ∧ (∀ x ∈ hs2, strncasecmp_eq x "Content-Length:".toList 15 = false)
            ∧ r.method = HttpMethod.HTTP_POST
            ∧ r.body_length = size_t_of_int (atoi (h.drop 15))
            ∧ ((0 < atoi (h.drop 15) ∧ (r.body_length : Int) = atoi (h.drop 15))
                ∨ (atoi (h.drop 15) = -1 ∧ r.body_length = 2 ^ 64 - 1))
            ∧ ∀ (ws junk : List Char) (N : Nat),
                h.drop 15 = ws ++ (decimal N ++ junk) → ws.all isspace = true →
                junk.takeWhile isdigit = [] → 0 < N → N < 2 ^ 31 → r.body_length = N) :=
  body_length_is_atoi_value _ zero_request rfl

/-- Instances of C13, evaluated: values that are no plain decimal number of the
`int` range. The text `+0012x` gives the length 12; 2147483648 is read as
-2147483648, the size is refused by `malloc` and no body is stored while
`body_length` is 2^64 - 2^31; -1 gives a body and the length 2^64 - 1; without a
Content-Length line no body is stored. -/
theorem body_length_is_atoi_value_example :
    (parse_http_request
        "POST /echo HTTP/1.1\r\nContent-Length: 3\r\ncontent-length: +0012x\r\n\r\nhello, world!".toList
        zero_request).map (fun r => (r.body, r.body_length))
      = some (some "hello, world".toList, 12)
    ∧ atoi " +0012x".toList = 12
    ∧ (parse_http_request
        "POST /echo HTTP/1.1\r\nContent-Length: 2147483648\r\n\r\nhello".toList
        zero_request).map (fun r => (r.body, r.body_length))
      = some (none, 18446744071562067968)
    ∧ (parse_http_request
        "POST /echo HTTP/1.1\r\nContent-Length: -1\r\n\r\nhello".toList
        zero_request).map (fun r => (r.body, r.body_length))
      = some (some "hello".toList, 18446744073709551615)
    ∧ (parse_http_request "POST /echo HTTP/1.1\r\nHost: x\r\n\r\nhello".toList
        zero_request).map (fun r => (r.body, r.body_length))
      = some (none, 0) := by
  decide

end HttpServer
